import Mathlib

/-!
# The DNS L1 answer cache (`src/bin/dnsl1cache/l1cache/l1hash.cc`)

A shallow embedding of the cache builder (`CacheDataCreater`), the loader
(the `DNSL1HashTable` constructor) and the lookup (`DNSL1HashTable::find`),
followed by the properties established about them.  The interface lookup
`IfaceMgr::getIface` of `src/lib/dhcp/iface_mgr.cc` is embedded after them.

Conventions of the embedding.

* Every function that can throw, or abort on a failed `assert`, returns the
  state it had reached together with `Option LoadError`; `none` is normal
  completion.
* `uint16_t` values carry an explicit `% 65536`.  `size_t` values are natural
  numbers: a buffer length never reaches `2 ^ 64`.
* Everything `l1hash.cc` uses but does not define (the constants of
  `l1hash.h`, the DNS library, the C++ stream library) is a field of `Env`.
* A cache file is the list of its lines in the order the stream delivers
  them; each line records how its read ends: with a newline, at the end of
  the file, or by a failure of the stream.
-/

namespace Kea

/-- A domain name, as the wire-format bytes a `LabelSequence` over the whole name holds. -/
abbrev Name := List Nat

/-- The data of one resource record, in the form the library parsed it to. -/
abbrev Rdata := List Nat

/-- A response code object (`isc::dns::Rcode`), identified by its code. -/
structure Rcode where
  code : Nat
deriving DecidableEq, Repr

/-- The exceptions and aborts that can end the constructor. -/
inductive LoadError where
  | openFailed
  | readError
  | readParamsError
  | badName
  | badClass
  | badType
  | badRcode
  | notImplemented
  | rrsetError
  | invalidOperation
  | brokenCacheData
  | assertion
  | invalidBufferPosition
  | outOfFuel
deriving DecidableEq, Repr

/-- One resource record as delivered by the master-file loader to the collator. -/
structure RR where
  name : Name
  rrclass : Nat
  rrtype : Nat
  ttl : Nat
  rdata : Rdata
deriving DecidableEq, Repr

/-- A group of records of one name, class and type (`isc::dns::RRset`). -/
structure RRset where
  name : Name
  rrclass : Nat
  rrtype : Nat
  ttl : Nat
  rdatas : List Rdata
deriving DecidableEq, Repr

/-- What the renderer remembers besides its bytes: the names and record data written so far,
with the position of each (the input of name compression). -/
inductive RenderOp where
  | name (pos : Nat) (n : Name)
  | rdata (pos : Nat) (rrtype : Nat) (rd : Rdata)
deriving DecidableEq, Repr

/-- The state of `isc::dns::MessageRenderer`: the bytes written and the write history. -/
structure MessageRenderer where
  data : List Nat
  log : List RenderOp
deriving DecidableEq, Repr

/-- Result of one numeric extraction `ss >> n` applied to the next word of the line. -/
structure NumRead where
  value : Option Nat
  ok : Bool
  rest : String

/-- Everything `l1hash.cc` relies on without defining it. -/
structure Env where
  /-- The constant `DNSL1HashEntry::FLAG_ROTATABLE` of `l1hash.h`. -/
  FLAG_ROTATABLE : Nat
  /-- The constant `DNSL1HashEntry::FLAG_START_RRSET` of `l1hash.h`. -/
  FLAG_START_RRSET : Nat
  /-- The constant `DNSL1HashEntry::MASK_OFFSET` of `l1hash.h`. -/
  MASK_OFFSET : Nat
  /-- The constant `DNSL1HashTable::N_BUCKETS` of `l1hash.h`. -/
  N_BUCKETS : Nat
  /-- The value of `sizeof(DNSL1HashEntry)`. -/
  sizeofEntry : Nat
  /-- The hash the library computes over the lower-cased name data. -/
  nameHash : List Nat → Nat
  /-- The function `boost::hash_combine`, as the new seed. -/
  hash_combine : Nat → Nat → Nat
  /-- The constructor `Name(const std::string&)`; `none` when it throws. -/
  nameFromText : String → Option Name
  /-- The constructor `RRClass(const std::string&)`; `none` when it throws. -/
  classFromText : String → Option Nat
  /-- The constructor `RRType(const std::string&)`; `none` when it throws. -/
  typeFromText : String → Option Nat
  /-- The constructor `Rcode(code)`; `none` when it throws. -/
  rcodeFromCode : Nat → Option Rcode
  /-- The bytes `LabelSequence::serialize` writes. -/
  serialize : Name → List Nat
  /-- The label sequence `LabelSequence(const void*)` reads back from a buffer. -/
  deserialize : List Nat → Name
  /-- The bytes `writeName` appends for a name, given the renderer state. -/
  nameWire : MessageRenderer → Name → List Nat
  /-- The bytes `Rdata::toWire` appends, given the renderer state and the record type. -/
  rdataWire : MessageRenderer → Nat → Rdata → List Nat
  /-- The numeric extraction of the stream library on one word. -/
  readNum : String → NumRead
  /-- The value of `std::time(NULL)`. -/
  now : Nat
  /-- The indeterminate initial values of the locals and members left uninitialised. -/
  garbage : Nat → Nat

/-! ## Library constants -/

/-- The code of `RRType::A()`. -/
def RRType_A : Nat := 1

/-- The code of `RRType::AAAA()`. -/
def RRType_AAAA : Nat := 28

/-- The code of `RRClass::IN()`. -/
def RRClass_IN : Nat := 1

/-- The object `Rcode::NOERROR()`. -/
def Rcode.NOERROR : Rcode := ⟨0⟩

/-- The object `Rcode::NXRRSET()`. -/
def Rcode.NXRRSET : Rcode := ⟨8⟩

/-! ## Names and label sequences -/

/-- Modelled from the spec: the library table `maptolower` is absent from the sources;
names compare case-insensitively "per domain convention", so ASCII capitals map to
their small letters and every other byte to itself. -/
def maptolower (c : Nat) : Nat :=
  if 65 ≤ c ∧ c ≤ 90 then c + 32 else c

/-- Modelled from the spec: `LabelSequence::operator==` is absent from the sources; it is
the "exact (case-insensitive) name equality" of the lookup: same length and the same
bytes after lower-casing. -/
def labelsEq (a b : Name) : Bool :=
  decide (a.map maptolower = b.map maptolower)

/-- Modelled from the spec: `LabelSequence::getHash(false)` is absent from the sources; the
hash must "produce equal output ... regardless of original letter case", so it is a
function of the lower-cased data. -/
def getHash (E : Env) (labels : Name) : Nat :=
  E.nameHash (labels.map maptolower)

/-- The function `getQueryHash` of the source. -/
def getQueryHash (E : Env) (labels : Name) (rrtype : Nat) : Nat :=
  let hash_val := getHash E labels
  E.hash_combine hash_val rrtype

/-! ## The message renderer -/

namespace MessageRenderer

/-- The call `getLength()`. -/
def getLength (r : MessageRenderer) : Nat := r.data.length

/-- Modelled from the spec: `MessageRenderer::clear` is absent from the sources; `start`
"resets an internal buffer", so the call leaves no byte and no compression history. -/
def clear (_r : MessageRenderer) : MessageRenderer := ⟨[], []⟩

/-- The call `writeData(bytes, len)`. -/
def writeData (r : MessageRenderer) (bytes : List Nat) : MessageRenderer :=
  { r with data := r.data ++ bytes }

/-- The call `writeName(name)`. -/
def writeName (E : Env) (r : MessageRenderer) (n : Name) : MessageRenderer :=
  { data := r.data ++ E.nameWire r n, log := r.log ++ [RenderOp.name r.data.length n] }

/-- The call `writeUint16(v)`: two bytes, most significant first. -/
def writeUint16 (r : MessageRenderer) (v : Nat) : MessageRenderer :=
  { r with data := r.data ++ [v / 256 % 256, v % 256] }

/-- The call `writeUint32(v)`: four bytes, most significant first. -/
def writeUint32 (r : MessageRenderer) (v : Nat) : MessageRenderer :=
  { r with data := r.data ++ [v / 16777216 % 256, v / 65536 % 256, v / 256 % 256, v % 256] }

/-- The call `skip(len)`: the length grows, the bytes are whatever the buffer held
(written as 0 here; both are overwritten before they are used). -/
def skip (r : MessageRenderer) (len : Nat) : MessageRenderer :=
  { r with data := r.data ++ List.replicate len 0 }

/-- The call `rdata.toWire(renderer)`. -/
def writeRdata (E : Env) (r : MessageRenderer) (rrtype : Nat) (rd : Rdata) : MessageRenderer :=
  { data := r.data ++ E.rdataWire r rrtype rd,
    log := r.log ++ [RenderOp.rdata r.data.length rrtype rd] }

/-- The call `writeUint16At(v, pos)`; `none` when it throws `InvalidBufferPosition`. -/
def writeUint16At (r : MessageRenderer) (v : Nat) (pos : Nat) : Option MessageRenderer :=
  if pos + 2 ≤ r.data.length then
    some { r with data := (r.data.set pos (v / 256 % 256)).set (pos + 1) (v % 256) }
  else none

end MessageRenderer

/-! ## `CacheDataCreater` -/

/-- The members of `CacheDataCreater`. -/
structure CacheDataCreater where
  renderer_ : MessageRenderer
  offsets_ : List Nat
  offset0_ : Nat
  rotatable_ : Bool
  ans_count_ : Nat
  soa_count_ : Nat
deriving DecidableEq, Repr

namespace CacheDataCreater

/-- The method `start`. -/
def start (E : Env) (c : CacheDataCreater) (qname : Name) (qtype qclass : Nat)
    (ans_count soa_count : Nat) : CacheDataCreater :=
  let r0 := c.renderer_.clear
  let r1 := r0.writeData (List.replicate 12 0)
  let r2 := r1.writeName E qname
  let r3 := r2.writeUint16 qtype
  let r4 := r3.writeUint16 qclass
  { renderer_ := r4
    offsets_ := []
    offset0_ := r4.getLength
    rotatable_ := false
    ans_count_ := ans_count
    soa_count_ := soa_count }

/-- The method `end`. -/
def «end» (c : CacheDataCreater) : Option LoadError :=
  if c.ans_count_ ≠ 0 ∨ c.soa_count_ ≠ 0 then some LoadError.brokenCacheData else none

/-- The three-way assertion at the head of `addRRset`. -/
def countsAssert (c : CacheDataCreater) (n : Nat) : Bool :=
  if c.ans_count_ > 0 then decide (n ≤ c.ans_count_)
  else if c.soa_count_ > 0 then decide (c.soa_count_ = 1 ∧ n = c.soa_count_)
  else false

/-- The local `rotatable` of `addRRset`. -/
def isRotatable (c : CacheDataCreater) (rrset : RRset) : Bool :=
  decide ((rrset.rrtype = RRType_A ∨ rrset.rrtype = RRType_AAAA) ∧
    rrset.rdatas.length > 1 ∧ c.ans_count_ > 0)

/-- The body of the loop of `addRRset`, for one member record. -/
def renderRdata (E : Env) (rrset : RRset) (rotatable first : Bool) (rd : Rdata)
    (c : CacheDataCreater) : CacheDataCreater × Option LoadError :=
  let offset := (c.renderer_.getLength - c.offset0_) % 65536
  let rotate_flag := (if rotatable then E.FLAG_ROTATABLE else 0) % 65536
  let start_flag := (if first then E.FLAG_START_RRSET else 0) % 65536
  if offset ≤ E.MASK_OFFSET then
    let offsets1 := c.offsets_ ++ [(offset ||| rotate_flag ||| start_flag) % 65536]
    let r1 := c.renderer_.writeName E rrset.name
    let offsets2 := offsets1 ++ [(r1.getLength - c.offset0_) % 65536]
    let r2 := r1.writeUint16 rrset.rrtype
    let r3 := r2.writeUint16 rrset.rrclass
    let r4 := r3.writeUint32 rrset.ttl
    let pos := r4.getLength
    let r5 := r4.skip 2
    let r6 := r5.writeRdata E rrset.rrtype rd
    match r6.writeUint16At ((r6.getLength - pos - 2) % 65536) pos with
    | none =>
      ({ c with renderer_ := r6, offsets_ := offsets2 }, some LoadError.invalidBufferPosition)
    | some r7 =>
      if c.ans_count_ > 0 then
        ({ c with renderer_ := r7, offsets_ := offsets2, ans_count_ := c.ans_count_ - 1 }, none)
      else if c.soa_count_ > 0 then
        ({ c with renderer_ := r7, offsets_ := offsets2, soa_count_ := c.soa_count_ - 1 }, none)
      else
        ({ c with renderer_ := r7, offsets_ := offsets2 }, none)
  else (c, some LoadError.assertion)

/-- The loop of `addRRset` over the member records; `first` is the loop's flag. -/
def renderRdatas (E : Env) (rrset : RRset) (rotatable : Bool) :
    Bool → List Rdata → CacheDataCreater → CacheDataCreater × Option LoadError
  | _, [], c => (c, none)
  | first, rd :: rds, c =>
    match renderRdata E rrset rotatable first rd c with
    | (c1, some e) => (c1, some e)
    | (c1, none) => renderRdatas E rrset rotatable false rds c1

/-- The method `addRRset`. -/
def addRRset (E : Env) (c : CacheDataCreater) (rrset : RRset) :
    CacheDataCreater × Option LoadError :=
  if countsAssert c rrset.rdatas.length then
    let rotatable := isRotatable c rrset
    let c1 := if rotatable then { c with rotatable_ := true } else c
    renderRdatas E rrset rotatable true rrset.rdatas c1
  else (c, some LoadError.assertion)

end CacheDataCreater

/-! ## Cache entries and the table -/

/-- One cache entry: the header fields of `DNSL1HashEntry` in constructor order, the size of
the allocation, and the three trailing regions.  A byte of the answer region is `none` when
the copy took it from beyond the renderer's data. -/
structure DNSL1HashEntry where
  rrtype_ : Nat
  ans_count_ : Nat
  soa_count_ : Nat
  add_count_ : Nat
  rcode_ : Rcode
  data_len_ : Nat
  ttl_ : Nat
  time_ : Nat
  entry_len : Nat
  name_buflen : Nat
  nameBuf : List Nat
  offsetBuf : List Nat
  dataBuf : List (Option Nat)
deriving DecidableEq, Repr

/-- The member `entry_buckets_`: one chain of entries per bucket index. -/
abbrev Buckets := Nat → List DNSL1HashEntry

/-- The call `entry_buckets_[i].push_back(entry)`. -/
def Buckets.push_back (b : Buckets) (i : Nat) (entry : DNSL1HashEntry) : Buckets :=
  fun j => if j = i then b j ++ [entry] else b j

/-- The method `DNSL1HashTable::find`; `none` is the `NULL` result. -/
def find (E : Env) (entry_buckets_ : Buckets) (labels : Name) (type : Nat) :
    Option DNSL1HashEntry :=
  let entries := entry_buckets_ (getQueryHash E labels type % E.N_BUCKETS)
  entries.find? (fun entry => decide (entry.rrtype_ = type) &&
    labelsEq (E.deserialize entry.nameBuf) labels)

/-! ## The source file and the record producer -/

/-- What the master-file loader makes of a line when it reads it as a resource record. -/
inductive RRView where
  | rr (r : RR)
  | skip
  | bad
deriving DecidableEq, Repr

/-- How the stream behaves when a line is read to its end: the line ends with a newline; the
file ends after the last character of the line, which has no newline; or the stream fails
before the end of the line is reached. -/
inductive LineEnd where
  | newline
  | eof
  | failure
deriving DecidableEq, Repr

/-- One line of the cache file: the whitespace-separated words the metadata reader sees, what
the record parser delivers for the same line, and how the read of the line ends.  A line
that is not ended by a newline is the last thing the stream delivers. -/
structure SrcLine where
  words : List String
  rr : RRView
  ending : LineEnd

/-- The string stream `ss` during the extractions: the words left and the fail state. -/
structure SStream where
  words : List String
  failed : Bool

/-- One extraction `ss >> str` into a string variable holding `old`. -/
def SStream.getStr (ss : SStream) (old : String) : String × SStream :=
  if ss.failed then (old, ss)
  else match ss.words with
    | [] => (old, { ss with failed := true })
    | w :: ws => (w, { words := ws, failed := false })

/-- One extraction `ss >> n` into a `size_t` variable holding `old`. -/
def SStream.getNum (E : Env) (ss : SStream) (old : Nat) : Nat × SStream :=
  if ss.failed then (old, ss)
  else match ss.words with
    | [] => (old, { ss with failed := true })
    | w :: ws =>
      let r := E.readNum w
      (r.value.getD old, { words := if r.rest = "" then ws else r.rest :: ws, failed := !r.ok })

/-- The state of `RRCollator` together with the creator its callback is bound to. -/
structure Feed where
  creator : CacheDataCreater
  current_rrset_ : Option RRset

/-- The collator's handling of one record: a record of another name, class or type first
hands the collected RRset to `addRRset`. -/
def collatorAddRR (E : Env) (f : Feed) (rr : RR) : Feed × Option LoadError :=
  match f.current_rrset_ with
  | none =>
    ({ f with current_rrset_ := some ⟨rr.name, rr.rrclass, rr.rrtype, rr.ttl, [rr.rdata]⟩ }, none)
  | some cur =>
    if cur.rrclass ≠ rr.rrclass ∨ cur.rrtype ≠ rr.rrtype ∨ labelsEq cur.name rr.name = false then
      match CacheDataCreater.addRRset E f.creator cur with
      | (c1, some e) => ({ f with creator := c1 }, some e)
      | (c1, none) =>
        ({ creator := c1,
           current_rrset_ := some ⟨rr.name, rr.rrclass, rr.rrtype, rr.ttl, [rr.rdata]⟩ }, none)
    else
      let merged : RRset := { cur with ttl := min cur.ttl rr.ttl, rdatas := cur.rdatas ++ [rr.rdata] }
      ({ f with current_rrset_ := some merged }, none)

/-- The call `collator.flush()`. -/
def collatorFlush (E : Env) (f : Feed) : Feed × Option LoadError :=
  match f.current_rrset_ with
  | none => (f, none)
  | some cur =>
    match CacheDataCreater.addRRset E f.creator cur with
    | (c1, some e) => ({ f with creator := c1 }, some e)
    | (c1, none) => ({ creator := c1, current_rrset_ := none }, none)

/-- Result of `loadIncremental`: the feed, the lines left, whether the end of the file was
reached, and the error thrown if any. -/
structure Loaded where
  feed : Feed
  rest : List SrcLine
  complete : Bool
  error : Option LoadError

/-- The call `loader.loadIncremental(count_limit)` for a positive limit: records are read
until `count_limit` of them were delivered or the file ends.  A last line without a newline
is read like any other (the warning the loader gives goes to `loadWarn`, which does nothing)
and nothing follows it; a failure of the stream is reported to `loadError`, which throws. -/
def loadIncremental (E : Env) : Nat → List SrcLine → Feed → Loaded
  | 0, ls, f => ⟨f, ls, false, none⟩
  | _ + 1, [], f => ⟨f, [], true, none⟩
  | n + 1, l :: ls, f =>
    match l.ending with
    | LineEnd.failure => ⟨f, [], false, some LoadError.rrsetError⟩
    | LineEnd.eof =>
      match l.rr with
      | RRView.bad => ⟨f, [], false, some LoadError.rrsetError⟩
      | RRView.skip => ⟨f, [], true, none⟩
      | RRView.rr r =>
        match collatorAddRR E f r with
        | (f1, some e) => ⟨f1, [], false, some e⟩
        | (f1, none) => ⟨f1, [], decide (0 < n), none⟩
    | LineEnd.newline =>
      match l.rr with
      | RRView.bad => ⟨f, ls, false, some LoadError.rrsetError⟩
      | RRView.skip => loadIncremental E (n + 1) ls f
      | RRView.rr r =>
        match collatorAddRR E f r with
        | (f1, some e) => ⟨f1, ls, false, some e⟩
        | (f1, none) => loadIncremental E n ls f1

/-! ## The loader -/

/-- The locals and members the loop of the constructor works on. -/
structure LoaderState where
  qname_str : String
  qclass_str : String
  qtype_str : String
  rcode_code : Nat
  ans_count : Nat
  soa_count : Nat
  entry_count : Nat
  creator : CacheDataCreater
  entry_buckets_ : Buckets

/-- The six extractions `ss >> qname_str >> qclass_str >> qtype_str >> rcode_code >>
ans_count >> soa_count` on the words of one line. -/
def readParams (E : Env) (st : LoaderState) (words : List String) : LoaderState :=
  let ss0 : SStream := ⟨words, false⟩
  let (qname_str, ss1) := ss0.getStr st.qname_str
  let (qclass_str, ss2) := ss1.getStr st.qclass_str
  let (qtype_str, ss3) := ss2.getStr st.qtype_str
  let (rcode_code, ss4) := ss3.getNum E st.rcode_code
  let (ans_count, ss5) := ss4.getNum E st.ans_count
  let (soa_count, _) := ss5.getNum E st.soa_count
  { st with qname_str := qname_str, qclass_str := qclass_str, qtype_str := qtype_str,
            rcode_code := rcode_code, ans_count := ans_count, soa_count := soa_count }

/-- The padded name length `(labels.getSerializedLength() + 1) & ~1` in `size_t`. -/
def nameBuflen (serializedLength : Nat) : Nat :=
  ((serializedLength + 1) % 2 ^ 64) &&& (2 ^ 64 - 2)

/-- The packed field `data_len`, a `uint16_t`. -/
def dataLen (E : Env) (c : CacheDataCreater) : Nat :=
  ((c.renderer_.getLength - c.offset0_) |||
    (if c.rotatable_ then E.FLAG_ROTATABLE else 0)) % 65536

/-- The bytes `memcpy(dst, dp + offset0, len)` reads: `len` of them, starting at `offset0`. -/
def copyData (data : List Nat) (offset0 len : Nat) : List (Option Nat) :=
  (List.range len).map (fun i => data.get? (offset0 + i))

/-- The entry built from the finished creator (lines 197 to 225 of the source). -/
def buildEntry (E : Env) (c : CacheDataCreater) (qname : Name) (qtype : Nat) (rcode : Rcode)
    (ans_count soa_count : Nat) : DNSL1HashEntry :=
  let labels := qname
  let name_buflen := nameBuflen (E.serialize labels).length
  let data_len := dataLen E c
  let entry_len := E.sizeofEntry + name_buflen + 2 * c.offsets_.length + data_len
  { rrtype_ := qtype
    ans_count_ := ans_count
    soa_count_ := soa_count
    add_count_ := 0
    rcode_ := if rcode = Rcode.NXRRSET then Rcode.NOERROR else rcode
    data_len_ := data_len
    ttl_ := 86400
    time_ := E.now
    entry_len := entry_len
    name_buflen := name_buflen
    nameBuf := E.serialize labels
    offsetBuf := c.offsets_
    dataBuf := copyData c.renderer_.data c.offset0_ data_len }

/-- Result of one pass through the loop body: the state reached, the lines left, and the
error thrown if any. -/
structure Pass where
  state : LoaderState
  rest : List SrcLine
  error : Option LoadError

/-- The record producer's part of one pass (lines 187 to 194): `start`, the two
`loadIncremental` calls and `flush`. -/
def renderRecord (E : Env) (c : CacheDataCreater) (qname : Name) (qtype qclass : Nat)
    (ans_count soa_count : Nat) (rest : List SrcLine) : Loaded :=
  let f0 : Feed := ⟨c.start E qname qtype qclass ans_count soa_count, none⟩
  let l1 : Loaded := if ans_count > 0 then loadIncremental E ans_count rest f0
    else ⟨f0, rest, false, none⟩
  match l1.error with
  | some e => ⟨l1.feed, l1.rest, l1.complete, some e⟩
  | none =>
    let l2 : Loaded :=
      if soa_count > 0 then
        if l1.complete then ⟨l1.feed, l1.rest, true, some LoadError.invalidOperation⟩
        else loadIncremental E soa_count l1.rest l1.feed
      else l1
    match l2.error with
    | some e => ⟨l2.feed, l2.rest, l2.complete, some e⟩
    | none =>
      match collatorFlush E l2.feed with
      | (f3, e) => ⟨f3, l2.rest, l2.complete, e⟩

/-- The locals `qname`, `qclass`, `qtype` and `rcode` of one pass. -/
structure Query where
  qname : Name
  qclass : Nat
  qtype : Nat
  rcode : Rcode
deriving DecidableEq, Repr

/-- The construction of the four locals from the parameters read (lines 178 to 185), in
source order: name, class, the class check, type, result code. -/
def parseQuery (E : Env) (st : LoaderState) : Except LoadError Query :=
  match E.nameFromText st.qname_str with
  | none => Except.error LoadError.badName
  | some qname =>
    match E.classFromText st.qclass_str with
    | none => Except.error LoadError.badClass
    | some qclass =>
      if qclass ≠ RRClass_IN then Except.error LoadError.notImplemented
      else
        match E.typeFromText st.qtype_str with
        | none => Except.error LoadError.badType
        | some qtype =>
          match E.rcodeFromCode st.rcode_code with
          | none => Except.error LoadError.badRcode
          | some rcode => Except.ok ⟨qname, qclass, qtype, rcode⟩

/-- The rest of one pass (lines 187 to 227), once the four locals exist. -/
def loadQuery (E : Env) (st1 : LoaderState) (q : Query) (rest : List SrcLine) : Pass :=
  let ld := renderRecord E st1.creator q.qname q.qtype q.qclass st1.ans_count st1.soa_count rest
  let st2 := { st1 with creator := ld.feed.creator }
  match ld.error with
  | some e => ⟨st2, ld.rest, some e⟩
  | none =>
    match st2.creator.end with
    | some e => ⟨st2, ld.rest, some e⟩
    | none =>
      if st2.creator.renderer_.getLength - st2.creator.offset0_ ≤ E.MASK_OFFSET then
        let entry := buildEntry E st2.creator q.qname q.qtype q.rcode st1.ans_count
          st1.soa_count
        let bucket := getQueryHash E q.qname q.qtype % E.N_BUCKETS
        let st3 := { st2 with entry_buckets_ := st2.entry_buckets_.push_back bucket entry }
        if labelsEq q.qname (E.deserialize entry.nameBuf) then
          ⟨{ st3 with entry_count := st3.entry_count + 1 }, ld.rest, none⟩
        else ⟨st3, ld.rest, some LoadError.assertion⟩
      else ⟨st2, ld.rest, some LoadError.assertion⟩

/-- One pass through the body of the `while` loop (lines 172 to 227), for a line `getline`
delivered with its newline. -/
def pass (E : Env) (st : LoaderState) (line : SrcLine) (rest : List SrcLine) : Pass :=
  let st1 := readParams E st line.words
  match parseQuery E st1 with
  | Except.error e => ⟨st1, rest, some e⟩
  | Except.ok q => loadQuery E st1 q rest

/-- The `while` loop of the constructor (lines 163 to 228).  With no line left `getline`
reads nothing and sets the end-of-file state, and the loop is left.  Otherwise `getline`
delivers the next line: if the file ended before a newline, `ifs.eof()` holds and the loop is
left by the `break` of line 167, the line delivered being dropped; if the stream failed, the
read error of line 169 is thrown; else the body runs for the line.  Every pass takes at
least one line, so fuel equal to the number of lines is never used up. -/
def loop (E : Env) : Nat → LoaderState → List SrcLine → LoaderState × Option LoadError
  | _, st, [] => (st, none)
  | 0, st, _ :: _ => (st, some LoadError.outOfFuel)
  | fuel + 1, st, line :: rest =>
    match line.ending with
    | LineEnd.eof => (st, none)
    | LineEnd.failure => (st, some LoadError.readError)
    | LineEnd.newline =>
      match pass E st line rest with
      | ⟨st1, _, some e⟩ => (st1, some e)
      | ⟨st1, rest1, none⟩ => loop E fuel st1 rest1

/-- The state of the constructor when it enters the loop. -/
def initialState (E : Env) : LoaderState :=
  { qname_str := ""
    qclass_str := ""
    qtype_str := ""
    rcode_code := E.garbage 0
    ans_count := E.garbage 1
    soa_count := E.garbage 2
    entry_count := 0
    creator := ⟨⟨[], []⟩, [], E.garbage 3, false, E.garbage 4, E.garbage 5⟩
    entry_buckets_ := fun _ => [] }

/-- The run of the constructor `DNSL1HashTable(cache_file)`: the state on leaving it, and the
exception it left with if any.  The file is `none` when it cannot be opened. -/
def construct (E : Env) (cache_file : Option (List SrcLine)) : LoaderState × Option LoadError :=
  match cache_file with
  | none => (initialState E, some LoadError.openFailed)
  | some lines => loop E lines.length (initialState E) lines

/-- The table the expression `new DNSL1HashTable(cache_file)` yields, or the exception. -/
def DNSL1HashTable (E : Env) (cache_file : Option (List SrcLine)) : Except LoadError Buckets :=
  match construct E cache_file with
  | (_, some e) => Except.error e
  | (st, none) => Except.ok st.entry_buckets_

/-! ## A concrete environment

The constants are two flag bits above a 14-bit offset mask; the library functions are small
stand-ins that know the names, classes and types used in the examples. -/

/-- The wire form of `example.test.`: the labels `example` and `test` and the root label. -/
def exampleTestName : Name :=
  [7, 101, 120, 97, 109, 112, 108, 101, 4, 116, 101, 115, 116, 0]

/-- The wire form of `EXAMPLE.test.`, which differs from `exampleTestName` in case only. -/
def exampleTestUpper : Name :=
  [7, 69, 88, 65, 77, 80, 76, 69, 4, 116, 101, 115, 116, 0]

/-- The wire form of `other.test.`. -/
def otherTestName : Name :=
  [5, 111, 116, 104, 101, 114, 4, 116, 101, 115, 116, 0]

/-- The value of a string of decimal digits, most significant first; `none` if a character
is not a digit. -/
def digitsValue : List Char → Nat → Option Nat
  | [], acc => some acc
  | c :: cs, acc =>
    if 48 ≤ c.toNat ∧ c.toNat ≤ 57 then digitsValue cs (acc * 10 + (c.toNat - 48)) else none

/-- The concrete environment of the examples. -/
def exampleEnv : Env where
  FLAG_ROTATABLE := 0x8000
  FLAG_START_RRSET := 0x4000
  MASK_OFFSET := 0x3fff
  N_BUCKETS := 1009
  sizeofEntry := 32
  nameHash := fun bs => bs.foldl (fun h b => (h * 31 + b) % 2 ^ 64) 0
  hash_combine := fun seed v => (seed ^^^ (v + 0x9e3779b9 + seed * 64 + seed / 4)) % 2 ^ 64
  nameFromText := fun s =>
    if s = "example.test" then some exampleTestName
    else if s = "EXAMPLE.test" then some exampleTestUpper
    else if s = "other.test" then some otherTestName
    else none
  classFromText := fun s =>
    if s = "IN" then some 1 else if s = "CH" then some 3 else none
  typeFromText := fun s =>
    if s = "A" then some 1 else if s = "AAAA" then some 28
    else if s = "SOA" then some 6 else if s = "TXT" then some 16 else none
  rcodeFromCode := fun n => if n % 65536 ≤ 4095 then some ⟨n % 65536⟩ else none
  serialize := fun n => n.length :: n
  deserialize := fun b => b.drop 1
  nameWire := fun r n =>
    match r.log.find? (fun op => match op with
      | RenderOp.name _ m => labelsEq m n
      | RenderOp.rdata _ _ _ => false) with
    | some (RenderOp.name pos _) => [192 + pos / 256, pos % 256]
    | _ => n
  rdataWire := fun _ _ rd => rd
  readNum := fun w =>
    match w.data with
    | [] => ⟨none, false, ""⟩
    | c :: cs =>
      match digitsValue (c :: cs) 0 with
      | some v => ⟨some v, true, ""⟩
      | none => ⟨some 0, false, ""⟩
  now := 1700000000
  garbage := fun _ => 0

/-- The metadata line `example.test IN A 0 2 0`; read as a record it is a parse error. -/
def lineExampleA2 : SrcLine :=
  ⟨["example.test", "IN", "A", "0", "2", "0"], RRView.bad, LineEnd.newline⟩

/-- The record line `example.test. 3600 IN A 192.0.2.1`. -/
def lineRecordA1 : SrcLine :=
  ⟨["example.test.", "3600", "IN", "A", "192.0.2.1"],
   RRView.rr ⟨exampleTestName, 1, 1, 3600, [192, 0, 2, 1]⟩, LineEnd.newline⟩

/-- The record line `example.test. 3600 IN A 192.0.2.2`. -/
def lineRecordA2 : SrcLine :=
  ⟨["example.test.", "3600", "IN", "A", "192.0.2.2"],
   RRView.rr ⟨exampleTestName, 1, 1, 3600, [192, 0, 2, 2]⟩, LineEnd.newline⟩

/-- The cache file of the scenario: one address query with two address records. -/
def fileTwoAddresses : List SrcLine :=
  [lineExampleA2, lineRecordA1, lineRecordA2]

/-! ## Conditions on the constants -/

/-- The two flags are `uint16_t` values that no in-range offset carries, and they do not
overlap each other ("two flag bits outside the maximum representable offset range"). -/
structure FlagsWF (E : Env) : Prop where
  mask_lt : E.MASK_OFFSET < 65536
  rot_lt : E.FLAG_ROTATABLE < 65536
  start_lt : E.FLAG_START_RRSET < 65536
  rot_ne : E.FLAG_ROTATABLE ≠ 0
  start_ne : E.FLAG_START_RRSET ≠ 0
  rot_mask : ∀ x, x ≤ E.MASK_OFFSET → x &&& E.FLAG_ROTATABLE = 0
  start_mask : ∀ x, x ≤ E.MASK_OFFSET → x &&& E.FLAG_START_RRSET = 0
  start_rot : E.FLAG_START_RRSET &&& E.FLAG_ROTATABLE = 0

/-! ## Vocabulary of the statements -/

/-- The first offset word of a member record: the `uint16_t` offset with the two flags. -/
def firstWord (E : Env) (rotatable first : Bool) (c : CacheDataCreater) : Nat :=
  ((c.renderer_.getLength - c.offset0_) % 65536 |||
    (if rotatable then E.FLAG_ROTATABLE else 0) % 65536 |||
    (if first then E.FLAG_START_RRSET else 0) % 65536) % 65536

/-- The second offset word of a member record: the `uint16_t` offset after the owner name. -/
def secondWord (E : Env) (rrset : RRset) (c : CacheDataCreater) : Nat :=
  ((c.renderer_.writeName E rrset.name).getLength - c.offset0_) % 65536

/-- The remaining counts after one member record. -/
def countsAfter (c : CacheDataCreater) : Nat × Nat :=
  if c.ans_count_ > 0 then (c.ans_count_ - 1, c.soa_count_)
  else if c.soa_count_ > 0 then (c.ans_count_, c.soa_count_ - 1)
  else (c.ans_count_, c.soa_count_)

/-- The creator after `start` for the query `example.test IN A` with two answers declared. -/
def startedTwoAnswers : CacheDataCreater :=
  CacheDataCreater.start exampleEnv ⟨⟨[], []⟩, [], 0, false, 0, 0⟩ exampleTestName 1 1 2 0

/-- The RRset of the two address records of `example.test`. -/
def rrsetTwoAddresses : RRset :=
  ⟨exampleTestName, 1, 1, 3600, [[192, 0, 2, 1], [192, 0, 2, 2]]⟩

/-- The creator `addRRset` runs its loop on: the member `rotatable_` is raised first when the
RRset is rotatable. -/
def loopEntry (c : CacheDataCreater) (rrset : RRset) : CacheDataCreater :=
  if CacheDataCreater.isRotatable c rrset then { c with rotatable_ := true } else c

/-- The creator at the moment `addRRset` begins member record `k` of the RRset (counted
from 0): the first `k` members have been rendered. -/
def beforeMember (E : Env) (c : CacheDataCreater) (rrset : RRset) (k : Nat) :
    CacheDataCreater :=
  (CacheDataCreater.renderRdatas E rrset (CacheDataCreater.isRotatable c rrset) true
    (rrset.rdatas.take k) (loopEntry c rrset)).1

/-- The query name and type a pass works with: the locals `qname` and `qtype` built from the
parameters read for the line. -/
def passKey (E : Env) (st : LoaderState) (line : SrcLine) : Option (Name × Nat) :=
  match parseQuery E (readParams E st line.words) with
  | Except.ok q => some (q.qname, q.qtype)
  | Except.error _ => none

/-- The (query name, query type) pairs of the metadata lines the loop processed, in order,
as the loader read them. -/
def loadedKeys (E : Env) : Nat → LoaderState → List SrcLine → List (Name × Nat)
  | _, _, [] => []
  | 0, _, _ :: _ => []
  | fuel + 1, st, line :: rest =>
    match line.ending with
    | LineEnd.eof => []
    | LineEnd.failure => []
    | LineEnd.newline =>
      match pass E st line rest with
      | ⟨_, _, some _⟩ => []
      | ⟨st1, rest1, none⟩ => (passKey E st line).toList ++ loadedKeys E fuel st1 rest1

/-- The (query name, query type) pairs loaded from a cache file. -/
def keysOf (E : Env) (lines : List SrcLine) : List (Name × Nat) :=
  loadedKeys E lines.length (initialState E) lines

/-- The state and the lines left after `k` passes of the loop that all completed; `none` if
the loop is left or a pass throws before that. -/
def afterPasses (E : Env) : Nat → LoaderState → List SrcLine →
    Option (LoaderState × List SrcLine)
  | 0, st, ls => some (st, ls)
  | _ + 1, _, [] => none
  | k + 1, st, line :: rest =>
    match line.ending with
    | LineEnd.eof => none
    | LineEnd.failure => none
    | LineEnd.newline =>
      match pass E st line rest with
      | ⟨_, _, some _⟩ => none
      | ⟨st1, rest1, none⟩ => afterPasses E k st1 rest1

/-- Every key loaded so far has an entry of its type and name in its bucket. -/
def KeysPresent (E : Env) (st : LoaderState) (keys : List (Name × Nat)) : Prop :=
  ∀ k ∈ keys, ∃ e ∈ st.entry_buckets_ (getQueryHash E k.1 k.2 % E.N_BUCKETS),
    e.rrtype_ = k.2 ∧ labelsEq (E.deserialize e.nameBuf) k.1 = true

/-- Every entry in a bucket has the type and name of a key loaded so far. -/
def EntriesKeyed (E : Env) (st : LoaderState) (keys : List (Name × Nat)) : Prop :=
  ∀ i, ∀ e ∈ st.entry_buckets_ i, ∃ k ∈ keys,
    e.rrtype_ = k.2 ∧ labelsEq (E.deserialize e.nameBuf) k.1 = true

/-- The metadata line `other.test IN AAAA 8 0 0`: a negative answer without records. -/
def lineOtherNxrrset : SrcLine :=
  ⟨["other.test", "IN", "AAAA", "8", "0", "0"], RRView.bad, LineEnd.newline⟩

/-- A cache file holding the negative answer only. -/
def fileNegative : List SrcLine := [lineOtherNxrrset]

/-- The metadata line `example.test IN A 0 1 0`: one answer record declared. -/
def lineExampleA1 : SrcLine :=
  ⟨["example.test", "IN", "A", "0", "1", "0"], RRView.bad, LineEnd.newline⟩

/-- A cache file that declares one answer record and ends without supplying it. -/
def fileMissingRecord : List SrcLine := [lineExampleA1]

/-- The metadata line `other.test CH A 0 0 0`, of class CH. -/
def lineOtherChaos : SrcLine :=
  ⟨["other.test", "CH", "A", "0", "0", "0"], RRView.bad, LineEnd.newline⟩

/-- A cache file with a complete address query followed by a query of class CH. -/
def fileWithChaos : List SrcLine :=
  [lineExampleA2, lineRecordA1, lineRecordA2, lineOtherChaos]

/-- The entry a completed pass builds for the line it read, from the creator as `end()` left
it and the locals `q` of the pass. -/
def builtEntry (E : Env) (st : LoaderState) (line : SrcLine) (rest : List SrcLine)
    (q : Query) : DNSL1HashEntry :=
  buildEntry E (pass E st line rest).state.creator q.qname q.qtype q.rcode
    (readParams E st line.words).ans_count (readParams E st line.words).soa_count

/-- The bucket a completed pass appends its entry to. -/
def builtBucket (E : Env) (q : Query) : Nat :=
  getQueryHash E q.qname q.qtype % E.N_BUCKETS

/-- The length part of a packed `data_len` field: the `uint16_t` value
`data_len & ~FLAG_ROTATABLE`. -/
def lengthPart (E : Env) (data_len : Nat) : Nat :=
  data_len &&& (65535 ^^^ E.FLAG_ROTATABLE)

/-- The renderer length when a member record's owner name has been written: the position of
the record's type field. -/
def nameEnd (E : Env) (rrset : RRset) (c : CacheDataCreater) : Nat :=
  (c.renderer_.writeName E rrset.name).getLength

/-- The renderer length when `toWire` of a member record's data is called, after the name,
type, class, TTL and the two reserved length bytes: the position of the record-data
region. -/
def rdataStart (E : Env) (rrset : RRset) (c : CacheDataCreater) : Nat :=
  (((((c.renderer_.writeName E rrset.name).writeUint16 rrset.rrtype).writeUint16
    rrset.rrclass).writeUint32 rrset.ttl).skip 2).getLength

/-- The renderer after one member record has been written and its length field patched. -/
def renderedRecord (E : Env) (rrset : RRset) (rd : Rdata) (r : MessageRenderer) :
    MessageRenderer :=
  let r6 := (((((r.writeName E rrset.name).writeUint16 rrset.rrtype).writeUint16
    rrset.rrclass).writeUint32 rrset.ttl).skip 2).writeRdata E rrset.rrtype rd
  let pos := ((((r.writeName E rrset.name).writeUint16 rrset.rrtype).writeUint16
    rrset.rrclass).writeUint32 rrset.ttl).getLength
  let v := (r6.getLength - pos - 2) % 65536
  { r6 with data := (r6.data.set pos (v / 256 % 256)).set (pos + 1) (v % 256) }

/-- The creator after one member record, when the offset assertion of the record holds. -/
def renderedMember (E : Env) (rrset : RRset) (rotatable first : Bool) (rd : Rdata)
    (c : CacheDataCreater) : CacheDataCreater :=
  { renderer_ := renderedRecord E rrset rd c.renderer_
    offsets_ := c.offsets_ ++ [firstWord E rotatable first c, secondWord E rrset c]
    offset0_ := c.offset0_
    rotatable_ := c.rotatable_
    ans_count_ := (countsAfter c).1
    soa_count_ := (countsAfter c).2 }

/-- A creator started for the query `example.test IN TXT` with two answers declared. -/
def startedTwoTexts : CacheDataCreater :=
  CacheDataCreater.start exampleEnv ⟨⟨[], []⟩, [], 0, false, 0, 0⟩ exampleTestName 16 1 2 0

/-- A TXT RRset of `example.test` with two members: record data of 65524 bytes (that many
empty character-strings) and record data of two bytes. -/
def rrsetLongText : RRset :=
  ⟨exampleTestName, 1, 16, 3600, [List.replicate 65524 0, [1, 65]]⟩

/-- A sequence of `addRRset` calls on one creator, ended by the first call that throws. -/
def addRRsets (E : Env) : CacheDataCreater → List RRset → CacheDataCreater × Option LoadError
  | c, [] => (c, none)
  | c, rrset :: rest =>
    match CacheDataCreater.addRRset E c rrset with
    | (c1, some e) => (c1, some e)
    | (c1, none) => addRRsets E c1 rest

/-- The number of member records of a list of RRsets. -/
def memberCount (rrsets : List RRset) : Nat :=
  (rrsets.map (fun rrset => rrset.rdatas.length)).sum

/-- The wire form of `test.`, the zone of the examples. -/
def testZoneName : Name := [4, 116, 101, 115, 116, 0]

/-- The SOA RRset of the zone `test.`, with one member. -/
def rrsetSoa : RRset :=
  ⟨testZoneName, 1, 6, 3600,
    [[0, 0, 0, 0, 0, 1, 0, 0, 14, 16, 0, 0, 3, 132, 0, 9, 58, 128, 0, 0, 14, 16]]⟩

/-- A creator started for `example.test IN A` with no answer and two authority records
declared. -/
def startedTwoAuthorities : CacheDataCreater :=
  CacheDataCreater.start exampleEnv ⟨⟨[], []⟩, [], 0, false, 0, 0⟩ exampleTestName 1 1 0 2

/-- A creator started for `example.test IN A` with no answer and one authority record
declared. -/
def startedOneAuthority : CacheDataCreater :=
  CacheDataCreater.start exampleEnv ⟨⟨[], []⟩, [], 0, false, 0, 0⟩ exampleTestName 1 1 0 1

/-- A creator started for `example.test IN A` with no record declared. -/
def startedNoRecords : CacheDataCreater :=
  CacheDataCreater.start exampleEnv ⟨⟨[], []⟩, [], 0, false, 0, 0⟩ exampleTestName 1 1 0 0

/-- The metadata line `example.test IN A 3 0 0`: a name error, without records. -/
def lineExampleNxdomain : SrcLine :=
  ⟨["example.test", "IN", "A", "3", "0", "0"], RRView.bad, LineEnd.newline⟩

/-- A metadata line that holds the query name `other.test` and nothing else. -/
def lineOtherAlone : SrcLine :=
  ⟨["other.test"], RRView.bad, LineEnd.newline⟩

/-- A cache file whose second metadata line has one field instead of six. -/
def fileShortLine : List SrcLine := [lineExampleNxdomain, lineOtherAlone]

/-- The test of the loop of `find`: the entry has the requested type and its stored name
equals the requested name. -/
def entryMatches (E : Env) (labels : Name) (type : Nat) (entry : DNSL1HashEntry) : Bool :=
  decide (entry.rrtype_ = type) && labelsEq (E.deserialize entry.nameBuf) labels

/-- The bucket index and the entry of a completed pass, if the pass built one. -/
def passEntry (E : Env) (st : LoaderState) (line : SrcLine) (rest : List SrcLine) :
    List (Nat × DNSL1HashEntry) :=
  match parseQuery E (readParams E st line.words) with
  | Except.ok q => [(builtBucket E q, builtEntry E st line rest q)]
  | Except.error _ => []

/-- The entries the loop built, in load order, each with the index of its bucket. -/
def loadedEntries (E : Env) : Nat → LoaderState → List SrcLine → List (Nat × DNSL1HashEntry)
  | _, _, [] => []
  | 0, _, _ :: _ => []
  | fuel + 1, st, line :: rest =>
    match line.ending with
    | LineEnd.eof => []
    | LineEnd.failure => []
    | LineEnd.newline =>
      match pass E st line rest with
      | ⟨_, _, some _⟩ => []
      | ⟨st1, rest1, none⟩ => passEntry E st line rest ++ loadedEntries E fuel st1 rest1

/-- The entries built from a cache file, in load order, each with the index of its bucket. -/
def entriesOf (E : Env) (lines : List SrcLine) : List (Nat × DNSL1HashEntry) :=
  loadedEntries E lines.length (initialState E) lines

/-- The metadata line `EXAMPLE.test IN A 3 0 0`: the name of `lineExampleA2` in capitals. -/
def lineExampleUpperNxdomain : SrcLine :=
  ⟨["EXAMPLE.test", "IN", "A", "3", "0", "0"], RRView.bad, LineEnd.newline⟩

/-- A cache file that loads `example.test` with type A twice. -/
def fileDuplicate : List SrcLine :=
  [lineExampleA2, lineRecordA1, lineRecordA2, lineExampleUpperNxdomain]

/-- The members of an RRset rendered one after the other with no offset assertion: the
creator `addRRset` reaches when every assertion of its loop holds. -/
def renderedMembers (E : Env) (rrset : RRset) (rotatable : Bool) :
    Bool → List Rdata → CacheDataCreater → CacheDataCreater
  | _, [], c => c
  | first, rd :: rds, c =>
    renderedMembers E rrset rotatable false rds (renderedMember E rrset rotatable first rd c)

/-- With `T` member records declared in all, every record already rendered has left two
offset words and at least ten bytes after the payload origin. -/
def Progress (c : CacheDataCreater) (T : Nat) : Prop :=
  c.offsets_.length + 2 * (c.ans_count_ + c.soa_count_) = 2 * T ∧
  c.offset0_ + 10 * T ≤ c.renderer_.getLength + 10 * (c.ans_count_ + c.soa_count_)

/-- The members of `IfaceMgr::Iface`, in the order the constructor initialises them, and the
two collections it leaves empty. -/
structure Iface where
  name_ : String
  ifindex_ : Int
  mac_len_ : Nat
  hardware_type_ : Nat
  flag_loopback_ : Bool
  flag_up_ : Bool
  flag_running_ : Bool
  flag_multicast_ : Bool
  flag_broadcast_ : Bool
  flags_ : Nat
  mac_ : List Nat
  addrs_ : List (List Nat)
  sockets_ : List Int
deriving DecidableEq, Repr

/-- What `iface_mgr.cc` uses of the header `iface_mgr.h`, which the sources do not include:
the size of the link-address buffer and the two accessors of `Iface` that `getIface`
calls. -/
structure IfaceDecl where
  /-- The constant `IfaceMgr::MAX_MAC_LEN`. -/
  MAX_MAC_LEN : Nat
  /-- The accessor `Iface::getIndex()`. -/
  getIndex : Iface → Int
  /-- The accessor `Iface::getName()`. -/
  getName : Iface → String

/-- The constructor `IfaceMgr::Iface::Iface(name, ifindex)`. -/
def makeIface (D : IfaceDecl) (name : String) (ifindex : Int) : Iface :=
  { name_ := name
    ifindex_ := ifindex
    mac_len_ := 0
    hardware_type_ := 0
    flag_loopback_ := false
    flag_up_ := false
    flag_running_ := false
    flag_multicast_ := false
    flag_broadcast_ := false
    flags_ := 0
    mac_ := List.replicate D.MAX_MAC_LEN 0
    addrs_ := []
    sockets_ := [] }

/-- The member of `IfaceMgr` that `getIface` reads: the interface collection. -/
structure IfaceMgr where
  ifaces_ : List Iface
deriving DecidableEq, Repr

/-- The loop of `getIface(int ifindex)` from the iterator position `pos` on: the position of
the element whose address is returned, `none` when the loop runs to the end. -/
def getIfaceByIndexFrom (D : IfaceDecl) (ifindex : Int) : List Iface → Nat → Option Nat
  | [], _ => none
  | iface :: rest, pos =>
    if D.getIndex iface = ifindex then some pos
    else getIfaceByIndexFrom D ifindex rest (pos + 1)

/-- The loop of `getIface(const std::string& ifname)` from the iterator position `pos` on. -/
def getIfaceByNameFrom (D : IfaceDecl) (ifname : String) : List Iface → Nat → Option Nat
  | [], _ => none
  | iface :: rest, pos =>
    if D.getName iface = ifname then some pos
    else getIfaceByNameFrom D ifname rest (pos + 1)

/-- The method `IfaceMgr::getIface(int ifindex)`: the manager as the call leaves it, and the
pointer returned, as the position of the interface it points to (`none` is `NULL`). -/
def IfaceMgr.getIface (D : IfaceDecl) (m : IfaceMgr) (ifindex : Int) : IfaceMgr × Option Nat :=
  (m, getIfaceByIndexFrom D ifindex m.ifaces_ 0)

/-- The method `IfaceMgr::getIface(const std::string& ifname)`, the overload that searches
by name. -/
def IfaceMgr.getIfaceNamed (D : IfaceDecl) (m : IfaceMgr) (ifname : String) :
    IfaceMgr × Option Nat :=
  (m, getIfaceByNameFrom D ifname m.ifaces_ 0)

/-- The accessors as the unit test reads them: the members `ifindex_` and `name_`. -/
def memberAccess : IfaceDecl :=
  { MAX_MAC_LEN := 20
    getIndex := fun iface => iface.ifindex_
    getName := fun iface => iface.name_ }

/-- The manager of the unit test `getIface`: the interfaces `lo1/1`, `eth5/2`, `en3/5` and
`e1000g0/3`, appended in this order. -/
def testIfaceMgr : IfaceMgr :=
  ⟨[makeIface memberAccess "lo1" 1, makeIface memberAccess "eth5" 2,
    makeIface memberAccess "en3" 5, makeIface memberAccess "e1000g0" 3]⟩

/-- The renderer length when a member record's name, type, class and TTL have been written:
the position `pos` of the two bytes reserved for the record-data length. -/
def lengthFieldPos (E : Env) (rrset : RRset) (r : MessageRenderer) : Nat :=
  ((((r.writeName E rrset.name).writeUint16 rrset.rrtype).writeUint16
    rrset.rrclass).writeUint32 rrset.ttl).getLength

/-- The renderer when `toWire` of a member record's data has returned and the reserved length
bytes are still to be patched. -/
def beforePatch (E : Env) (rrset : RRset) (rd : Rdata) (r : MessageRenderer) :
    MessageRenderer :=
  (((((r.writeName E rrset.name).writeUint16 rrset.rrtype).writeUint16
    rrset.rrclass).writeUint32 rrset.ttl).skip 2).writeRdata E rrset.rrtype rd

/-- The bytes `toWire` of a member record's data appends after the reserved length bytes. -/
def rdataBytes (E : Env) (rrset : RRset) (rd : Rdata) (r : MessageRenderer) : List Nat :=
  E.rdataWire (((((r.writeName E rrset.name).writeUint16 rrset.rrtype).writeUint16
    rrset.rrclass).writeUint32 rrset.ttl).skip 2) rrset.rrtype rd

/-- Whether an offset word carries `FLAG_START_RRSET`. -/
def hasStart (E : Env) (w : Nat) : Bool :=
  decide (w &&& E.FLAG_START_RRSET = E.FLAG_START_RRSET)

/-- Whether an offset word carries `FLAG_ROTATABLE`. -/
def hasRotatable (E : Env) (w : Nat) : Bool :=
  decide (w &&& E.FLAG_ROTATABLE = E.FLAG_ROTATABLE)

/-- Whether some RRset of a sequence of `addRRset` calls is rotatable when it is added: its
call finds the answer counter positive, and it has more than one member of type A or
AAAA. -/
def anyRotatable (E : Env) : CacheDataCreater → List RRset → Bool
  | _, [] => false
  | c, rrset :: rest =>
    CacheDataCreater.isRotatable c rrset ||
      anyRotatable E (CacheDataCreater.addRRset E c rrset).1 rest

/-- The number of RRsets of a list that have at least one member. -/
def nonEmptyCount (rrsets : List RRset) : Nat :=
  (rrsets.filter (fun rrset => decide (rrset.rdatas ≠ []))).length

/-- The number of bytes rendered after the payload origin. -/
def payloadLength (c : CacheDataCreater) : Nat :=
  c.renderer_.getLength - c.offset0_

/-- The flag bits of the offset words recorded so far: `starts` words carry
`FLAG_START_RRSET`, and a word carrying both flags exists exactly when `rot` holds. -/
def Flagged (E : Env) (c : CacheDataCreater) (starts : Nat) (rot : Bool) : Prop :=
  c.offset0_ ≤ c.renderer_.getLength ∧
  c.offsets_.countP (hasStart E) = starts ∧
  ((∃ w ∈ c.offsets_, hasStart E w = true ∧ hasRotatable E w = true) ↔ rot = true)

/-- The offsets the words recorded so far encode, each word masked with `MASK_OFFSET`. -/
def maskedOffsets (E : Env) (c : CacheDataCreater) : List Nat :=
  c.offsets_.map (fun w => w &&& E.MASK_OFFSET)

/-- The encoded offsets increase strictly along the list, begin with 0, and stay below the
number of payload bytes rendered. -/
def Ordered (E : Env) (c : CacheDataCreater) : Prop :=
  c.offset0_ ≤ c.renderer_.getLength ∧
  (c.offsets_ = [] → c.renderer_.getLength = c.offset0_) ∧
  (maskedOffsets E c).Pairwise (fun a b => a < b) ∧
  (∀ x ∈ maskedOffsets E c, x < payloadLength c) ∧
  (∀ x, (maskedOffsets E c).head? = some x → x = 0)

/-- A TXT RRset of `example.test` with two members: record data of 16371 bytes, after which
16383 payload bytes are rendered, and record data of two bytes. -/
def rrsetMediumText : RRset :=
  ⟨exampleTestName, 1, 16, 3600, [List.replicate 16371 0, [1, 65]]⟩

/-- The number of member records of one `addRRset` call that are rendered while the answer
counter is positive. -/
def membersWhileAnswer (E : Env) (c : CacheDataCreater) (rrset : RRset) : Nat :=
  ((List.range rrset.rdatas.length).filter
    (fun k => decide (0 < (beforeMember E c rrset k).ans_count_))).length

/-- The number of member records of a sequence of `addRRset` calls that are rendered while
the answer counter is positive. -/
def answerMembers (E : Env) : CacheDataCreater → List RRset → Nat
  | _, [] => 0
  | c, rrset :: rest =>
    membersWhileAnswer E c rrset + answerMembers E (CacheDataCreater.addRRset E c rrset).1 rest

/-- The metadata line `other.test IN A 3 0 0` as the last line of a file, with no newline
after it. -/
def lineOtherUnterminated : SrcLine :=
  ⟨["other.test", "IN", "A", "3", "0", "0"], RRView.bad, LineEnd.eof⟩

/-- A cache file that consists of one metadata line without a newline. -/
def fileUnterminated : List SrcLine := [lineOtherUnterminated]

/-- A cache file of two metadata lines, the second without a newline. -/
def fileLastUnterminated : List SrcLine := [lineExampleNxdomain, lineOtherUnterminated]

/-- The beginning of a metadata line during whose read the stream fails. -/
def lineOtherFailed : SrcLine :=
  ⟨["other.test", "IN"], RRView.bad, LineEnd.failure⟩

/-- A cache file whose second line cannot be read to its end. -/
def fileReadFailure : List SrcLine := [lineExampleNxdomain, lineOtherFailed]

/-! # Properties -/

/-! ## Auxiliary facts: bit operations -/

theorem and_or_right (a b c : Nat) : (a ||| b) &&& c = (a &&& c) ||| (b &&& c) := by
  apply Nat.eq_of_testBit_eq
  intro i
  simp only [Nat.testBit_and, Nat.testBit_or]
  cases a.testBit i <;> cases b.testBit i <;> cases c.testBit i <;> rfl

theorem lt_two_pow_and_two_pow {x k j : Nat} (hx : x < 2 ^ k) (hkj : k ≤ j) :
    x &&& 2 ^ j = 0 := by
  have hlt : x < 2 ^ j := lt_of_lt_of_le hx (Nat.pow_le_pow_right (by decide) hkj)
  rw [Nat.and_two_pow, Nat.testBit_lt_two_pow hlt]
  simp

theorem exampleEnv_flagsWF : FlagsWF exampleEnv where
  mask_lt := by decide
  rot_lt := by decide
  start_lt := by decide
  rot_ne := by decide
  start_ne := by decide
  rot_mask := by
    intro x hx
    have h : x < 2 ^ 14 := Nat.lt_succ_of_le hx
    exact lt_two_pow_and_two_pow (j := 15) h (by decide)
  start_mask := by
    intro x hx
    have h : x < 2 ^ 14 := Nat.lt_succ_of_le hx
    exact lt_two_pow_and_two_pow (j := 14) h (by decide)
  start_rot := by decide

/-! ## Auxiliary facts: lists -/

theorem get?_append_cons {α : Type} (l : List α) (a : α) (ws : List α) :
    (l ++ a :: ws).get? l.length = some a := by
  induction l with
  | nil => rfl
  | cons x xs ih => simpa using ih

theorem get?_length_self {α : Type} (l : List α) : l.get? l.length = none := by
  induction l with
  | nil => rfl
  | cons x xs ih => simp

/-! ## Auxiliary facts: the renderer -/

theorem writeUint16At_isSome (r : MessageRenderer) (v pos : Nat)
    (h : pos + 2 ≤ r.data.length) :
    r.writeUint16At v pos =
      some { r with data := (r.data.set pos (v / 256 % 256)).set (pos + 1) (v % 256) } := by
  unfold MessageRenderer.writeUint16At
  rw [if_pos h]

theorem renderRdata_fail (E : Env) (rrset : RRset) (rotatable first : Bool) (rd : Rdata)
    (c : CacheDataCreater)
    (h : ¬ (c.renderer_.getLength - c.offset0_) % 65536 ≤ E.MASK_OFFSET) :
    CacheDataCreater.renderRdata E rrset rotatable first rd c = (c, some LoadError.assertion) := by
  unfold CacheDataCreater.renderRdata
  simp only [h, if_false]

theorem renderRdata_ok (E : Env) (rrset : RRset) (rotatable first : Bool) (rd : Rdata)
    (c : CacheDataCreater)
    (h : (c.renderer_.getLength - c.offset0_) % 65536 ≤ E.MASK_OFFSET) :
    ∃ c1, CacheDataCreater.renderRdata E rrset rotatable first rd c = (c1, none) ∧
      c1.offsets_ = c.offsets_ ++ [firstWord E rotatable first c, secondWord E rrset c] ∧
      c1.offset0_ = c.offset0_ ∧ c1.rotatable_ = c.rotatable_ ∧
      (c1.ans_count_, c1.soa_count_) = countsAfter c ∧
      c.renderer_.getLength + 10 ≤ c1.renderer_.getLength := by
  unfold CacheDataCreater.renderRdata
  simp only [h, if_true]
  rw [writeUint16At_isSome]
  · simp only [countsAfter, firstWord, secondWord]
    by_cases ha : c.ans_count_ > 0
    · simp only [ha, if_true]
      refine ⟨_, rfl, ?_, rfl, rfl, rfl, ?_⟩
      · simp
      · simp [MessageRenderer.getLength, MessageRenderer.writeUint32, MessageRenderer.writeUint16,
          MessageRenderer.writeName, MessageRenderer.skip, MessageRenderer.writeRdata]
        omega
    · by_cases hs : c.soa_count_ > 0
      · simp only [ha, hs, if_true, if_false]
        refine ⟨_, rfl, ?_, rfl, rfl, rfl, ?_⟩
        · simp
        · simp [MessageRenderer.getLength, MessageRenderer.writeUint32,
            MessageRenderer.writeUint16, MessageRenderer.writeName, MessageRenderer.skip,
            MessageRenderer.writeRdata]
          omega
      · simp only [ha, hs, if_false]
        refine ⟨_, rfl, ?_, rfl, rfl, rfl, ?_⟩
        · simp
        · simp [MessageRenderer.getLength, MessageRenderer.writeUint32,
            MessageRenderer.writeUint16, MessageRenderer.writeName, MessageRenderer.skip,
            MessageRenderer.writeRdata]
          omega
  · simp [MessageRenderer.getLength, MessageRenderer.writeUint32, MessageRenderer.writeUint16,
      MessageRenderer.writeName, MessageRenderer.skip, MessageRenderer.writeRdata]
    omega

theorem renderRdata_cases (E : Env) (rrset : RRset) (rotatable first : Bool) (rd : Rdata)
    (c : CacheDataCreater) :
    (CacheDataCreater.renderRdata E rrset rotatable first rd c = (c, some LoadError.assertion) ∧
      ¬ (c.renderer_.getLength - c.offset0_) % 65536 ≤ E.MASK_OFFSET) ∨
    (∃ c1, CacheDataCreater.renderRdata E rrset rotatable first rd c = (c1, none) ∧
      (c.renderer_.getLength - c.offset0_) % 65536 ≤ E.MASK_OFFSET ∧
      c1.offsets_ = c.offsets_ ++ [firstWord E rotatable first c, secondWord E rrset c] ∧
      c1.offset0_ = c.offset0_ ∧ c1.rotatable_ = c.rotatable_ ∧
      (c1.ans_count_, c1.soa_count_) = countsAfter c ∧
      c.renderer_.getLength + 10 ≤ c1.renderer_.getLength) := by
  by_cases h : (c.renderer_.getLength - c.offset0_) % 65536 ≤ E.MASK_OFFSET
  · right
    obtain ⟨c1, h1, h2⟩ := renderRdata_ok E rrset rotatable first rd c h
    exact ⟨c1, h1, h, h2⟩
  · left
    exact ⟨renderRdata_fail E rrset rotatable first rd c h, h⟩

theorem renderRdatas_offsets (E : Env) (rrset : RRset) (rotatable : Bool) :
    ∀ (rds : List Rdata) (first : Bool) (c : CacheDataCreater),
      ∃ ws, (CacheDataCreater.renderRdatas E rrset rotatable first rds c).1.offsets_ =
          c.offsets_ ++ ws ∧
        (CacheDataCreater.renderRdatas E rrset rotatable first rds c).1.offset0_ = c.offset0_ ∧
        (CacheDataCreater.renderRdatas E rrset rotatable first rds c).1.rotatable_ =
          c.rotatable_ ∧
        ((CacheDataCreater.renderRdatas E rrset rotatable first rds c).2 = none →
          ws.length = 2 * rds.length) := by
  intro rds
  induction rds with
  | nil =>
    intro first c
    exact ⟨[], by simp [CacheDataCreater.renderRdatas]⟩
  | cons rd rds ih =>
    intro first c
    rcases renderRdata_cases E rrset rotatable first rd c with ⟨hf, _⟩ | ⟨c1, h1, _, ho, h0, hr, _, _⟩
    · refine ⟨[], ?_⟩
      simp [CacheDataCreater.renderRdatas, hf]
    · obtain ⟨ws, hws, hws0, hwsr, hlen⟩ := ih false c1
      refine ⟨[firstWord E rotatable first c, secondWord E rrset c] ++ ws, ?_⟩
      simp only [CacheDataCreater.renderRdatas, h1]
      refine ⟨?_, ?_, ?_, ?_⟩
      · rw [hws, ho]; simp
      · rw [hws0, h0]
      · rw [hwsr, hr]
      · intro hok
        have := hlen hok
        simp only [List.length_append, List.length_cons, List.length_nil]
        omega

theorem firstWord_eq (E : Env) (hE : FlagsWF E) (rotatable first : Bool)
    (c : CacheDataCreater) :
    firstWord E rotatable first c =
      (c.renderer_.getLength - c.offset0_) % 65536 |||
        (if rotatable then E.FLAG_ROTATABLE else 0) |||
        (if first then E.FLAG_START_RRSET else 0) := by
  have h16 : (65536 : Nat) = 2 ^ 16 := by norm_num
  have hr : (if rotatable then E.FLAG_ROTATABLE else 0) < 65536 := by
    cases rotatable
    · simp
    · simpa using hE.rot_lt
  have hs : (if first then E.FLAG_START_RRSET else 0) < 65536 := by
    cases first
    · simp
    · simpa using hE.start_lt
  have ho : (c.renderer_.getLength - c.offset0_) % 65536 < 65536 := Nat.mod_lt _ (by decide)
  unfold firstWord
  rw [Nat.mod_eq_of_lt hr, Nat.mod_eq_of_lt hs]
  apply Nat.mod_eq_of_lt
  rw [h16] at hr hs ho ⊢
  exact Nat.or_lt_two_pow (Nat.or_lt_two_pow ho hr) hs

theorem firstWord_and_rot (E : Env) (hE : FlagsWF E) (rotatable first : Bool)
    (c : CacheDataCreater)
    (h : (c.renderer_.getLength - c.offset0_) % 65536 ≤ E.MASK_OFFSET) :
    firstWord E rotatable first c &&& E.FLAG_ROTATABLE =
      if rotatable then E.FLAG_ROTATABLE else 0 := by
  rw [firstWord_eq E hE, and_or_right, and_or_right, hE.rot_mask _ h]
  cases rotatable <;> cases first <;> simp [hE.start_rot]

theorem firstWord_and_start (E : Env) (hE : FlagsWF E) (rotatable first : Bool)
    (c : CacheDataCreater)
    (h : (c.renderer_.getLength - c.offset0_) % 65536 ≤ E.MASK_OFFSET) :
    firstWord E rotatable first c &&& E.FLAG_START_RRSET =
      if first then E.FLAG_START_RRSET else 0 := by
  have hrs : E.FLAG_ROTATABLE &&& E.FLAG_START_RRSET = 0 := by
    rw [Nat.and_comm]; exact hE.start_rot
  rw [firstWord_eq E hE, and_or_right, and_or_right, hE.start_mask _ h]
  cases rotatable <;> cases first <;> simp [hrs]

theorem addRRset_first_word (E : Env) (c : CacheDataCreater) (rrset : RRset) :
    ((CacheDataCreater.addRRset E c rrset).1.offsets_ = c.offsets_ ∧
      (rrset.rdatas ≠ [] → (CacheDataCreater.addRRset E c rrset).2 ≠ none)) ∨
    (∃ ws, (CacheDataCreater.addRRset E c rrset).1.offsets_ =
        c.offsets_ ++ firstWord E (CacheDataCreater.isRotatable c rrset) true c :: ws ∧
      (c.renderer_.getLength - c.offset0_) % 65536 ≤ E.MASK_OFFSET ∧ rrset.rdatas ≠ []) := by
  unfold CacheDataCreater.addRRset
  by_cases hca : CacheDataCreater.countsAssert c rrset.rdatas.length = true
  · simp only [hca, if_true]
    generalize hc1 : (if CacheDataCreater.isRotatable c rrset = true
      then { c with rotatable_ := true } else c) = c1
    have ho : c1.offsets_ = c.offsets_ := by
      rw [← hc1]; split <;> rfl
    have hr : c1.renderer_ = c.renderer_ := by
      rw [← hc1]; split <;> rfl
    have h0 : c1.offset0_ = c.offset0_ := by
      rw [← hc1]; split <;> rfl
    cases hrd : rrset.rdatas with
    | nil =>
      left
      simp [CacheDataCreater.renderRdatas, ho]
    | cons rd rds =>
      rcases renderRdata_cases E rrset (CacheDataCreater.isRotatable c rrset) true rd c1 with
        ⟨hf, _⟩ | ⟨c2, h2, hle, ho2, _, _, _, _⟩
      · left
        simp [CacheDataCreater.renderRdatas, hf, ho]
      · right
        obtain ⟨ws, hws, _, _, _⟩ := renderRdatas_offsets E rrset
          (CacheDataCreater.isRotatable c rrset) rds false c2
        refine ⟨secondWord E rrset c1 :: ws, ?_, ?_, by simp⟩
        · simp only [CacheDataCreater.renderRdatas, h2]
          rw [hws, ho2, ho]
          simp [firstWord, hr, h0]
        · rw [← hr, ← h0]; exact hle
  · left
    simp [hca]

/-! ## The rotatable flag of an RRset's leading word -/

/-- C3: for an RRset with at least one member, a successful `addRRset` emits a first offset
word for it, and whenever that word is emitted it carries `FLAG_START_RRSET` and has
`FLAG_ROTATABLE` set exactly when the remaining answer count is positive at the call, the
RRset has more than one member and its type is A or AAAA; otherwise the flag is clear. -/
theorem C3_first_word_rotatable_iff (E : Env) (hE : FlagsWF E) (c : CacheDataCreater)
    (rrset : RRset) :
    (rrset.rdatas ≠ [] → (CacheDataCreater.addRRset E c rrset).2 = none →
      ∃ w, (CacheDataCreater.addRRset E c rrset).1.offsets_.get? c.offsets_.length = some w) ∧
    ∀ w, (CacheDataCreater.addRRset E c rrset).1.offsets_.get? c.offsets_.length = some w →
      rrset.rdatas ≠ [] ∧
      w &&& E.FLAG_START_RRSET = E.FLAG_START_RRSET ∧
      (w &&& E.FLAG_ROTATABLE = E.FLAG_ROTATABLE ↔
        (c.ans_count_ > 0 ∧ rrset.rdatas.length > 1 ∧
          (rrset.rrtype = RRType_A ∨ rrset.rrtype = RRType_AAAA))) ∧
      (w &&& E.FLAG_ROTATABLE = 0 ↔
        ¬ (c.ans_count_ > 0 ∧ rrset.rdatas.length > 1 ∧
          (rrset.rrtype = RRType_A ∨ rrset.rrtype = RRType_AAAA))) := by
  have hrot : CacheDataCreater.isRotatable c rrset = true ↔
      (c.ans_count_ > 0 ∧ rrset.rdatas.length > 1 ∧
        (rrset.rrtype = RRType_A ∨ rrset.rrtype = RRType_AAAA)) := by
    unfold CacheDataCreater.isRotatable
    rw [decide_eq_true_iff]
    tauto
  rcases addRRset_first_word E c rrset with ⟨hsame, hfail⟩ | ⟨ws, hws, hle, hne⟩
  · refine ⟨fun hne hok => absurd hok (hfail hne), ?_⟩
    intro w hw
    rw [hsame, get?_length_self] at hw
    cases hw
  · refine ⟨fun _ _ => ⟨firstWord E (CacheDataCreater.isRotatable c rrset) true c,
      by rw [hws, get?_append_cons]⟩, ?_⟩
    intro w hw
    rw [hws, get?_append_cons] at hw
    injection hw with hw
    subst hw
    refine ⟨hne, ?_, ?_, ?_⟩
    · rw [firstWord_and_start E hE _ _ c hle]; rfl
    · rw [firstWord_and_rot E hE _ _ c hle, ← hrot]
      cases CacheDataCreater.isRotatable c rrset
      · simpa using fun h => hE.rot_ne h.symm
      · simp
    · rw [firstWord_and_rot E hE _ _ c hle, ← hrot]
      cases CacheDataCreater.isRotatable c rrset
      · simp
      · simpa using hE.rot_ne

/-- Witness for C3: the two-address answer RRset of `example.test` gets the leading word
`0xC000`, which carries the rotatable flag. -/
theorem C3_first_word_rotatable_iff_witness :
    FlagsWF exampleEnv ∧
    (CacheDataCreater.addRRset exampleEnv startedTwoAnswers rrsetTwoAddresses).1.offsets_.get?
      startedTwoAnswers.offsets_.length = some 49152 ∧
    49152 &&& exampleEnv.FLAG_ROTATABLE = exampleEnv.FLAG_ROTATABLE :=
  ⟨exampleEnv_flagsWF, by decide,
   ((C3_first_word_rotatable_iff exampleEnv exampleEnv_flagsWF startedTwoAnswers
      rrsetTwoAddresses).2 49152 (by decide)).2.2.1.mpr (by decide)⟩

/-! ## The offset words of one RRset -/

theorem renderRdatas_words (E : Env) (rrset : RRset) (rotatable : Bool) :
    ∀ (rds : List Rdata) (first : Bool) (c : CacheDataCreater) (ws : List Nat),
      (CacheDataCreater.renderRdatas E rrset rotatable first rds c).2 = none →
      (CacheDataCreater.renderRdatas E rrset rotatable first rds c).1.offsets_ =
        c.offsets_ ++ ws →
      ∀ k, k < rds.length →
        ws.get? (2 * k) = some (firstWord E rotatable (first && decide (k = 0))
          (CacheDataCreater.renderRdatas E rrset rotatable first (rds.take k) c).1) ∧
        ws.get? (2 * k + 1) = some (secondWord E rrset
          (CacheDataCreater.renderRdatas E rrset rotatable first (rds.take k) c).1) := by
  intro rds
  induction rds with
  | nil =>
    intro first c ws _ _ k hk
    simp at hk
  | cons rd rds ih =>
    intro first c ws hok hws k hk
    rcases renderRdata_cases E rrset rotatable first rd c with ⟨hf, _⟩ | ⟨c1, h1, _, ho, _⟩
    · simp [CacheDataCreater.renderRdatas, hf] at hok
    · simp only [CacheDataCreater.renderRdatas, h1] at hok hws
      obtain ⟨ws1, hws1, _⟩ := renderRdatas_offsets E rrset rotatable rds false c1
      have hwseq : ws = firstWord E rotatable first c :: secondWord E rrset c :: ws1 := by
        rw [hws1, ho, List.append_assoc] at hws
        exact (List.append_cancel_left hws).symm
      cases k with
      | zero =>
        subst hwseq
        simp [CacheDataCreater.renderRdatas]
      | succ k =>
        have hk1 : k < rds.length := by simpa using hk
        obtain ⟨ha, hb⟩ := ih false c1 ws1 hok hws1 k hk1
        subst hwseq
        have e1 : 2 * (k + 1) = 2 * k + 1 + 1 := by ring
        simp only [List.take_succ_cons, CacheDataCreater.renderRdatas, h1]
        rw [e1]
        simp only [List.get?_cons_succ]
        refine ⟨?_, hb⟩
        rw [ha]
        simp

/-- C9: a successful `addRRset` call for an RRset with N member records leaves the words
recorded before unchanged and appends exactly 2N words after them; the pair at positions
2k and 2k+1 is the pair of member k, computed from the creator as it is when the first k
members have been rendered. -/
theorem C9_addRRset_appends_pairs (E : Env) (c : CacheDataCreater) (rrset : RRset)
    (hok : (CacheDataCreater.addRRset E c rrset).2 = none) :
    ∃ ws, (CacheDataCreater.addRRset E c rrset).1.offsets_ = c.offsets_ ++ ws ∧
      ws.length = 2 * rrset.rdatas.length ∧
      ∀ k, k < rrset.rdatas.length →
        ws.get? (2 * k) = some (firstWord E (CacheDataCreater.isRotatable c rrset)
          (decide (k = 0)) (beforeMember E c rrset k)) ∧
        ws.get? (2 * k + 1) = some (secondWord E rrset (beforeMember E c rrset k)) := by
  unfold CacheDataCreater.addRRset at hok ⊢
  by_cases hca : CacheDataCreater.countsAssert c rrset.rdatas.length = true
  · simp only [hca, if_true] at hok ⊢
    have ho : (loopEntry c rrset).offsets_ = c.offsets_ := by
      unfold loopEntry; split <;> rfl
    change (CacheDataCreater.renderRdatas E rrset (CacheDataCreater.isRotatable c rrset) true
      rrset.rdatas (loopEntry c rrset)).2 = none at hok
    change ∃ ws, (CacheDataCreater.renderRdatas E rrset (CacheDataCreater.isRotatable c rrset)
      true rrset.rdatas (loopEntry c rrset)).1.offsets_ = c.offsets_ ++ ws ∧ _
    obtain ⟨ws, hws, _, _, hlen⟩ := renderRdatas_offsets E rrset
      (CacheDataCreater.isRotatable c rrset) rrset.rdatas true (loopEntry c rrset)
    refine ⟨ws, by rw [hws, ho], hlen hok, ?_⟩
    intro k hk
    have := renderRdatas_words E rrset (CacheDataCreater.isRotatable c rrset) rrset.rdatas true
      (loopEntry c rrset) ws hok hws k hk
    simpa [beforeMember] using this
  · simp [hca] at hok

/-- Witness for C9: the two-address RRset of `example.test` appends four words to the empty
offset list of the started creator. -/
theorem C9_addRRset_appends_pairs_witness :
    (CacheDataCreater.addRRset exampleEnv startedTwoAnswers rrsetTwoAddresses).2 = none ∧
    ∃ ws, (CacheDataCreater.addRRset exampleEnv startedTwoAnswers rrsetTwoAddresses).1.offsets_ =
        startedTwoAnswers.offsets_ ++ ws ∧ ws.length = 2 * 2 :=
  ⟨by decide,
   (C9_addRRset_appends_pairs exampleEnv startedTwoAnswers rrsetTwoAddresses (by decide)).imp
     fun _ h => ⟨h.1, h.2.1⟩⟩

/-! ## Auxiliary facts: one pass of the loader -/

theorem buildEntry_nameBuf (E : Env) (c : CacheDataCreater) (qname : Name) (qtype : Nat)
    (rcode : Rcode) (a b : Nat) :
    (buildEntry E c qname qtype rcode a b).nameBuf = E.serialize qname := rfl

theorem loadQuery_ok (E : Env) (st1 : LoaderState) (q : Query) (rest : List SrcLine)
    (h : (loadQuery E st1 q rest).error = none) :
    (renderRecord E st1.creator q.qname q.qtype q.qclass st1.ans_count st1.soa_count
      rest).error = none ∧
    (renderRecord E st1.creator q.qname q.qtype q.qclass st1.ans_count st1.soa_count
      rest).feed.creator.end = none ∧
    (renderRecord E st1.creator q.qname q.qtype q.qclass st1.ans_count st1.soa_count
        rest).feed.creator.renderer_.getLength -
      (renderRecord E st1.creator q.qname q.qtype q.qclass st1.ans_count st1.soa_count
        rest).feed.creator.offset0_ ≤ E.MASK_OFFSET ∧
    labelsEq q.qname (E.deserialize (E.serialize q.qname)) = true ∧
    loadQuery E st1 q rest =
      ⟨{ st1 with
          creator := (renderRecord E st1.creator q.qname q.qtype q.qclass st1.ans_count
            st1.soa_count rest).feed.creator
          entry_buckets_ := st1.entry_buckets_.push_back
            (getQueryHash E q.qname q.qtype % E.N_BUCKETS)
            (buildEntry E (renderRecord E st1.creator q.qname q.qtype q.qclass st1.ans_count
              st1.soa_count rest).feed.creator q.qname q.qtype q.rcode st1.ans_count
              st1.soa_count)
          entry_count := st1.entry_count + 1 },
        (renderRecord E st1.creator q.qname q.qtype q.qclass st1.ans_count st1.soa_count
          rest).rest, none⟩ := by
  unfold loadQuery at h ⊢
  generalize renderRecord E st1.creator q.qname q.qtype q.qclass st1.ans_count st1.soa_count
    rest = ld at h ⊢
  cases he : ld.error with
  | some e => simp [he] at h
  | none =>
    simp only [he] at h ⊢
    cases hend : ld.feed.creator.end with
    | some e => simp [hend] at h
    | none =>
      simp only [hend] at h ⊢
      by_cases hm : ld.feed.creator.renderer_.getLength - ld.feed.creator.offset0_ ≤
          E.MASK_OFFSET
      · simp only [hm, if_true] at h ⊢
        by_cases hl : labelsEq q.qname (E.deserialize (E.serialize q.qname)) = true
        · simp only [buildEntry_nameBuf, hl, if_true] at h ⊢
          exact ⟨trivial, trivial, trivial, trivial, trivial⟩
        · simp [buildEntry_nameBuf, hl] at h
      · simp [hm] at h

theorem pass_ok (E : Env) (st : LoaderState) (line : SrcLine) (rest : List SrcLine)
    (h : (pass E st line rest).error = none) :
    ∃ q, parseQuery E (readParams E st line.words) = Except.ok q ∧
      passKey E st line = some (q.qname, q.qtype) ∧
      pass E st line rest = loadQuery E (readParams E st line.words) q rest := by
  unfold pass at h ⊢
  unfold passKey
  cases hq : parseQuery E (readParams E st line.words) with
  | error e => simp [hq] at h
  | ok q => exact ⟨q, rfl, rfl, by simp only [hq]⟩

theorem parseQuery_ok (E : Env) (st : LoaderState) (q : Query)
    (h : parseQuery E st = Except.ok q) :
    E.nameFromText st.qname_str = some q.qname ∧
    E.classFromText st.qclass_str = some RRClass_IN ∧ q.qclass = RRClass_IN ∧
    E.typeFromText st.qtype_str = some q.qtype ∧
    E.rcodeFromCode st.rcode_code = some q.rcode := by
  unfold parseQuery at h
  cases hn : E.nameFromText st.qname_str with
  | none => simp [hn] at h
  | some qname =>
    cases hc : E.classFromText st.qclass_str with
    | none => simp [hn, hc] at h
    | some qclass =>
      by_cases hin : qclass = RRClass_IN
      · cases ht : E.typeFromText st.qtype_str with
        | none => simp [hn, hc, hin, ht] at h
        | some qtype =>
          cases hr : E.rcodeFromCode st.rcode_code with
          | none => simp [hn, hc, hin, ht, hr] at h
          | some rcode =>
            simp [hn, hc, hin, ht, hr] at h
            subst h
            simp [hin]
      · simp [hn, hc, hin] at h

/-! ## Auxiliary facts: names -/

theorem labelsEq_iff (a b : Name) :
    labelsEq a b = true ↔ a.map maptolower = b.map maptolower := by
  unfold labelsEq
  exact decide_eq_true_iff

theorem labelsEq_refl (a : Name) : labelsEq a a = true :=
  (labelsEq_iff a a).mpr rfl

theorem labelsEq_symm {a b : Name} (h : labelsEq a b = true) : labelsEq b a = true :=
  (labelsEq_iff b a).mpr ((labelsEq_iff a b).mp h).symm

theorem labelsEq_trans {a b c : Name} (h1 : labelsEq a b = true) (h2 : labelsEq b c = true) :
    labelsEq a c = true :=
  (labelsEq_iff a c).mpr (((labelsEq_iff a b).mp h1).trans ((labelsEq_iff b c).mp h2))

theorem getQueryHash_congr (E : Env) {a b : Name} (t : Nat) (h : labelsEq a b = true) :
    getQueryHash E a t = getQueryHash E b t := by
  unfold getQueryHash getHash
  rw [(labelsEq_iff a b).mp h]

/-! ## Auxiliary facts: the loop -/

theorem loop_keys_invariant (E : Env) (I : LoaderState → List (Name × Nat) → Prop)
    (hstep : ∀ st line rest q keys,
      parseQuery E (readParams E st line.words) = Except.ok q →
      (pass E st line rest).error = none → I st keys →
      I (pass E st line rest).state (keys ++ [(q.qname, q.qtype)])) :
    ∀ (fuel : Nat) (st : LoaderState) (lines : List SrcLine) (keys : List (Name × Nat)),
      I st keys → (loop E fuel st lines).2 = none →
      I (loop E fuel st lines).1 (keys ++ loadedKeys E fuel st lines) := by
  intro fuel
  induction fuel with
  | zero =>
    intro st lines keys hI hok
    cases lines with
    | nil => simpa [loop, loadedKeys] using hI
    | cons line rest => simp [loop] at hok
  | succ fuel ih =>
    intro st lines keys hI hok
    cases lines with
    | nil => simpa [loop, loadedKeys] using hI
    | cons line rest =>
      cases hend : line.ending with
      | eof => simpa [loop, loadedKeys, hend] using hI
      | failure => simp [loop, hend] at hok
      | newline =>
        cases hp : pass E st line rest with
        | mk st1 rest1 err =>
          cases err with
          | some e => simp [loop, hend, hp] at hok
          | none =>
            have herr : (pass E st line rest).error = none := by rw [hp]
            obtain ⟨q, hq, hkey, _⟩ := pass_ok E st line rest herr
            have hI1 := hstep st line rest q keys hq herr hI
            rw [hp] at hI1
            simp only [loop, hend, hp] at hok ⊢
            have := ih st1 rest1 _ hI1 hok
            simpa [loadedKeys, hend, hp, hkey, List.append_assoc] using this

theorem readParams_buckets (E : Env) (st : LoaderState) (ws : List String) :
    (readParams E st ws).entry_buckets_ = st.entry_buckets_ := rfl

theorem readParams_creator (E : Env) (st : LoaderState) (ws : List String) :
    (readParams E st ws).creator = st.creator := rfl

theorem readParams_entry_count (E : Env) (st : LoaderState) (ws : List String) :
    (readParams E st ws).entry_count = st.entry_count := rfl

theorem pass_ok_buckets (E : Env) (st : LoaderState) (line : SrcLine) (rest : List SrcLine)
    (q : Query) (hq : parseQuery E (readParams E st line.words) = Except.ok q)
    (h : (pass E st line rest).error = none) :
    (pass E st line rest).state.entry_buckets_ =
      st.entry_buckets_.push_back (getQueryHash E q.qname q.qtype % E.N_BUCKETS)
        (buildEntry E (pass E st line rest).state.creator q.qname q.qtype q.rcode
          (readParams E st line.words).ans_count (readParams E st line.words).soa_count) ∧
    (pass E st line rest).state.creator =
      (renderRecord E st.creator q.qname q.qtype q.qclass
        (readParams E st line.words).ans_count (readParams E st line.words).soa_count
        rest).feed.creator ∧
    (pass E st line rest).state.creator.end = none ∧
    (pass E st line rest).state.creator.renderer_.getLength -
      (pass E st line rest).state.creator.offset0_ ≤ E.MASK_OFFSET ∧
    labelsEq q.qname (E.deserialize (E.serialize q.qname)) = true ∧
    (pass E st line rest).state.entry_count = st.entry_count + 1 := by
  obtain ⟨q1, hq1, _, hpass⟩ := pass_ok E st line rest h
  rw [hq] at hq1
  injection hq1 with hq1
  subst hq1
  rw [hpass] at h
  obtain ⟨_, hend, hm, hl, heq⟩ := loadQuery_ok E _ q rest h
  rw [hpass, heq]
  exact ⟨rfl, rfl, hend, hm, hl, rfl⟩

/-! ## Lookup after a load -/

theorem mem_push_back_of_mem (b : Buckets) (i j : Nat) (x e : DNSL1HashEntry)
    (h : e ∈ b j) : e ∈ (b.push_back i x) j := by
  unfold Buckets.push_back
  by_cases hji : j = i
  · simp [hji]; left; rw [← hji]; exact h
  · simp [hji]; exact h

theorem mem_push_back_self (b : Buckets) (i : Nat) (x : DNSL1HashEntry) :
    x ∈ (b.push_back i x) i := by
  unfold Buckets.push_back
  simp

theorem mem_push_back_cases (b : Buckets) (i j : Nat) (x e : DNSL1HashEntry)
    (h : e ∈ (b.push_back i x) j) : e ∈ b j ∨ e = x := by
  unfold Buckets.push_back at h
  by_cases hji : j = i
  · simp [hji] at h
    rcases h with h | h
    · left; rw [hji]; exact h
    · right; exact h
  · simp [hji] at h
    left; exact h

theorem keysPresent_step (E : Env) (st : LoaderState) (line : SrcLine) (rest : List SrcLine)
    (q : Query) (keys : List (Name × Nat))
    (hq : parseQuery E (readParams E st line.words) = Except.ok q)
    (h : (pass E st line rest).error = none) (hI : KeysPresent E st keys) :
    KeysPresent E (pass E st line rest).state (keys ++ [(q.qname, q.qtype)]) := by
  obtain ⟨hb, _, _, _, hl, _⟩ := pass_ok_buckets E st line rest q hq h
  intro k hk
  rw [hb]
  rcases List.mem_append.mp hk with hk | hk
  · obtain ⟨e, he, hprop⟩ := hI k hk
    exact ⟨e, mem_push_back_of_mem _ _ _ _ _ he, hprop⟩
  · have hk' : k = (q.qname, q.qtype) := by simpa using hk
    subst hk'
    exact ⟨_, mem_push_back_self _ _ _, rfl, labelsEq_symm hl⟩

theorem entriesKeyed_step (E : Env) (st : LoaderState) (line : SrcLine) (rest : List SrcLine)
    (q : Query) (keys : List (Name × Nat))
    (hq : parseQuery E (readParams E st line.words) = Except.ok q)
    (h : (pass E st line rest).error = none) (hI : EntriesKeyed E st keys) :
    EntriesKeyed E (pass E st line rest).state (keys ++ [(q.qname, q.qtype)]) := by
  obtain ⟨hb, _, _, _, hl, _⟩ := pass_ok_buckets E st line rest q hq h
  intro i e he
  rw [hb] at he
  rcases mem_push_back_cases _ _ _ _ _ he with he | he
  · obtain ⟨k, hk, hprop⟩ := hI i e he
    exact ⟨k, List.mem_append.mpr (Or.inl hk), hprop⟩
  · subst he
    exact ⟨(q.qname, q.qtype), List.mem_append.mpr (Or.inr (by simp)), rfl, labelsEq_symm hl⟩

theorem table_of_ok (E : Env) (lines : List SrcLine) (table : Buckets)
    (h : DNSL1HashTable E (some lines) = Except.ok table) :
    (loop E lines.length (initialState E) lines).2 = none ∧
    table = (loop E lines.length (initialState E) lines).1.entry_buckets_ := by
  unfold DNSL1HashTable construct at h
  cases hl : loop E lines.length (initialState E) lines with
  | mk st err =>
    cases err with
    | some e => simp [hl] at h
    | none =>
      simp [hl] at h
      exact ⟨rfl, h.symm⟩

theorem table_of_construct (E : Env) (cache_file : Option (List SrcLine))
    (h : (construct E cache_file).2 = none) :
    DNSL1HashTable E cache_file = Except.ok (construct E cache_file).1.entry_buckets_ := by
  unfold DNSL1HashTable
  cases hc : construct E cache_file with
  | mk st err =>
    rw [hc] at h
    simp only at h
    subst h
    rfl

theorem find_of_loaded_key (E : Env) (lines : List SrcLine) (table : Buckets)
    (h : DNSL1HashTable E (some lines) = Except.ok table)
    (name : Name) (type : Nat) (hk : (name, type) ∈ keysOf E lines)
    (requested : Name) (hci : labelsEq name requested = true) :
    ∃ entry, find E table requested type = some entry ∧ entry.rrtype_ = type ∧
      labelsEq (E.deserialize entry.nameBuf) requested = true := by
  obtain ⟨hok, htab⟩ := table_of_ok E lines table h
  have hinv := loop_keys_invariant E (KeysPresent E) (keysPresent_step E) lines.length
    (initialState E) lines [] (by intro k hk; simp at hk) hok
  obtain ⟨e, he, hty, hnm⟩ := hinv (name, type) (by simpa [keysOf] using hk)
  have hex : ∃ x ∈ table (getQueryHash E requested type % E.N_BUCKETS),
      (decide (x.rrtype_ = type) && labelsEq (E.deserialize x.nameBuf) requested) = true := by
    refine ⟨e, ?_, ?_⟩
    · rw [htab, ← getQueryHash_congr E type hci]; exact he
    · simp only [Bool.and_eq_true, decide_eq_true_eq]
      exact ⟨hty, labelsEq_trans hnm hci⟩
  have hsome := List.find?_isSome.mpr hex
  obtain ⟨entry, hentry⟩ := Option.isSome_iff_exists.mp hsome
  refine ⟨entry, hentry, ?_⟩
  have hp := List.find?_some hentry
  simp only [Bool.and_eq_true, decide_eq_true_eq] at hp
  exact hp

theorem find_none_of_no_key (E : Env) (lines : List SrcLine) (table : Buckets)
    (h : DNSL1HashTable E (some lines) = Except.ok table)
    (name : Name) (type : Nat)
    (hno : ∀ k ∈ keysOf E lines, ¬ (labelsEq k.1 name = true ∧ k.2 = type)) :
    find E table name type = none := by
  obtain ⟨hok, htab⟩ := table_of_ok E lines table h
  have hinv := loop_keys_invariant E (EntriesKeyed E) (entriesKeyed_step E) lines.length
    (initialState E) lines [] (by intro i e he; simp [initialState] at he) hok
  unfold find
  rw [List.find?_eq_none]
  intro e he hp
  simp only [Bool.and_eq_true, decide_eq_true_eq] at hp
  rw [htab] at he
  obtain ⟨k, hk, hty, hnm⟩ := hinv _ e he
  refine hno k (by simpa [keysOf] using hk) ⟨?_, ?_⟩
  · exact labelsEq_trans (labelsEq_symm hnm) hp.2
  · rw [← hty]; exact hp.1

/-! ## The entry a pass builds -/

theorem pass_builds (E : Env) (st : LoaderState) (line : SrcLine) (rest : List SrcLine)
    (q : Query) (hq : parseQuery E (readParams E st line.words) = Except.ok q)
    (h : (pass E st line rest).error = none) :
    (pass E st line rest).state.entry_buckets_ =
      st.entry_buckets_.push_back (builtBucket E q) (builtEntry E st line rest q) :=
  (pass_ok_buckets E st line rest q hq h).1

theorem loop_entries_invariant (E : Env) (P : DNSL1HashEntry → Prop)
    (hP : ∀ st line rest q, parseQuery E (readParams E st line.words) = Except.ok q →
      (pass E st line rest).error = none → P (builtEntry E st line rest q))
    (lines : List SrcLine) (table : Buckets)
    (h : DNSL1HashTable E (some lines) = Except.ok table) :
    ∀ i, ∀ e ∈ table i, P e := by
  obtain ⟨hok, htab⟩ := table_of_ok E lines table h
  have hinv := loop_keys_invariant E (fun st _ => ∀ i, ∀ e ∈ st.entry_buckets_ i, P e)
    (by
      intro st line rest q keys hq herr hI i e he
      rw [pass_builds E st line rest q hq herr] at he
      rcases mem_push_back_cases _ _ _ _ _ he with he | he
      · exact hI i e he
      · subst he; exact hP st line rest q hq herr)
    lines.length (initialState E) lines [] (by intro i e he; simp [initialState] at he) hok
  rw [htab]
  exact hinv

/-! ## The stored result code -/

/-- C7: the entry a completed pass builds and appends to its bucket stores NOERROR when the
result code object built from the line is NXRRSET and that object unchanged otherwise; so no
entry of a table the loader built has result code NXRRSET. -/
theorem C7_rcode_normalized (E : Env) :
    (∀ st line rest q, parseQuery E (readParams E st line.words) = Except.ok q →
      (pass E st line rest).error = none →
      E.rcodeFromCode (readParams E st line.words).rcode_code = some q.rcode ∧
      (pass E st line rest).state.entry_buckets_ =
        st.entry_buckets_.push_back (builtBucket E q) (builtEntry E st line rest q) ∧
      (q.rcode = Rcode.NXRRSET → (builtEntry E st line rest q).rcode_ = Rcode.NOERROR) ∧
      (q.rcode ≠ Rcode.NXRRSET → (builtEntry E st line rest q).rcode_ = q.rcode)) ∧
    (∀ lines table, DNSL1HashTable E (some lines) = Except.ok table →
      ∀ i, ∀ e ∈ table i, e.rcode_ ≠ Rcode.NXRRSET) := by
  have hnorm : ∀ rc : Rcode, (if rc = Rcode.NXRRSET then Rcode.NOERROR else rc) ≠
      Rcode.NXRRSET := by
    intro rc
    by_cases hrc : rc = Rcode.NXRRSET
    · rw [if_pos hrc]; decide
    · rw [if_neg hrc]; exact hrc
  refine ⟨?_, ?_⟩
  · intro st line rest q hq herr
    refine ⟨(parseQuery_ok E _ q hq).2.2.2.2, pass_builds E st line rest q hq herr, ?_, ?_⟩
    · intro hrc
      simp [builtEntry, buildEntry, hrc]
    · intro hrc
      simp [builtEntry, buildEntry, hrc]
  · intro lines table h
    exact loop_entries_invariant E (fun e => e.rcode_ ≠ Rcode.NXRRSET)
      (fun st line rest q _ _ => hnorm q.rcode) lines table h

/-- Witness for C7: the line `other.test IN AAAA 8 0 0` is stored with result code NOERROR. -/
theorem C7_rcode_normalized_witness :
    (find exampleEnv (construct exampleEnv (some fileNegative)).1.entry_buckets_
      otherTestName 28).map DNSL1HashEntry.rcode_ = some Rcode.NOERROR ∧
    ∀ i, ∀ e ∈ (construct exampleEnv (some fileNegative)).1.entry_buckets_ i,
      e.rcode_ ≠ Rcode.NXRRSET :=
  ⟨by decide,
   (C7_rcode_normalized exampleEnv).2 fileNegative _
     (table_of_construct exampleEnv (some fileNegative) (by decide))⟩

/-! ## The packed length field -/

theorem lengthPart_packed (R p : Nat) (rot : Bool) (hR : R < 65536) (hp : p < 65536)
    (hpR : p &&& R = 0) :
    ((p ||| (if rot then R else 0)) % 65536) &&& (65535 ^^^ R) = p := by
  have h16 : (65536 : Nat) = 2 ^ 16 := by norm_num
  have h15 : (65535 : Nat) = 2 ^ 16 - 1 := by norm_num
  have hbit : ∀ i, (p.testBit i && R.testBit i) = false := by
    intro i
    rw [← Nat.testBit_and, hpR, Nat.zero_testBit]
  have hhigh : ∀ x, x < 2 ^ 16 → ∀ i, ¬ i < 16 → x.testBit i = false := by
    intro x hx i hi
    apply Nat.testBit_lt_two_pow
    exact lt_of_lt_of_le hx (Nat.pow_le_pow_right (by decide) (by omega))
  rw [h16] at hR hp
  have hor : (p ||| (if rot then R else 0)) < 2 ^ 16 := by
    apply Nat.or_lt_two_pow hp
    cases rot
    · simp
    · simpa using hR
  rw [h16, Nat.mod_eq_of_lt hor, h15]
  apply Nat.eq_of_testBit_eq
  intro i
  rw [Nat.testBit_and, Nat.testBit_or, Nat.testBit_xor, Nat.testBit_two_pow_sub_one]
  have hb := hbit i
  by_cases hi : i < 16
  · cases rot
    · simp only [Bool.false_eq_true, if_false, Nat.zero_testBit, hi, decide_True]
      cases hpi : p.testBit i <;> cases hRi : R.testBit i <;> simp_all
    · simp only [if_true, hi, decide_True]
      cases hpi : p.testBit i <;> cases hRi : R.testBit i <;> simp_all
  · have hp0 := hhigh p hp i hi
    have hR0 := hhigh R hR i hi
    cases rot <;> simp [hp0, hR0, hi]

theorem renderRecord_no_records (E : Env) (c : CacheDataCreater) (qname : Name)
    (qtype qclass : Nat) (rest : List SrcLine) :
    (renderRecord E c qname qtype qclass 0 0 rest).feed.creator =
      c.start E qname qtype qclass 0 0 := by
  simp [renderRecord, collatorFlush]

/-- C10: for the entry a completed pass builds, the length part of the stored `data_len_`
(the packed field with the rotatable flag masked out) is the renderer length minus `offset0_`
of the creator as `end()` left it; it is 0 when the line declares no records. -/
theorem C10_data_length_part (E : Env) (hE : FlagsWF E) (st : LoaderState) (line : SrcLine)
    (rest : List SrcLine) (q : Query)
    (hq : parseQuery E (readParams E st line.words) = Except.ok q)
    (h : (pass E st line rest).error = none) :
    (pass E st line rest).state.entry_buckets_ =
      st.entry_buckets_.push_back (builtBucket E q) (builtEntry E st line rest q) ∧
    lengthPart E (builtEntry E st line rest q).data_len_ =
      (pass E st line rest).state.creator.renderer_.getLength -
        (pass E st line rest).state.creator.offset0_ ∧
    ((readParams E st line.words).ans_count = 0 →
      (readParams E st line.words).soa_count = 0 →
      lengthPart E (builtEntry E st line rest q).data_len_ = 0) := by
  obtain ⟨_, hc, _, hm, _, _⟩ := pass_ok_buckets E st line rest q hq h
  have hlen : lengthPart E (builtEntry E st line rest q).data_len_ =
      (pass E st line rest).state.creator.renderer_.getLength -
        (pass E st line rest).state.creator.offset0_ := by
    unfold lengthPart builtEntry buildEntry dataLen
    simp only
    exact lengthPart_packed E.FLAG_ROTATABLE _ _ hE.rot_lt
      (lt_of_le_of_lt hm hE.mask_lt) (hE.rot_mask _ hm)
  refine ⟨pass_builds E st line rest q hq h, hlen, ?_⟩
  intro ha hs
  rw [hlen, hc, ha, hs, renderRecord_no_records]
  simp [CacheDataCreater.start]

/-- Witness for C10: the entry of `example.test IN A 0 2 0` with its two address records
stores `data_len_` 32800, whose length part is the 32 bytes rendered after the question. -/
theorem C10_data_length_part_witness :
    (builtEntry exampleEnv (initialState exampleEnv) lineExampleA2
      [lineRecordA1, lineRecordA2] ⟨exampleTestName, 1, 1, ⟨0⟩⟩).data_len_ = 32800 ∧
    lengthPart exampleEnv 32800 = 32 ∧
    lengthPart exampleEnv (builtEntry exampleEnv (initialState exampleEnv) lineExampleA2
      [lineRecordA1, lineRecordA2] ⟨exampleTestName, 1, 1, ⟨0⟩⟩).data_len_ =
      (pass exampleEnv (initialState exampleEnv) lineExampleA2
        [lineRecordA1, lineRecordA2]).state.creator.renderer_.getLength -
      (pass exampleEnv (initialState exampleEnv) lineExampleA2
        [lineRecordA1, lineRecordA2]).state.creator.offset0_ :=
  ⟨by decide, by decide,
   (C10_data_length_part exampleEnv exampleEnv_flagsWF (initialState exampleEnv) lineExampleA2
     [lineRecordA1, lineRecordA2] ⟨exampleTestName, 1, 1, ⟨0⟩⟩ rfl (by decide)).2.1⟩

/-! ## Auxiliary facts: progress of the loop -/

theorem loadIncremental_rest_le (E : Env) :
    ∀ (ls : List SrcLine) (n : Nat) (f : Feed),
      (loadIncremental E n ls f).rest.length ≤ ls.length := by
  intro ls
  induction ls with
  | nil =>
    intro n f
    cases n <;> simp [loadIncremental]
  | cons l ls ih =>
    intro n f
    cases n with
    | zero => simp [loadIncremental]
    | succ n =>
      unfold loadIncremental
      cases hend : l.ending with
      | failure => simp
      | eof =>
        cases hrr : l.rr with
        | bad => simp
        | skip => simp
        | rr r =>
          simp only
          cases hadd : collatorAddRR E f r with
          | mk f1 err =>
            cases err <;> simp
      | newline =>
        cases hrr : l.rr with
        | bad => simp
        | skip =>
          simp only [List.length_cons]
          exact Nat.le_succ_of_le (ih (n + 1) f)
        | rr r =>
          simp only [List.length_cons]
          cases hadd : collatorAddRR E f r with
          | mk f1 err =>
            cases err with
            | some e => simp
            | none => exact Nat.le_succ_of_le (ih n f1)

theorem renderRecord_rest_le (E : Env) (c : CacheDataCreater) (qname : Name)
    (qtype qclass a b : Nat) (rest : List SrcLine) :
    (renderRecord E c qname qtype qclass a b rest).rest.length ≤ rest.length := by
  unfold renderRecord
  simp only
  generalize hl1 : (if a > 0 then loadIncremental E a rest
    ⟨c.start E qname qtype qclass a b, none⟩
    else (⟨⟨c.start E qname qtype qclass a b, none⟩, rest, false, none⟩ : Loaded)) = l1
  have h1 : l1.rest.length ≤ rest.length := by
    rw [← hl1]
    split
    · exact loadIncremental_rest_le E rest a _
    · exact Nat.le_refl _
  cases he1 : l1.error with
  | some e => simpa using h1
  | none =>
    simp only
    generalize hl2 : (if b > 0 then
        if l1.complete = true then
          (⟨l1.feed, l1.rest, true, some LoadError.invalidOperation⟩ : Loaded)
        else loadIncremental E b l1.rest l1.feed
      else l1) = l2
    have h2 : l2.rest.length ≤ rest.length := by
      rw [← hl2]
      split
      · split
        · exact h1
        · exact Nat.le_trans (loadIncremental_rest_le E l1.rest b _) h1
      · exact h1
    cases he2 : l2.error with
    | some e => simpa using h2
    | none =>
      simp only
      cases collatorFlush E l2.feed with
      | mk f3 e => simpa using h2

theorem loadQuery_rest_le (E : Env) (st1 : LoaderState) (q : Query) (rest : List SrcLine) :
    (loadQuery E st1 q rest).rest.length ≤ rest.length := by
  have h := renderRecord_rest_le E st1.creator q.qname q.qtype q.qclass st1.ans_count
    st1.soa_count rest
  unfold loadQuery
  simp only
  split
  · exact h
  · split
    · exact h
    · split
      · split
        · exact h
        · exact h
      · exact h

theorem pass_rest_le (E : Env) (st : LoaderState) (line : SrcLine) (rest : List SrcLine) :
    (pass E st line rest).rest.length ≤ rest.length := by
  unfold pass
  simp only
  split
  · exact Nat.le_refl _
  · exact loadQuery_rest_le E _ _ rest

theorem loop_fuel (E : Env) :
    ∀ (fuel1 fuel2 : Nat) (st : LoaderState) (lines : List SrcLine),
      lines.length ≤ fuel1 → lines.length ≤ fuel2 →
      loop E fuel1 st lines = loop E fuel2 st lines := by
  intro fuel1
  induction fuel1 with
  | zero =>
    intro fuel2 st lines h1 _
    cases lines with
    | nil => cases fuel2 <;> rfl
    | cons line rest => simp at h1
  | succ f1 ih =>
    intro fuel2 st lines h1 h2
    cases lines with
    | nil => cases fuel2 <;> rfl
    | cons line rest =>
      cases fuel2 with
      | zero => simp at h2
      | succ f2 =>
        have hr := pass_rest_le E st line rest
        simp only [List.length_cons, Nat.succ_le_succ_iff] at h1 h2
        cases hend : line.ending with
        | eof => simp [loop, hend]
        | failure => simp [loop, hend]
        | newline =>
          cases hp : pass E st line rest with
          | mk st1 rest1 err =>
            rw [hp] at hr
            cases err with
            | some e => simp [loop, hend, hp]
            | none =>
              simp only [loop, hend, hp]
              exact ih f2 st1 rest1 (Nat.le_trans hr h1) (Nat.le_trans hr h2)

theorem afterPasses_loop (E : Env) :
    ∀ (k : Nat) (st : LoaderState) (lines : List SrcLine) (st1 : LoaderState)
      (lines1 : List SrcLine),
      afterPasses E k st lines = some (st1, lines1) →
      loop E lines.length st lines = loop E lines1.length st1 lines1 := by
  intro k
  induction k with
  | zero =>
    intro st lines st1 lines1 h
    simp only [afterPasses, Option.some.injEq, Prod.mk.injEq] at h
    rw [h.1, h.2]
  | succ k ih =>
    intro st lines st1 lines1 h
    cases lines with
    | nil => simp [afterPasses] at h
    | cons line rest =>
      have hr := pass_rest_le E st line rest
      cases hend : line.ending with
      | eof => simp [afterPasses, hend] at h
      | failure => simp [afterPasses, hend] at h
      | newline =>
        cases hp : pass E st line rest with
        | mk st2 rest2 err =>
          rw [hp] at hr
          cases err with
          | some e => simp [afterPasses, hend, hp] at h
          | none =>
            simp only [afterPasses, hend, hp] at h
            simp only [List.length_cons, loop, hend, hp]
            rw [loop_fuel E rest.length rest2.length st2 rest2 hr (Nat.le_refl _)]
            exact ih st2 rest2 st1 lines1 h

theorem construct_at_failing_pass (E : Env) (lines : List SrcLine) (k : Nat)
    (st : LoaderState) (line : SrcLine) (rest : List SrcLine) (e : LoadError)
    (hreach : afterPasses E k (initialState E) lines = some (st, line :: rest))
    (hnl : line.ending = LineEnd.newline)
    (herr : (pass E st line rest).error = some e) :
    construct E (some lines) = ((pass E st line rest).state, some e) := by
  unfold construct
  simp only
  rw [afterPasses_loop E k _ _ _ _ hreach]
  cases hp : pass E st line rest with
  | mk st1 rest1 err =>
    rw [hp] at herr
    simp only at herr
    subst herr
    simp [loop, hnl, hp]

theorem table_of_failing (E : Env) (cache_file : Option (List SrcLine)) (st : LoaderState)
    (e : LoadError) (h : construct E cache_file = (st, some e)) :
    DNSL1HashTable E cache_file = Except.error e := by
  unfold DNSL1HashTable
  rw [h]

/-! ## A query of an unsupported class -/

/-- C6: `end` raises "broken cache data" exactly when the remaining answer count or the
remaining authority count is nonzero and completes otherwise; and when the loader reaches a
metadata line, delivered with its newline, for which the records are read without error but
`end` raises, the
constructor throws that error, no table is returned, and the buckets and the entry count
are as they were before the line. -/
theorem C6_end_broken_cache_data (E : Env) :
    (∀ c : CacheDataCreater, c.end = some LoadError.brokenCacheData ↔
      (c.ans_count_ ≠ 0 ∨ c.soa_count_ ≠ 0)) ∧
    (∀ c : CacheDataCreater, c.end = none ↔ ¬ (c.ans_count_ ≠ 0 ∨ c.soa_count_ ≠ 0)) ∧
    (∀ (lines : List SrcLine) (k : Nat) (st : LoaderState) (line : SrcLine)
      (rest : List SrcLine) (q : Query),
      afterPasses E k (initialState E) lines = some (st, line :: rest) →
      line.ending = LineEnd.newline →
      parseQuery E (readParams E st line.words) = Except.ok q →
      (renderRecord E st.creator q.qname q.qtype q.qclass
        (readParams E st line.words).ans_count (readParams E st line.words).soa_count
        rest).error = none →
      (renderRecord E st.creator q.qname q.qtype q.qclass
        (readParams E st line.words).ans_count (readParams E st line.words).soa_count
        rest).feed.creator.end ≠ none →
      DNSL1HashTable E (some lines) = Except.error LoadError.brokenCacheData ∧
      (construct E (some lines)).1.entry_buckets_ = st.entry_buckets_ ∧
      (construct E (some lines)).1.entry_count = st.entry_count) := by
  have hend : ∀ c : CacheDataCreater, c.end = some LoadError.brokenCacheData ↔
      (c.ans_count_ ≠ 0 ∨ c.soa_count_ ≠ 0) := by
    intro c
    unfold CacheDataCreater.end
    by_cases hc : c.ans_count_ ≠ 0 ∨ c.soa_count_ ≠ 0
    · rw [if_pos hc]
      exact ⟨fun _ => hc, fun _ => rfl⟩
    · rw [if_neg hc]
      exact ⟨fun h => Option.noConfusion h, fun h => absurd h hc⟩
  have hnone : ∀ c : CacheDataCreater, c.end = none ↔
      ¬ (c.ans_count_ ≠ 0 ∨ c.soa_count_ ≠ 0) := by
    intro c
    unfold CacheDataCreater.end
    by_cases hc : c.ans_count_ ≠ 0 ∨ c.soa_count_ ≠ 0
    · rw [if_pos hc]
      exact ⟨fun h => Option.noConfusion h, fun h => absurd hc h⟩
    · rw [if_neg hc]
      exact ⟨fun _ => hc, fun _ => rfl⟩
  refine ⟨hend, hnone, ?_⟩
  intro lines k st line rest q hreach hnl hq hrender hraise
  have hbroken : (renderRecord E st.creator q.qname q.qtype q.qclass
      (readParams E st line.words).ans_count (readParams E st line.words).soa_count
      rest).feed.creator.end = some LoadError.brokenCacheData := by
    rw [hend]
    by_contra hcon
    exact hraise ((hnone _).mpr hcon)
  have hp : (pass E st line rest).error = some LoadError.brokenCacheData ∧
      (pass E st line rest).state.entry_buckets_ = st.entry_buckets_ ∧
      (pass E st line rest).state.entry_count = st.entry_count := by
    unfold pass
    simp only [hq]
    unfold loadQuery
    simp only [readParams_creator, hrender, hbroken]
    exact ⟨trivial, rfl, rfl⟩
  have hc := construct_at_failing_pass E lines k st line rest LoadError.brokenCacheData hreach
    hnl hp.1
  refine ⟨table_of_failing E _ _ _ hc, ?_, ?_⟩
  · rw [hc]; exact hp.2.1
  · rw [hc]; exact hp.2.2

/-- Witness for C6: the file consisting of `example.test IN A 0 1 0` alone, which supplies no
record for the declared answer, fails to load with "broken cache data". -/
theorem C6_end_broken_cache_data_witness :
    DNSL1HashTable exampleEnv (some fileMissingRecord) =
      Except.error LoadError.brokenCacheData ∧
    (construct exampleEnv (some fileMissingRecord)).1.entry_count = 0 :=
  ⟨((C6_end_broken_cache_data exampleEnv).2.2 fileMissingRecord 0 (initialState exampleEnv)
      lineExampleA1 [] ⟨exampleTestName, 1, 1, ⟨0⟩⟩ rfl rfl rfl (by decide) (by decide)).1,
   by decide⟩

/-! ## The allocation size and the copied answer bytes -/

theorem copyData_length (data : List Nat) (offset0 len : Nat) :
    (copyData data offset0 len).length = len := by
  simp [copyData]

theorem copyData_get? (data : List Nat) (offset0 len i : Nat) (h : i < len) :
    (copyData data offset0 len).get? i = some (data.get? (offset0 + i)) := by
  unfold copyData
  rw [List.get?_eq_getElem?, List.getElem?_map, List.getElem?_range h]
  rfl

theorem dataLen_ne_payload (E : Env) (hE : FlagsWF E) (c : CacheDataCreater)
    (hm : c.renderer_.getLength - c.offset0_ ≤ E.MASK_OFFSET) (hrot : c.rotatable_ = true) :
    dataLen E c ≠ c.renderer_.getLength - c.offset0_ := by
  have h16 : (65536 : Nat) = 2 ^ 16 := by norm_num
  have hp : c.renderer_.getLength - c.offset0_ < 2 ^ 16 := by
    rw [← h16]; exact lt_of_le_of_lt hm hE.mask_lt
  have hR : E.FLAG_ROTATABLE < 2 ^ 16 := by rw [← h16]; exact hE.rot_lt
  intro heq
  have hand : dataLen E c &&& E.FLAG_ROTATABLE = E.FLAG_ROTATABLE := by
    unfold dataLen
    rw [hrot, if_pos rfl, h16, Nat.mod_eq_of_lt (Nat.or_lt_two_pow hp hR), and_or_right,
      hE.rot_mask _ hm, Nat.and_self, Nat.zero_or]
  rw [heq, hE.rot_mask _ hm] at hand
  exact hE.rot_ne hand.symm

theorem rotatable_entry_oversized (E : Env) (hE : FlagsWF E) (st : LoaderState)
    (line : SrcLine) (rest : List SrcLine) (q : Query)
    (hq : parseQuery E (readParams E st line.words) = Except.ok q)
    (h : (pass E st line rest).error = none)
    (hrot : (pass E st line rest).state.creator.rotatable_ = true) :
    (builtEntry E st line rest q).entry_len ≠
      E.sizeofEntry + (builtEntry E st line rest q).name_buflen +
        2 * (builtEntry E st line rest q).offsetBuf.length +
        ((pass E st line rest).state.creator.renderer_.getLength -
          (pass E st line rest).state.creator.offset0_) ∧
    (builtEntry E st line rest q).dataBuf.length ≠
      (pass E st line rest).state.creator.renderer_.getLength -
        (pass E st line rest).state.creator.offset0_ := by
  obtain ⟨_, _, _, hm, _, _⟩ := pass_ok_buckets E st line rest q hq h
  have hne := dataLen_ne_payload E hE _ hm hrot
  constructor
  · intro heq
    apply hne
    simp only [builtEntry, buildEntry] at heq
    omega
  · intro heq
    apply hne
    simpa [builtEntry, buildEntry, copyData_length] using heq

theorem find_two_addresses :
    find exampleEnv (construct exampleEnv (some fileTwoAddresses)).1.entry_buckets_
      exampleTestName 1 =
    some (builtEntry exampleEnv (initialState exampleEnv) lineExampleA2
      [lineRecordA1, lineRecordA2] ⟨exampleTestName, 1, 1, ⟨0⟩⟩) := rfl

/-- C4: the code at the failing input.  For the file `example.test IN A 0 2 0` with its two
address records the entry is rotatable; its header size is 32, its padded name length 16,
it has 4 offset words and an answer payload of 32 bytes, which add up to 88, yet the
allocation size `entry_len` is 32856: the packed `data_len` with the flag bit was added. -/
theorem C4_entry_len_counts_flag_bit :
    (find exampleEnv (construct exampleEnv (some fileTwoAddresses)).1.entry_buckets_
      exampleTestName 1).map
      (fun e => (e.entry_len, e.name_buflen, e.offsetBuf.length, e.data_len_)) =
      some (32856, 16, 4, 32800) ∧
    exampleEnv.sizeofEntry = 32 ∧
    (construct exampleEnv (some fileTwoAddresses)).1.creator.rotatable_ = true ∧
    (construct exampleEnv (some fileTwoAddresses)).1.creator.renderer_.getLength -
      (construct exampleEnv (some fileTwoAddresses)).1.creator.offset0_ = 32 ∧
    32856 ≠ 32 + 16 + 2 * 4 + 32 := by
  decide

/-- C5: the code at the failing input.  For the file `example.test IN A 0 2 0` with its two
address records the renderer holds 62 bytes and the payload origin is 30, so the payload
has 32 bytes; the copy into the answer region has 32800 bytes, and already the byte at
index 32 is taken from position 62, beyond the renderer's data. -/
theorem C5_copy_reads_beyond_renderer :
    ∃ entry, find exampleEnv (construct exampleEnv (some fileTwoAddresses)).1.entry_buckets_
        exampleTestName 1 = some entry ∧
      (construct exampleEnv (some fileTwoAddresses)).1.creator.renderer_.getLength = 62 ∧
      (construct exampleEnv (some fileTwoAddresses)).1.creator.offset0_ = 30 ∧
      entry.dataBuf.length = 32800 ∧
      entry.dataBuf.get? 31 = some (some 2) ∧
      entry.dataBuf.get? 32 = some none := by
  refine ⟨_, find_two_addresses, by decide, by decide, ?_, ?_, ?_⟩
  · have hl : dataLen exampleEnv (pass exampleEnv (initialState exampleEnv) lineExampleA2
        [lineRecordA1, lineRecordA2]).state.creator = 32800 := by decide
    simp only [builtEntry, buildEntry, copyData_length, hl]
  · have hl : dataLen exampleEnv (pass exampleEnv (initialState exampleEnv) lineExampleA2
        [lineRecordA1, lineRecordA2]).state.creator = 32800 := by decide
    simp only [builtEntry, buildEntry, hl]
    rw [copyData_get? _ _ _ _ (by decide)]
    decide
  · have hl : dataLen exampleEnv (pass exampleEnv (initialState exampleEnv) lineExampleA2
        [lineRecordA1, lineRecordA2]).state.creator = 32800 := by decide
    simp only [builtEntry, buildEntry, hl]
    rw [copyData_get? _ _ _ _ (by decide)]
    decide

/-! ## The fuel of the loop is never used up -/

theorem renderRdata_error (E : Env) (rrset : RRset) (rotatable first : Bool) (rd : Rdata)
    (c : CacheDataCreater) :
    (CacheDataCreater.renderRdata E rrset rotatable first rd c).2 ≠ some LoadError.outOfFuel := by
  rcases renderRdata_cases E rrset rotatable first rd c with ⟨hf, _⟩ | ⟨c1, h1, _⟩
  · rw [hf]; simp
  · rw [h1]; simp

theorem renderRdatas_error (E : Env) (rrset : RRset) (rotatable : Bool) :
    ∀ (rds : List Rdata) (first : Bool) (c : CacheDataCreater),
      (CacheDataCreater.renderRdatas E rrset rotatable first rds c).2 ≠
        some LoadError.outOfFuel := by
  intro rds
  induction rds with
  | nil => intro first c; simp [CacheDataCreater.renderRdatas]
  | cons rd rds ih =>
    intro first c
    rcases renderRdata_cases E rrset rotatable first rd c with ⟨hf, _⟩ | ⟨c1, h1, _⟩
    · simp [CacheDataCreater.renderRdatas, hf]
    · simp only [CacheDataCreater.renderRdatas, h1]
      exact ih false c1

theorem addRRset_error (E : Env) (c : CacheDataCreater) (rrset : RRset) :
    (CacheDataCreater.addRRset E c rrset).2 ≠ some LoadError.outOfFuel := by
  unfold CacheDataCreater.addRRset
  split
  · exact renderRdatas_error E rrset _ _ _ _
  · simp

theorem collatorAddRR_error (E : Env) (f : Feed) (rr : RR) :
    (collatorAddRR E f rr).2 ≠ some LoadError.outOfFuel := by
  unfold collatorAddRR
  cases hcur : f.current_rrset_ with
  | none => simp
  | some cur =>
    simp only
    split
    · have h := addRRset_error E f.creator cur
      cases hadd : CacheDataCreater.addRRset E f.creator cur with
      | mk c1 err =>
        rw [hadd] at h
        cases err with
        | some e => simpa using h
        | none => simp
    · simp

theorem collatorFlush_error (E : Env) (f : Feed) :
    (collatorFlush E f).2 ≠ some LoadError.outOfFuel := by
  unfold collatorFlush
  cases hcur : f.current_rrset_ with
  | none => simp
  | some cur =>
    simp only
    have h := addRRset_error E f.creator cur
    cases hadd : CacheDataCreater.addRRset E f.creator cur with
    | mk c1 err =>
      rw [hadd] at h
      cases err with
      | some e => simpa using h
      | none => simp

theorem loadIncremental_error (E : Env) :
    ∀ (ls : List SrcLine) (n : Nat) (f : Feed),
      (loadIncremental E n ls f).error ≠ some LoadError.outOfFuel := by
  intro ls
  induction ls with
  | nil =>
    intro n f
    cases n <;> simp [loadIncremental]
  | cons l ls ih =>
    intro n f
    cases n with
    | zero => simp [loadIncremental]
    | succ n =>
      unfold loadIncremental
      cases hend : l.ending with
      | failure => simp
      | eof =>
        cases hrr : l.rr with
        | bad => simp
        | skip => simp
        | rr r =>
          simp only
          have h := collatorAddRR_error E f r
          cases hadd : collatorAddRR E f r with
          | mk f1 err =>
            rw [hadd] at h
            cases err with
            | some e => simpa using h
            | none => simp
      | newline =>
        cases hrr : l.rr with
        | bad => simp
        | skip => exact ih (n + 1) f
        | rr r =>
          simp only
          have h := collatorAddRR_error E f r
          cases hadd : collatorAddRR E f r with
          | mk f1 err =>
            rw [hadd] at h
            cases err with
            | some e => simpa using h
            | none => exact ih n f1

theorem renderRecord_error (E : Env) (c : CacheDataCreater) (qname : Name)
    (qtype qclass a b : Nat) (rest : List SrcLine) :
    (renderRecord E c qname qtype qclass a b rest).error ≠ some LoadError.outOfFuel := by
  unfold renderRecord
  simp only
  generalize hl1 : (if a > 0 then loadIncremental E a rest
    ⟨c.start E qname qtype qclass a b, none⟩
    else (⟨⟨c.start E qname qtype qclass a b, none⟩, rest, false, none⟩ : Loaded)) = l1
  have h1 : l1.error ≠ some LoadError.outOfFuel := by
    rw [← hl1]
    split
    · exact loadIncremental_error E rest a _
    · simp
  cases he1 : l1.error with
  | some e =>
    rw [he1] at h1
    simpa using h1
  | none =>
    simp only
    generalize hl2 : (if b > 0 then
        if l1.complete = true then
          (⟨l1.feed, l1.rest, true, some LoadError.invalidOperation⟩ : Loaded)
        else loadIncremental E b l1.rest l1.feed
      else l1) = l2
    have h2 : l2.error ≠ some LoadError.outOfFuel := by
      rw [← hl2]
      split
      · split
        · simp
        · exact loadIncremental_error E l1.rest b _
      · rw [he1]; simp
    cases he2 : l2.error with
    | some e =>
      rw [he2] at h2
      simpa using h2
    | none =>
      simp only
      have h3 := collatorFlush_error E l2.feed
      cases hfl : collatorFlush E l2.feed with
      | mk f3 e =>
        rw [hfl] at h3
        simpa using h3

theorem end_error (c : CacheDataCreater) : c.end ≠ some LoadError.outOfFuel := by
  unfold CacheDataCreater.end
  split <;> simp

theorem loadQuery_error (E : Env) (st1 : LoaderState) (q : Query) (rest : List SrcLine) :
    (loadQuery E st1 q rest).error ≠ some LoadError.outOfFuel := by
  have h := renderRecord_error E st1.creator q.qname q.qtype q.qclass st1.ans_count
    st1.soa_count rest
  unfold loadQuery
  simp only
  split
  · rename_i e he
    rw [he] at h
    simpa using h
  · split
    · rename_i e he
      have h2 := end_error (renderRecord E st1.creator q.qname q.qtype q.qclass st1.ans_count
        st1.soa_count rest).feed.creator
      rw [he] at h2
      simpa using h2
    · split
      · split <;> simp
      · simp

theorem parseQuery_error (E : Env) (st : LoaderState) :
    parseQuery E st ≠ Except.error LoadError.outOfFuel := by
  unfold parseQuery
  split
  · simp
  · split
    · simp
    · split
      · simp
      · split
        · simp
        · split <;> simp

theorem pass_error (E : Env) (st : LoaderState) (line : SrcLine) (rest : List SrcLine) :
    (pass E st line rest).error ≠ some LoadError.outOfFuel := by
  unfold pass
  simp only
  split
  · rename_i e he
    have h := parseQuery_error E (readParams E st line.words)
    rw [he] at h
    simpa using h
  · exact loadQuery_error E _ _ rest

theorem loop_error (E : Env) :
    ∀ (fuel : Nat) (st : LoaderState) (lines : List SrcLine), lines.length ≤ fuel →
      (loop E fuel st lines).2 ≠ some LoadError.outOfFuel := by
  intro fuel
  induction fuel with
  | zero =>
    intro st lines h
    cases lines with
    | nil => simp [loop]
    | cons line rest => simp at h
  | succ fuel ih =>
    intro st lines h
    cases lines with
    | nil => simp [loop]
    | cons line rest =>
      have hr := pass_rest_le E st line rest
      have he := pass_error E st line rest
      simp only [List.length_cons, Nat.succ_le_succ_iff] at h
      cases hend : line.ending with
      | eof => simp [loop, hend]
      | failure => simp [loop, hend]
      | newline =>
        cases hp : pass E st line rest with
        | mk st1 rest1 err =>
          rw [hp] at hr he
          cases err with
          | some e => simpa [loop, hend, hp] using he
          | none =>
            simp only [loop, hend, hp]
            exact ih st1 rest1 (Nat.le_trans hr h)

theorem construct_error (E : Env) (cache_file : Option (List SrcLine)) :
    (construct E cache_file).2 ≠ some LoadError.outOfFuel := by
  unfold construct
  cases cache_file with
  | none => simp
  | some lines => exact loop_error E lines.length _ lines (Nat.le_refl _)

/-! ## The loaded keys are the names and types of the metadata lines -/

theorem readParams_of_three_words (E : Env) (st : LoaderState) (w0 w1 w2 : String)
    (ws : List String) :
    (readParams E st (w0 :: w1 :: w2 :: ws)).qname_str = w0 ∧
    (readParams E st (w0 :: w1 :: w2 :: ws)).qclass_str = w1 ∧
    (readParams E st (w0 :: w1 :: w2 :: ws)).qtype_str = w2 := by
  simp [readParams, SStream.getStr]

theorem passKey_of_words (E : Env) (st : LoaderState) (line : SrcLine) (w0 w1 w2 : String)
    (ws : List String) (q : Query) (hw : line.words = w0 :: w1 :: w2 :: ws)
    (hq : parseQuery E (readParams E st line.words) = Except.ok q) :
    E.nameFromText w0 = some q.qname ∧ E.typeFromText w2 = some q.qtype := by
  obtain ⟨hn, _, _, ht, _⟩ := parseQuery_ok E _ q hq
  rw [hw] at hn ht
  obtain ⟨h0, _, h2⟩ := readParams_of_three_words E st w0 w1 w2 ws
  rw [h0] at hn
  rw [h2] at ht
  exact ⟨hn, ht⟩

theorem loadedKeys_fuel (E : Env) :
    ∀ (fuel1 fuel2 : Nat) (st : LoaderState) (lines : List SrcLine),
      lines.length ≤ fuel1 → lines.length ≤ fuel2 →
      loadedKeys E fuel1 st lines = loadedKeys E fuel2 st lines := by
  intro fuel1
  induction fuel1 with
  | zero =>
    intro fuel2 st lines h1 _
    cases lines with
    | nil => cases fuel2 <;> rfl
    | cons line rest => simp at h1
  | succ f1 ih =>
    intro fuel2 st lines h1 h2
    cases lines with
    | nil => cases fuel2 <;> rfl
    | cons line rest =>
      cases fuel2 with
      | zero => simp at h2
      | succ f2 =>
        have hr := pass_rest_le E st line rest
        simp only [List.length_cons, Nat.succ_le_succ_iff] at h1 h2
        cases hend : line.ending with
        | eof => simp [loadedKeys, hend]
        | failure => simp [loadedKeys, hend]
        | newline =>
          cases hp : pass E st line rest with
          | mk st1 rest1 err =>
            rw [hp] at hr
            cases err with
            | some e => simp [loadedKeys, hend, hp]
            | none =>
              simp only [loadedKeys, hend, hp]
              rw [ih f2 st1 rest1 (Nat.le_trans hr h1) (Nat.le_trans hr h2)]

theorem mem_loadedKeys_of_reached (E : Env) (key : Name × Nat) (st : LoaderState)
    (line : SrcLine) (rest : List SrcLine) (hkey : passKey E st line = some key)
    (hnl : line.ending = LineEnd.newline) :
    ∀ (k : Nat) (st0 : LoaderState) (lines : List SrcLine),
      afterPasses E k st0 lines = some (st, line :: rest) →
      (loop E lines.length st0 lines).2 = none →
      key ∈ loadedKeys E lines.length st0 lines := by
  intro k
  induction k with
  | zero =>
    intro st0 lines h hok
    simp only [afterPasses, Option.some.injEq, Prod.mk.injEq] at h
    obtain ⟨h1, h2⟩ := h
    subst h1
    subst h2
    cases hp : pass E st0 line rest with
    | mk st1 rest1 err =>
      cases err with
      | some e => simp [loop, hnl, hp] at hok
      | none => simp [loadedKeys, hnl, hp, hkey]
  | succ k ih =>
    intro st0 lines h hok
    cases lines with
    | nil => simp [afterPasses] at h
    | cons l0 r0 =>
      have hr := pass_rest_le E st0 l0 r0
      cases hend : l0.ending with
      | eof => simp [afterPasses, hend] at h
      | failure => simp [afterPasses, hend] at h
      | newline =>
        cases hp : pass E st0 l0 r0 with
        | mk st2 rest2 err =>
          rw [hp] at hr
          cases err with
          | some e => simp [afterPasses, hend, hp] at h
          | none =>
            simp only [afterPasses, hend, hp] at h
            simp only [List.length_cons, loop, hend, hp] at hok
            rw [loop_fuel E r0.length rest2.length st2 rest2 hr (Nat.le_refl _)] at hok
            have hmem := ih st2 rest2 h hok
            simp only [List.length_cons, loadedKeys, hend, hp]
            rw [loadedKeys_fuel E r0.length rest2.length st2 rest2 hr (Nat.le_refl _)]
            exact List.mem_append.mpr (Or.inr hmem)

theorem mem_keysOf_of_metadata_line (E : Env) (lines : List SrcLine) (table : Buckets)
    (h : DNSL1HashTable E (some lines) = Except.ok table)
    (k : Nat) (st : LoaderState) (line : SrcLine) (rest : List SrcLine)
    (hreach : afterPasses E k (initialState E) lines = some (st, line :: rest))
    (hnl : line.ending = LineEnd.newline)
    (w0 w1 w2 : String) (ws : List String) (hw : line.words = w0 :: w1 :: w2 :: ws) :
    ∃ name type, E.nameFromText w0 = some name ∧ E.typeFromText w2 = some type ∧
      (name, type) ∈ keysOf E lines := by
  obtain ⟨hok, _⟩ := table_of_ok E lines table h
  have hloop := afterPasses_loop E k _ _ _ _ hreach
  rw [hloop] at hok
  have herr : (pass E st line rest).error = none := by
    cases hp : pass E st line rest with
    | mk st1 rest1 err =>
      cases err with
      | some e => simp [loop, hnl, hp] at hok
      | none => rfl
  obtain ⟨q, hq, hkey, _⟩ := pass_ok E st line rest herr
  obtain ⟨hn, ht⟩ := passKey_of_words E st line w0 w1 w2 ws q hw hq
  refine ⟨q.qname, q.qtype, hn, ht, ?_⟩
  rw [← hloop] at hok
  exact mem_loadedKeys_of_reached E _ st line rest hkey hnl k _ lines hreach hok

/-! ## Lookup of the pairs on the metadata lines -/

theorem unterminated_line_table :
    DNSL1HashTable exampleEnv (some fileUnterminated) =
      Except.ok (construct exampleEnv (some fileUnterminated)).1.entry_buckets_ :=
  table_of_construct exampleEnv (some fileUnterminated) (by decide)

/-- C1, as stated, fails: the file that consists of the metadata line `other.test IN A 3 0 0`
without a newline gives a table, and the pair on its line is not found: `getline` delivers
the line together with the end of the file, and the loop is left before the line is
looked at. -/
theorem C1_unterminated_line_not_found :
    lineOtherUnterminated.words = ["other.test", "IN", "A", "3", "0", "0"] ∧
    exampleEnv.nameFromText "other.test" = some otherTestName ∧
    exampleEnv.typeFromText "A" = some 1 ∧
    DNSL1HashTable exampleEnv (some fileUnterminated) =
      Except.ok (construct exampleEnv (some fileUnterminated)).1.entry_buckets_ ∧
    find exampleEnv (construct exampleEnv (some fileUnterminated)).1.entry_buckets_
      otherTestName 1 = none :=
  ⟨by decide, by decide, by decide, unterminated_line_table, by decide⟩

/-- C1, amended: in a table the loader built, for every metadata line the loop reached that
was delivered with its newline and has at least the three fields name, class and type, the
name and the type written on the line are a valid name and type, and `find` returns for them
an entry whose `rrtype_` is that type and whose stored name compares equal to the requested
name, also when the requested name differs from the one on the line in letter case only. -/
theorem C1_find_loaded (E : Env) (lines : List SrcLine) (table : Buckets)
    (h : DNSL1HashTable E (some lines) = Except.ok table)
    (k : Nat) (st : LoaderState) (line : SrcLine) (rest : List SrcLine)
    (hreach : afterPasses E k (initialState E) lines = some (st, line :: rest))
    (hnl : line.ending = LineEnd.newline)
    (w0 w1 w2 : String) (ws : List String) (hw : line.words = w0 :: w1 :: w2 :: ws) :
    ∃ name type, E.nameFromText w0 = some name ∧ E.typeFromText w2 = some type ∧
      ∀ requested, labelsEq name requested = true →
        ∃ entry, find E table requested type = some entry ∧ entry.rrtype_ = type ∧
          labelsEq (E.deserialize entry.nameBuf) requested = true := by
  obtain ⟨name, type, hn, ht, hk⟩ :=
    mem_keysOf_of_metadata_line E lines table h k st line rest hreach hnl w0 w1 w2 ws hw
  exact ⟨name, type, hn, ht, fun requested hci =>
    find_of_loaded_key E lines table h name type hk requested hci⟩

/-- Witness for C1 amended: after loading `example.test IN A 0 2 0` with its two address
records, the name and type on the metadata line are found, under every spelling of the
name. -/
theorem C1_find_loaded_witness :
    DNSL1HashTable exampleEnv (some fileTwoAddresses) =
      Except.ok (construct exampleEnv (some fileTwoAddresses)).1.entry_buckets_ ∧
    ∃ name type, exampleEnv.nameFromText "example.test" = some name ∧
      exampleEnv.typeFromText "A" = some type ∧
      ∀ requested, labelsEq name requested = true →
        ∃ entry, find exampleEnv (construct exampleEnv (some fileTwoAddresses)).1.entry_buckets_
            requested type = some entry ∧ entry.rrtype_ = type ∧
          labelsEq (exampleEnv.deserialize entry.nameBuf) requested = true :=
  ⟨table_of_construct exampleEnv (some fileTwoAddresses) (by decide),
   C1_find_loaded exampleEnv fileTwoAddresses
    (construct exampleEnv (some fileTwoAddresses)).1.entry_buckets_
    (table_of_construct exampleEnv (some fileTwoAddresses) (by decide))
    0 (initialState exampleEnv) lineExampleA2 [lineRecordA1, lineRecordA2] rfl rfl
    "example.test" "IN" "A" ["0", "2", "0"] rfl⟩

theorem shortLine_table :
    DNSL1HashTable exampleEnv (some fileShortLine) =
      Except.ok (construct exampleEnv (some fileShortLine)).1.entry_buckets_ :=
  table_of_construct exampleEnv (some fileShortLine) (by decide)

/-- C2: the code at the failing input.  In the file of the two lines
`example.test IN A 3 0 0` and `other.test` no line has a name equal to `other.test` together
with the type A: the first line names `example.test`, the second has no type field.  The
load gives a table, and `find` returns an entry for `other.test` with type A, built for the
second line with the type left from the first. -/
theorem C2_unloaded_pair_found :
    fileShortLine = [lineExampleNxdomain, lineOtherAlone] ∧
    lineExampleNxdomain.words = ["example.test", "IN", "A", "3", "0", "0"] ∧
    lineOtherAlone.words = ["other.test"] ∧
    labelsEq exampleTestName otherTestName = false ∧
    DNSL1HashTable exampleEnv (some fileShortLine) =
      Except.ok (construct exampleEnv (some fileShortLine)).1.entry_buckets_ ∧
    (find exampleEnv (construct exampleEnv (some fileShortLine)).1.entry_buckets_
      otherTestName 1).isSome = true :=
  ⟨rfl, by decide, by decide, by decide, shortLine_table, by decide⟩

/-! ## The second offset word of a member record -/

theorem addRRset_words (E : Env) (c : CacheDataCreater) (rrset : RRset)
    (hok : (CacheDataCreater.addRRset E c rrset).2 = none) :
    ∃ ws, (CacheDataCreater.addRRset E c rrset).1.offsets_ = c.offsets_ ++ ws ∧
      ws.length = 2 * rrset.rdatas.length ∧
      ∀ k, k < rrset.rdatas.length →
        ws.get? (2 * k) = some (firstWord E (CacheDataCreater.isRotatable c rrset)
          (decide (k = 0)) (beforeMember E c rrset k)) ∧
        ws.get? (2 * k + 1) = some (secondWord E rrset (beforeMember E c rrset k)) := by
  unfold CacheDataCreater.addRRset at hok ⊢
  by_cases hca : CacheDataCreater.countsAssert c rrset.rdatas.length = true
  · simp only [hca, if_true] at hok ⊢
    have ho : (loopEntry c rrset).offsets_ = c.offsets_ := by
      unfold loopEntry; split <;> rfl
    change (CacheDataCreater.renderRdatas E rrset (CacheDataCreater.isRotatable c rrset) true
      rrset.rdatas (loopEntry c rrset)).2 = none at hok
    change ∃ ws, (CacheDataCreater.renderRdatas E rrset (CacheDataCreater.isRotatable c rrset)
      true rrset.rdatas (loopEntry c rrset)).1.offsets_ = c.offsets_ ++ ws ∧ _
    obtain ⟨ws, hws, _, _, hlen⟩ := renderRdatas_offsets E rrset
      (CacheDataCreater.isRotatable c rrset) rrset.rdatas true (loopEntry c rrset)
    refine ⟨ws, by rw [hws, ho], hlen hok, ?_⟩
    intro k hk
    have := renderRdatas_words E rrset (CacheDataCreater.isRotatable c rrset) rrset.rdatas true
      (loopEntry c rrset) ws hok hws k hk
    simpa [beforeMember] using this
  · simp [hca] at hok

theorem beforeMember_offset0 (E : Env) (c : CacheDataCreater) (rrset : RRset) (k : Nat) :
    (beforeMember E c rrset k).offset0_ = c.offset0_ := by
  unfold beforeMember
  obtain ⟨_, _, h0, _⟩ := renderRdatas_offsets E rrset (CacheDataCreater.isRotatable c rrset)
    (rrset.rdatas.take k) true (loopEntry c rrset)
  rw [h0]
  unfold loopEntry
  split <;> rfl

theorem rdataStart_eq (E : Env) (rrset : RRset) (c : CacheDataCreater) :
    rdataStart E rrset c = nameEnd E rrset c + 10 := by
  simp [rdataStart, nameEnd, MessageRenderer.getLength, MessageRenderer.writeUint32,
    MessageRenderer.writeUint16, MessageRenderer.writeName, MessageRenderer.skip]
  omega

/-- C11, as stated, fails: for the two address records of `example.test` the second offset
word of the first record is 2, the position after the two-byte owner name, while the
record-data region starts at position 12 after the payload origin. -/
theorem C11_second_word_is_not_rdata_start :
    (CacheDataCreater.addRRset exampleEnv startedTwoAnswers rrsetTwoAddresses).1.offsets_.get? 1 =
      some 2 ∧
    rdataStart exampleEnv rrsetTwoAddresses
      (beforeMember exampleEnv startedTwoAnswers rrsetTwoAddresses 0) -
        startedTwoAnswers.offset0_ = 12 ∧
    (CacheDataCreater.addRRset exampleEnv startedTwoAnswers rrsetTwoAddresses).1.offsets_.get? 1 ≠
      some ((rdataStart exampleEnv rrsetTwoAddresses
        (beforeMember exampleEnv startedTwoAnswers rrsetTwoAddresses 0) -
          startedTwoAnswers.offset0_) % 65536) := by
  decide

/-- C11, amended: for every member record of a successful `addRRset` call, the second
offset word of its pair is the `uint16_t` value of the position immediately after the
record's owner name, relative to the payload origin, that is the position of the record's
type field; the record-data region starts 10 bytes later. -/
theorem C11_second_word_after_name (E : Env) (c : CacheDataCreater) (rrset : RRset)
    (hok : (CacheDataCreater.addRRset E c rrset).2 = none) :
    ∃ ws, (CacheDataCreater.addRRset E c rrset).1.offsets_ = c.offsets_ ++ ws ∧
      ∀ k, k < rrset.rdatas.length →
        ws.get? (2 * k + 1) =
          some ((nameEnd E rrset (beforeMember E c rrset k) - c.offset0_) % 65536) ∧
        rdataStart E rrset (beforeMember E c rrset k) =
          nameEnd E rrset (beforeMember E c rrset k) + 10 := by
  obtain ⟨ws, hws, _, hk⟩ := addRRset_words E c rrset hok
  refine ⟨ws, hws, ?_⟩
  intro k hlt
  refine ⟨?_, rdataStart_eq E rrset _⟩
  rw [(hk k hlt).2]
  simp [secondWord, nameEnd, beforeMember_offset0]

/-- Witness for C11 amended: the second words of the two address records of `example.test`
are 2 and 18, the positions after the two owner names. -/
theorem C11_second_word_after_name_witness :
    (CacheDataCreater.addRRset exampleEnv startedTwoAnswers rrsetTwoAddresses).2 = none ∧
    ∃ ws, (CacheDataCreater.addRRset exampleEnv startedTwoAnswers rrsetTwoAddresses).1.offsets_ =
        startedTwoAnswers.offsets_ ++ ws ∧
      ws.get? (2 * 1 + 1) = some ((nameEnd exampleEnv rrsetTwoAddresses
        (beforeMember exampleEnv startedTwoAnswers rrsetTwoAddresses 1) -
          startedTwoAnswers.offset0_) % 65536) :=
  ⟨by decide,
   (C11_second_word_after_name exampleEnv startedTwoAnswers rrsetTwoAddresses (by decide)).imp
     fun _ h => ⟨h.1, (h.2 1 (by decide)).1⟩⟩

/-! ## The offset assertion and 16-bit wrap-around -/

theorem renderRdata_eq (E : Env) (rrset : RRset) (rotatable first : Bool) (rd : Rdata)
    (c : CacheDataCreater)
    (h : (c.renderer_.getLength - c.offset0_) % 65536 ≤ E.MASK_OFFSET) :
    CacheDataCreater.renderRdata E rrset rotatable first rd c =
      (renderedMember E rrset rotatable first rd c, none) := by
  unfold CacheDataCreater.renderRdata
  simp only [h, if_true]
  rw [writeUint16At_isSome]
  · simp only [renderedMember, renderedRecord, countsAfter, firstWord, secondWord]
    by_cases ha : c.ans_count_ > 0
    · simp [ha]
    · by_cases hs : c.soa_count_ > 0
      · simp [ha, hs]
      · simp [ha, hs]
  · simp [MessageRenderer.getLength, MessageRenderer.writeUint32, MessageRenderer.writeUint16,
      MessageRenderer.writeName, MessageRenderer.skip, MessageRenderer.writeRdata]
    omega

theorem renderedRecord_getLength (E : Env) (rrset : RRset) (rd : Rdata)
    (r : MessageRenderer) :
    (renderedRecord E rrset rd r).getLength =
      r.getLength + (E.nameWire r rrset.name).length + 10 +
        (E.rdataWire (((((r.writeName E rrset.name).writeUint16 rrset.rrtype).writeUint16
          rrset.rrclass).writeUint32 rrset.ttl).skip 2) rrset.rrtype rd).length := by
  simp [renderedRecord, MessageRenderer.getLength, MessageRenderer.writeUint32,
    MessageRenderer.writeUint16, MessageRenderer.writeName, MessageRenderer.skip,
    MessageRenderer.writeRdata]
  omega

theorem exampleEnv_rdataWire (r : MessageRenderer) (t : Nat) (rd : Rdata) :
    exampleEnv.rdataWire r t rd = rd := rfl

theorem longText_first_ok :
    (startedTwoTexts.renderer_.getLength - startedTwoTexts.offset0_) % 65536 ≤
      exampleEnv.MASK_OFFSET := by decide

theorem longText_after_first_length :
    (renderedMember exampleEnv rrsetLongText false true (List.replicate 65524 0)
      startedTwoTexts).renderer_.getLength = 65566 := by
  have h0 : startedTwoTexts.renderer_.getLength = 30 := by decide
  have hn : (exampleEnv.nameWire startedTwoTexts.renderer_ rrsetLongText.name).length = 2 := by
    decide
  show (renderedRecord exampleEnv rrsetLongText (List.replicate 65524 0)
    startedTwoTexts.renderer_).getLength = 65566
  rw [renderedRecord_getLength, h0, hn, exampleEnv_rdataWire, List.length_replicate]

theorem longText_after_first_offset0 :
    (renderedMember exampleEnv rrsetLongText false true (List.replicate 65524 0)
      startedTwoTexts).offset0_ = 30 := by decide


theorem longText_second_ok :
    ((renderedMember exampleEnv rrsetLongText false true (List.replicate 65524 0)
        startedTwoTexts).renderer_.getLength -
      (renderedMember exampleEnv rrsetLongText false true (List.replicate 65524 0)
        startedTwoTexts).offset0_) % 65536 ≤ exampleEnv.MASK_OFFSET := by
  have h1 := longText_after_first_length
  have h2 := longText_after_first_offset0
  generalize renderedMember exampleEnv rrsetLongText false true (List.replicate 65524 0)
        startedTwoTexts = c at h1 h2 ⊢
  rw [h1, h2]
  decide

theorem renderedMember_offsets (E : Env) (rrset : RRset) (rotatable first : Bool) (rd : Rdata)
    (c : CacheDataCreater) :
    (renderedMember E rrset rotatable first rd c).offsets_ =
      c.offsets_ ++ [firstWord E rotatable first c, secondWord E rrset c] := rfl

theorem addRRset_two_members (E : Env) (c : CacheDataCreater) (rrset : RRset) (rd0 rd1 : Rdata)
    (hrds : rrset.rdatas = [rd0, rd1])
    (hca : CacheDataCreater.countsAssert c 2 = true)
    (hrot : CacheDataCreater.isRotatable c rrset = false)
    (h0 : (c.renderer_.getLength - c.offset0_) % 65536 ≤ E.MASK_OFFSET)
    (h1 : ((renderedMember E rrset false true rd0 c).renderer_.getLength -
      (renderedMember E rrset false true rd0 c).offset0_) % 65536 ≤ E.MASK_OFFSET) :
    CacheDataCreater.addRRset E c rrset =
      (renderedMember E rrset false false rd1 (renderedMember E rrset false true rd0 c),
        none) := by
  unfold CacheDataCreater.addRRset
  rw [hrds]
  simp only [List.length_cons, List.length_nil, hca, hrot, if_true, Bool.false_eq_true, if_false,
    CacheDataCreater.renderRdatas, renderRdata_eq _ _ _ _ _ _ h0,
    renderRdata_eq _ _ _ _ _ _ h1]

theorem longText_addRRset :
    CacheDataCreater.addRRset exampleEnv startedTwoTexts rrsetLongText =
      (renderedMember exampleEnv rrsetLongText false false [1, 65]
        (renderedMember exampleEnv rrsetLongText false true (List.replicate 65524 0)
          startedTwoTexts), none) :=
  addRRset_two_members exampleEnv startedTwoTexts rrsetLongText _ _ rfl (by decide) (by decide)
    longText_first_ok longText_second_ok

theorem longText_second_name :
    exampleEnv.nameWire (renderedMember exampleEnv rrsetLongText false true
      (List.replicate 65524 0) startedTwoTexts).renderer_ rrsetLongText.name = [192, 12] := by
  decide

theorem longText_first_offsets :
    (renderedMember exampleEnv rrsetLongText false true (List.replicate 65524 0)
      startedTwoTexts).offsets_ = [16384, 2] := by
  have h1 : firstWord exampleEnv false true startedTwoTexts = 16384 := by decide
  have h2 : secondWord exampleEnv rrsetLongText startedTwoTexts = 2 := by decide
  have hs : startedTwoTexts.offsets_ = [] := by decide
  rw [renderedMember_offsets, hs, h1, h2]
  rfl

theorem second_member_words (c : CacheDataCreater) (rd : Rdata)
    (hn : exampleEnv.nameWire c.renderer_ rrsetLongText.name = [192, 12])
    (hl : c.renderer_.getLength = 65566) (h0 : c.offset0_ = 30)
    (ho : c.offsets_ = [16384, 2]) :
    (renderedMember exampleEnv rrsetLongText false false rd c).offsets_ = [16384, 2, 0, 2] := by
  have h3 : firstWord exampleEnv false false c = 0 := by
    unfold firstWord
    rw [hl, h0]
    decide
  have h4 : secondWord exampleEnv rrsetLongText c = 2 := by
    unfold secondWord MessageRenderer.writeName
    unfold MessageRenderer.getLength at hl ⊢
    simp only [List.length_append]
    rw [hn, hl, h0]
    decide
  rw [renderedMember_offsets, ho, h3, h4]
  rfl

theorem longText_words :
    (renderedMember exampleEnv rrsetLongText false false [1, 65]
        (renderedMember exampleEnv rrsetLongText false true (List.replicate 65524 0)
          startedTwoTexts)).offsets_ = [16384, 2, 0, 2] :=
  second_member_words _ _ longText_second_name longText_after_first_length
    longText_after_first_offset0 longText_first_offsets

theorem beforeMember_one (E : Env) (c : CacheDataCreater) (rrset : RRset) (rd0 : Rdata)
    (rest : List Rdata) (hrds : rrset.rdatas = rd0 :: rest)
    (hrot : CacheDataCreater.isRotatable c rrset = false)
    (h0 : (c.renderer_.getLength - c.offset0_) % 65536 ≤ E.MASK_OFFSET) :
    beforeMember E c rrset 1 = renderedMember E rrset false true rd0 c := by
  unfold beforeMember loopEntry
  rw [hrds, hrot]
  simp only [List.take_succ_cons, List.take_zero, Bool.false_eq_true, if_false,
    CacheDataCreater.renderRdatas, renderRdata_eq _ _ _ _ _ _ h0]

theorem wrapped_position (b c : CacheDataCreater) (hb : b = c)
    (hl : c.renderer_.getLength = 65566) (h0 : c.offset0_ = 30) :
    b.renderer_.getLength - b.offset0_ = 65536 := by
  subst hb
  rw [hl, h0]

theorem wrapped_result (r : CacheDataCreater × Option LoadError) (c : CacheDataCreater)
    (hr : r = (c, none)) (ho : c.offsets_ = [16384, 2, 0, 2]) :
    r.2 = none ∧ r.1.offsets_ = [16384, 2, 0, 2] := by
  subst hr
  exact ⟨rfl, ho⟩

/-- C12: the code at the failing input.  A TXT RRset of two members is added after `start`;
the first member has record data of 65524 bytes, so the second member begins at position
65536 after the payload origin, which exceeds `MASK_OFFSET` = 16383.  The 16-bit offset
checked by the assertion is 0, `addRRset` completes, and the word 0 is emitted for the
second member. -/
theorem C12_wrapped_offset_is_emitted :
    (beforeMember exampleEnv startedTwoTexts rrsetLongText 1).renderer_.getLength -
      (beforeMember exampleEnv startedTwoTexts rrsetLongText 1).offset0_ = 65536 ∧
    exampleEnv.MASK_OFFSET = 16383 ∧
    (CacheDataCreater.addRRset exampleEnv startedTwoTexts rrsetLongText).2 = none ∧
    (CacheDataCreater.addRRset exampleEnv startedTwoTexts rrsetLongText).1.offsets_ =
      [16384, 2, 0, 2] :=
  ⟨wrapped_position _ _
      (beforeMember_one exampleEnv startedTwoTexts rrsetLongText _ _ rfl (by decide)
        longText_first_ok)
      longText_after_first_length longText_after_first_offset0,
   by decide,
   wrapped_result _ _ longText_addRRset longText_words⟩

/-! ## The remaining counts -/

theorem renderRdatas_counts (E : Env) (rrset : RRset) (rotatable : Bool) :
    ∀ (rds : List Rdata) (first : Bool) (c : CacheDataCreater),
      (CacheDataCreater.renderRdatas E rrset rotatable first rds c).2 = none →
      (rds.length ≤ c.ans_count_ →
        (CacheDataCreater.renderRdatas E rrset rotatable first rds c).1.ans_count_ =
          c.ans_count_ - rds.length ∧
        (CacheDataCreater.renderRdatas E rrset rotatable first rds c).1.soa_count_ =
          c.soa_count_) ∧
      (c.ans_count_ = 0 → rds.length ≤ c.soa_count_ →
        (CacheDataCreater.renderRdatas E rrset rotatable first rds c).1.ans_count_ = 0 ∧
        (CacheDataCreater.renderRdatas E rrset rotatable first rds c).1.soa_count_ =
          c.soa_count_ - rds.length) := by
  intro rds
  induction rds with
  | nil =>
    intro first c _
    simp [CacheDataCreater.renderRdatas]
  | cons rd rds ih =>
    intro first c hok
    rcases renderRdata_cases E rrset rotatable first rd c with
      ⟨hf, _⟩ | ⟨c1, h1, _, _, _, _, hcnt, _⟩
    · simp [CacheDataCreater.renderRdatas, hf] at hok
    · simp only [CacheDataCreater.renderRdatas, h1] at hok ⊢
      obtain ⟨iha, ihs⟩ := ih false c1 hok
      have hc1 : c1.ans_count_ = (countsAfter c).1 ∧ c1.soa_count_ = (countsAfter c).2 := by
        rw [← hcnt]; exact ⟨rfl, rfl⟩
      simp only [List.length_cons]
      constructor
      · intro hle
        have hpos : c.ans_count_ > 0 := by omega
        have ha1 : c1.ans_count_ = c.ans_count_ - 1 := by
          rw [hc1.1]; simp [countsAfter, hpos]
        have hs1 : c1.soa_count_ = c.soa_count_ := by
          rw [hc1.2]; simp [countsAfter, hpos]
        obtain ⟨r1, r2⟩ := iha (by omega)
        rw [r1, r2, ha1, hs1]
        exact ⟨by omega, rfl⟩
      · intro hz hle
        have hspos : c.soa_count_ > 0 := by omega
        have ha1 : c1.ans_count_ = 0 := by
          rw [hc1.1]; simp [countsAfter, hz, hspos]
        have hs1 : c1.soa_count_ = c.soa_count_ - 1 := by
          rw [hc1.2]; simp [countsAfter, hz, hspos]
        obtain ⟨r1, r2⟩ := ihs ha1 (by omega)
        rw [r1, r2, hs1]
        exact ⟨rfl, by omega⟩

theorem loopEntry_counts (c : CacheDataCreater) (rrset : RRset) :
    (loopEntry c rrset).ans_count_ = c.ans_count_ ∧
    (loopEntry c rrset).soa_count_ = c.soa_count_ := by
  unfold loopEntry
  split <;> exact ⟨rfl, rfl⟩

theorem addRRset_eq_loop (E : Env) (c : CacheDataCreater) (rrset : RRset)
    (hca : CacheDataCreater.countsAssert c rrset.rdatas.length = true) :
    CacheDataCreater.addRRset E c rrset =
      CacheDataCreater.renderRdatas E rrset (CacheDataCreater.isRotatable c rrset) true
        rrset.rdatas (loopEntry c rrset) := by
  unfold CacheDataCreater.addRRset loopEntry
  simp only [hca, if_true]

theorem addRRset_assert_fails (E : Env) (c : CacheDataCreater) (rrset : RRset)
    (hca : CacheDataCreater.countsAssert c rrset.rdatas.length = false) :
    CacheDataCreater.addRRset E c rrset = (c, some LoadError.assertion) := by
  unfold CacheDataCreater.addRRset
  simp [hca]

theorem addRRset_counts (E : Env) (c : CacheDataCreater) (rrset : RRset)
    (hok : (CacheDataCreater.addRRset E c rrset).2 = none) :
    (0 < c.ans_count_ → rrset.rdatas.length ≤ c.ans_count_ ∧
      (CacheDataCreater.addRRset E c rrset).1.ans_count_ =
        c.ans_count_ - rrset.rdatas.length ∧
      (CacheDataCreater.addRRset E c rrset).1.soa_count_ = c.soa_count_) ∧
    (c.ans_count_ = 0 → c.soa_count_ = 1 ∧ rrset.rdatas.length = 1 ∧
      (CacheDataCreater.addRRset E c rrset).1.ans_count_ = 0 ∧
      (CacheDataCreater.addRRset E c rrset).1.soa_count_ = 0) := by
  cases hca : CacheDataCreater.countsAssert c rrset.rdatas.length with
  | false =>
    rw [addRRset_assert_fails E c rrset hca] at hok
    simp at hok
  | true =>
    rw [addRRset_eq_loop E c rrset hca] at hok ⊢
    obtain ⟨ha, hs⟩ := renderRdatas_counts E rrset _ rrset.rdatas true (loopEntry c rrset) hok
    obtain ⟨hla, hls⟩ := loopEntry_counts c rrset
    rw [hla, hls] at ha hs
    unfold CacheDataCreater.countsAssert at hca
    constructor
    · intro hpos
      simp only [hpos, if_true, decide_eq_true_eq] at hca
      exact ⟨hca, ha hca⟩
    · intro hz
      have hnpos : ¬ c.ans_count_ > 0 := by omega
      simp only [hnpos, if_false] at hca
      by_cases hspos : c.soa_count_ > 0
      · simp only [hspos, if_true, decide_eq_true_eq] at hca
        obtain ⟨h1, hn⟩ := hca
        have := hs hz (by omega)
        refine ⟨h1, by omega, this.1, ?_⟩
        rw [this.2]; omega
      · simp [hspos] at hca

theorem addRRset_counts_sum (E : Env) (c : CacheDataCreater) (rrset : RRset)
    (hok : (CacheDataCreater.addRRset E c rrset).2 = none) :
    (CacheDataCreater.addRRset E c rrset).1.ans_count_ +
      (CacheDataCreater.addRRset E c rrset).1.soa_count_ + rrset.rdatas.length =
      c.ans_count_ + c.soa_count_ := by
  obtain ⟨ha, hs⟩ := addRRset_counts E c rrset hok
  by_cases hpos : 0 < c.ans_count_
  · obtain ⟨h1, h2, h3⟩ := ha hpos
    omega
  · obtain ⟨h1, h2, h3, h4⟩ := hs (by omega)
    omega

theorem addRRsets_counts_sum (E : Env) :
    ∀ (rrsets : List RRset) (c : CacheDataCreater), (addRRsets E c rrsets).2 = none →
      (addRRsets E c rrsets).1.ans_count_ + (addRRsets E c rrsets).1.soa_count_ +
        memberCount rrsets = c.ans_count_ + c.soa_count_ := by
  intro rrsets
  induction rrsets with
  | nil =>
    intro c _
    simp [addRRsets, memberCount]
  | cons rrset rest ih =>
    intro c hok
    cases hadd : CacheDataCreater.addRRset E c rrset with
    | mk c1 err =>
      cases err with
      | some e => simp [addRRsets, hadd] at hok
      | none =>
        simp only [addRRsets, hadd] at hok ⊢
        have h1 := addRRset_counts_sum E c rrset (by rw [hadd])
        rw [hadd] at h1
        have h2 := ih c1 hok
        simp only [memberCount, List.map_cons, List.sum_cons] at h1 h2 ⊢
        omega

/-- C13, as stated, fails: after `start` with two answers declared, a single `addRRset`
call with the two-member address RRset completes and `end` succeeds, although `addRRset`
was called once and not twice. -/
theorem C13_end_succeeds_after_one_call :
    startedTwoAnswers.ans_count_ = 2 ∧ startedTwoAnswers.soa_count_ = 0 ∧
    (addRRsets exampleEnv startedTwoAnswers [rrsetTwoAddresses]).2 = none ∧
    (addRRsets exampleEnv startedTwoAnswers [rrsetTwoAddresses]).1.end = none ∧
    [rrsetTwoAddresses].length ≠ 2 + 0 := by
  decide

/-- C13, amended: for a build started with `start(name, type, class, a, s)` and followed by
`addRRset` calls that all complete, `end` succeeds if and only if the member records of the
RRsets added number a + s in total: the declared counts count member records, and one
`addRRset` call consumes as many as its RRset has members. -/
theorem C13_end_iff_member_total (E : Env) (c0 : CacheDataCreater) (qname : Name)
    (qtype qclass a s : Nat) (rrsets : List RRset)
    (hok : (addRRsets E (c0.start E qname qtype qclass a s) rrsets).2 = none) :
    (addRRsets E (c0.start E qname qtype qclass a s) rrsets).1.end = none ↔
      memberCount rrsets = a + s := by
  have hsum := addRRsets_counts_sum E rrsets _ hok
  have hstart : (c0.start E qname qtype qclass a s).ans_count_ = a ∧
      (c0.start E qname qtype qclass a s).soa_count_ = s := ⟨rfl, rfl⟩
  rw [hstart.1, hstart.2] at hsum
  unfold CacheDataCreater.end
  constructor
  · intro h
    by_cases hc : (addRRsets E (c0.start E qname qtype qclass a s) rrsets).1.ans_count_ ≠ 0 ∨
        (addRRsets E (c0.start E qname qtype qclass a s) rrsets).1.soa_count_ ≠ 0
    · rw [if_pos hc] at h
      cases h
    · omega
  · intro h
    have hc : ¬ ((addRRsets E (c0.start E qname qtype qclass a s) rrsets).1.ans_count_ ≠ 0 ∨
        (addRRsets E (c0.start E qname qtype qclass a s) rrsets).1.soa_count_ ≠ 0) := by
      omega
    rw [if_neg hc]

/-- Witness for C13 amended: with two answers declared, the one RRset of two members makes
`end` succeed. -/
theorem C13_end_iff_member_total_witness :
    (addRRsets exampleEnv startedTwoAnswers [rrsetTwoAddresses]).1.end = none ↔
      memberCount [rrsetTwoAddresses] = 2 + 0 :=
  C13_end_iff_member_total exampleEnv ⟨⟨[], []⟩, [], 0, false, 0, 0⟩ exampleTestName 1 1 2 0
    [rrsetTwoAddresses] (by decide)

/-! ## The authority section and calls beyond the declared counts -/

theorem addRRset_single_ok (E : Env) (c : CacheDataCreater) (rrset : RRset) (rd : Rdata)
    (hrds : rrset.rdatas = [rd])
    (hca : CacheDataCreater.countsAssert c 1 = true)
    (h0 : (c.renderer_.getLength - c.offset0_) % 65536 ≤ E.MASK_OFFSET) :
    (CacheDataCreater.addRRset E c rrset).2 = none := by
  have hca' : CacheDataCreater.countsAssert c rrset.rdatas.length = true := by
    rw [hrds]; exact hca
  rw [addRRset_eq_loop E c rrset hca', hrds]
  have h1 : ((loopEntry c rrset).renderer_.getLength - (loopEntry c rrset).offset0_) % 65536 ≤
      E.MASK_OFFSET := by
    unfold loopEntry
    split <;> exact h0
  simp only [CacheDataCreater.renderRdatas, renderRdata_eq _ _ _ _ _ _ h1]

/-- C14, as stated, fails: after `start` with no answer and two authority records declared,
the first `addRRset` call with the singleton SOA RRset fails the assertion and leaves the
creator as it was. -/
theorem C14_two_authorities_rejected :
    startedTwoAuthorities.ans_count_ = 0 ∧ startedTwoAuthorities.soa_count_ = 2 ∧
    rrsetSoa.rdatas.length = 1 ∧
    CacheDataCreater.addRRset exampleEnv startedTwoAuthorities rrsetSoa =
      (startedTwoAuthorities, some LoadError.assertion) := by
  decide

/-- C14, amended: once all declared answer records are supplied, a declared authority count
of 0 needs no call and `end` succeeds; a declared count of 1 accepts one `addRRset` call with
a singleton RRset whose offset is in range, after which `end` succeeds; a declared count of
2 or more makes the first authority `addRRset` call fail the assertion `soa_count_ == 1`,
whatever the RRset. -/
theorem C14_authority_count_at_most_one (E : Env) (c : CacheDataCreater) (rrset : RRset)
    (hans : c.ans_count_ = 0) :
    (c.soa_count_ = 0 → c.end = none) ∧
    (c.soa_count_ = 1 → ∀ rd, rrset.rdatas = [rd] →
      (c.renderer_.getLength - c.offset0_) % 65536 ≤ E.MASK_OFFSET →
      (CacheDataCreater.addRRset E c rrset).2 = none ∧
      (CacheDataCreater.addRRset E c rrset).1.end = none) ∧
    (2 ≤ c.soa_count_ →
      CacheDataCreater.addRRset E c rrset = (c, some LoadError.assertion)) := by
  refine ⟨?_, ?_, ?_⟩
  · intro hs
    unfold CacheDataCreater.end
    simp [hans, hs]
  · intro hs rd hrds h0
    have hca : CacheDataCreater.countsAssert c 1 = true := by
      unfold CacheDataCreater.countsAssert
      simp [hans, hs]
    have hok := addRRset_single_ok E c rrset rd hrds hca h0
    refine ⟨hok, ?_⟩
    obtain ⟨_, hz⟩ := addRRset_counts E c rrset hok
    obtain ⟨_, _, ha, hs'⟩ := hz hans
    unfold CacheDataCreater.end
    simp [ha, hs']
  · intro hs
    apply addRRset_assert_fails
    unfold CacheDataCreater.countsAssert
    have h1 : ¬ c.soa_count_ = 1 := by omega
    simp [hans, h1]

/-- Witness for C14 amended: with one authority record declared the singleton SOA RRset is
accepted and `end` succeeds. -/
theorem C14_authority_count_at_most_one_witness :
    startedOneAuthority.ans_count_ = 0 ∧ startedOneAuthority.soa_count_ = 1 ∧
    (CacheDataCreater.addRRset exampleEnv startedOneAuthority rrsetSoa).2 = none ∧
    (CacheDataCreater.addRRset exampleEnv startedOneAuthority rrsetSoa).1.end = none :=
  ⟨by decide, by decide,
   (C14_authority_count_at_most_one exampleEnv startedOneAuthority rrsetSoa (by decide)).2.1
     (by decide) _ rfl (by decide)⟩

/-- C15: `addRRset` called when the remaining answer count and the remaining authority count
are both zero fails the assertion and leaves the creator as it was: no offset word is
appended and no byte is written to the renderer; this holds for any call that follows
`start` with counts 0 and 0. -/
theorem C15_addRRset_beyond_counts (E : Env) (c : CacheDataCreater) (rrset : RRset)
    (ha : c.ans_count_ = 0) (hs : c.soa_count_ = 0) :
    CacheDataCreater.addRRset E c rrset = (c, some LoadError.assertion) ∧
    (CacheDataCreater.addRRset E c rrset).1.offsets_ = c.offsets_ ∧
    (CacheDataCreater.addRRset E c rrset).1.renderer_ = c.renderer_ ∧
    ∀ (c0 : CacheDataCreater) (qname : Name) (qtype qclass : Nat),
      CacheDataCreater.addRRset E (c0.start E qname qtype qclass 0 0) rrset =
        (c0.start E qname qtype qclass 0 0, some LoadError.assertion) := by
  have hgen : ∀ c1 : CacheDataCreater, c1.ans_count_ = 0 → c1.soa_count_ = 0 →
      CacheDataCreater.addRRset E c1 rrset = (c1, some LoadError.assertion) := by
    intro c1 h1 h2
    apply addRRset_assert_fails
    unfold CacheDataCreater.countsAssert
    simp [h1, h2]
  have h := hgen c ha hs
  refine ⟨h, by rw [h], by rw [h], ?_⟩
  intro c0 qname qtype qclass
  exact hgen _ rfl rfl

/-- Witness for C15: after `start` with counts 0 and 0 the call with the SOA RRset fails and
changes nothing. -/
theorem C15_addRRset_beyond_counts_witness :
    CacheDataCreater.addRRset exampleEnv startedNoRecords rrsetSoa =
      (startedNoRecords, some LoadError.assertion) :=
  (C15_addRRset_beyond_counts exampleEnv startedNoRecords rrsetSoa (by decide) (by decide)).1

/-! ## The bucket index -/

/-- C17: `getQueryHash` is `hash_combine` applied to the hash of the lower-cased name and to
the type code, so it agrees on label sequences that are equal case-insensitively; the bucket
index a pass inserts its entry at is the index `find` scans for such a name and the same
type, and with a positive `N_BUCKETS` the index is below `N_BUCKETS`. -/
theorem C17_query_hash_case_insensitive (E : Env) (hN : 0 < E.N_BUCKETS) (a b : Name)
    (type : Nat) (h : labelsEq a b = true) :
    getQueryHash E a type = E.hash_combine (E.nameHash (a.map maptolower)) type ∧
    getQueryHash E a type = getQueryHash E b type ∧
    (∀ q : Query, q.qname = a → q.qtype = type →
      builtBucket E q = getQueryHash E b type % E.N_BUCKETS) ∧
    (∀ buckets : Buckets, find E buckets b type =
      (buckets (getQueryHash E b type % E.N_BUCKETS)).find? (fun entry =>
        decide (entry.rrtype_ = type) && labelsEq (E.deserialize entry.nameBuf) b)) ∧
    getQueryHash E a type % E.N_BUCKETS < E.N_BUCKETS := by
  refine ⟨rfl, getQueryHash_congr E type h, ?_, fun _ => rfl, Nat.mod_lt _ hN⟩
  intro q hq ht
  unfold builtBucket
  rw [hq, ht, getQueryHash_congr E type h]

/-- Witness for C17: `example.test` and `EXAMPLE.test` with type A have the same hash, and
the bucket index is below 1009. -/
theorem C17_query_hash_case_insensitive_witness :
    getQueryHash exampleEnv exampleTestName 1 = getQueryHash exampleEnv exampleTestUpper 1 ∧
    getQueryHash exampleEnv exampleTestName 1 % exampleEnv.N_BUCKETS < exampleEnv.N_BUCKETS :=
  ⟨(C17_query_hash_case_insensitive exampleEnv (by decide) exampleTestName exampleTestUpper 1
      (by decide)).2.1,
   (C17_query_hash_case_insensitive exampleEnv (by decide) exampleTestName exampleTestUpper 1
      (by decide)).2.2.2.2⟩

/-! ## A short metadata line -/

/-- C19: the code at the failing input.  The second line of the file holds the name
`other.test` only; the load completes with two entries, and the entry found for
`other.test` with type A has the class-checked type A, result code 3 and counts 0 and 0
that the first line `example.test IN A 3 0 0` left in the loader's variables. -/
theorem C19_short_line_reuses_fields :
    lineOtherAlone.words.length = 1 ∧
    (construct exampleEnv (some fileShortLine)).2 = none ∧
    (construct exampleEnv (some fileShortLine)).1.entry_count = 2 ∧
    (find exampleEnv (construct exampleEnv (some fileShortLine)).1.entry_buckets_
      otherTestName 1).map (fun e => (e.rrtype_, e.rcode_, e.ans_count_, e.soa_count_)) =
      some (1, ⟨3⟩, 0, 0) := by
  decide

theorem readParams_one_word (E : Env) (st : LoaderState) (w : String) :
    readParams E st [w] = { st with qname_str := w } := by
  simp [readParams, SStream.getStr, SStream.getNum]

/-! ## All or nothing -/

theorem loadQuery_state (E : Env) (st1 : LoaderState) (q : Query) (rest : List SrcLine) :
    (∀ i, ∀ x ∈ st1.entry_buckets_ i, x ∈ (loadQuery E st1 q rest).state.entry_buckets_ i) ∧
    (∀ e, (loadQuery E st1 q rest).error = some e →
      (loadQuery E st1 q rest).state.entry_count = st1.entry_count) := by
  unfold loadQuery
  simp only
  split
  · exact ⟨fun _ _ h => h, fun _ _ => rfl⟩
  · split
    · exact ⟨fun _ _ h => h, fun _ _ => rfl⟩
    · split
      · split
        · refine ⟨fun i x h => mem_push_back_of_mem _ _ _ _ _ h, ?_⟩
          intro e he
          simp at he
        · exact ⟨fun i x h => mem_push_back_of_mem _ _ _ _ _ h, fun _ _ => rfl⟩
      · exact ⟨fun _ _ h => h, fun _ _ => rfl⟩

theorem pass_state (E : Env) (st : LoaderState) (line : SrcLine) (rest : List SrcLine) :
    (∀ i, ∀ x ∈ st.entry_buckets_ i, x ∈ (pass E st line rest).state.entry_buckets_ i) ∧
    (∀ e, (pass E st line rest).error = some e →
      (pass E st line rest).state.entry_count = st.entry_count) := by
  unfold pass
  simp only
  split
  · exact ⟨fun _ _ h => h, fun _ _ => rfl⟩
  · exact loadQuery_state E (readParams E st line.words) _ rest

theorem afterPasses_entry_count (E : Env) :
    ∀ (k : Nat) (st : LoaderState) (lines : List SrcLine) (st1 : LoaderState)
      (lines1 : List SrcLine),
      afterPasses E k st lines = some (st1, lines1) →
      st1.entry_count = st.entry_count + k := by
  intro k
  induction k with
  | zero =>
    intro st lines st1 lines1 h
    simp only [afterPasses, Option.some.injEq, Prod.mk.injEq] at h
    rw [← h.1]
    rfl
  | succ k ih =>
    intro st lines st1 lines1 h
    cases lines with
    | nil => simp [afterPasses] at h
    | cons line rest =>
      cases hend : line.ending with
      | eof => simp [afterPasses, hend] at h
      | failure => simp [afterPasses, hend] at h
      | newline =>
        cases hp : pass E st line rest with
        | mk st2 rest2 err =>
          cases err with
          | some e => simp [afterPasses, hend, hp] at h
          | none =>
            simp only [afterPasses, hend, hp] at h
            have herr : (pass E st line rest).error = none := by rw [hp]
            obtain ⟨q, hq, _, _⟩ := pass_ok E st line rest herr
            have hcount := (pass_ok_buckets E st line rest q hq herr).2.2.2.2.2
            rw [hp] at hcount
            simp only at hcount
            rw [ih st2 rest2 st1 lines1 h, hcount]
            omega

theorem loop_ok_afterPasses (E : Env) :
    ∀ (fuel : Nat) (st : LoaderState) (lines : List SrcLine) (st1 : LoaderState),
      loop E fuel st lines = (st1, none) →
      ∃ k left, afterPasses E k st lines = some (st1, left) ∧
        (left = [] ∨ ∃ l ls, left = l :: ls ∧ l.ending = LineEnd.eof) := by
  intro fuel
  induction fuel with
  | zero =>
    intro st lines st1 h
    cases lines with
    | nil =>
      simp only [loop, Prod.mk.injEq, and_true] at h
      exact ⟨0, [], by rw [h]; rfl, Or.inl rfl⟩
    | cons line rest => simp [loop] at h
  | succ fuel ih =>
    intro st lines st1 h
    cases lines with
    | nil =>
      simp only [loop, Prod.mk.injEq, and_true] at h
      exact ⟨0, [], by rw [h]; rfl, Or.inl rfl⟩
    | cons line rest =>
      cases hend : line.ending with
      | eof =>
        simp only [loop, hend, Prod.mk.injEq, and_true] at h
        exact ⟨0, line :: rest, by rw [h]; rfl, Or.inr ⟨line, rest, rfl, hend⟩⟩
      | failure => simp [loop, hend] at h
      | newline =>
        cases hp : pass E st line rest with
        | mk st2 rest2 err =>
          cases err with
          | some e => simp [loop, hend, hp] at h
          | none =>
            simp only [loop, hend, hp] at h
            obtain ⟨k, left, hk, hleft⟩ := ih st2 rest2 st1 h
            exact ⟨k + 1, left, by simp only [afterPasses, hend, hp]; exact hk, hleft⟩

theorem construct_at_failed_read (E : Env) (lines : List SrcLine) (k : Nat)
    (st : LoaderState) (line : SrcLine) (rest : List SrcLine)
    (hreach : afterPasses E k (initialState E) lines = some (st, line :: rest))
    (hfail : line.ending = LineEnd.failure) :
    construct E (some lines) = (st, some LoadError.readError) := by
  unfold construct
  simp only
  rw [afterPasses_loop E k _ _ _ _ hreach]
  simp [loop, hfail]

theorem unterminated_file_table :
    DNSL1HashTable exampleEnv (some fileLastUnterminated) =
      Except.ok (construct exampleEnv (some fileLastUnterminated)).1.entry_buckets_ :=
  table_of_construct exampleEnv (some fileLastUnterminated) (by decide)

/-- C18, as stated, fails: the file of the two lines `example.test IN A 3 0 0` and
`other.test IN A 3 0 0`, the second without a newline, gives a table, with one entry: the
loop is left when `getline` delivers the last line together with the end of the file, so the
second record is not processed and `other.test` is not found. -/
theorem C18_unprocessed_record_in_table :
    fileLastUnterminated.length = 2 ∧
    lineOtherUnterminated.words = ["other.test", "IN", "A", "3", "0", "0"] ∧
    DNSL1HashTable exampleEnv (some fileLastUnterminated) =
      Except.ok (construct exampleEnv (some fileLastUnterminated)).1.entry_buckets_ ∧
    (construct exampleEnv (some fileLastUnterminated)).1.entry_count = 1 ∧
    find exampleEnv (construct exampleEnv (some fileLastUnterminated)).1.entry_buckets_
      otherTestName 1 = none :=
  ⟨by decide, by decide, unterminated_file_table, by decide, by decide⟩

/-- C18, amended: the load is all or nothing.  A file that cannot be opened gives an error.
When the loop has completed k passes and the next line is delivered with its newline and its
pass throws, or the stream fails while the next line is read, the constructor leaves with
that error and no table is returned, although the k entries built before are in the
buckets.  When a table is returned, the loop completed a pass for every line it read, up to
the end of the file or up to a last line that has no newline, which is dropped without an
error. -/
theorem C18_all_or_nothing (E : Env) :
    DNSL1HashTable E none = Except.error LoadError.openFailed ∧
    (∀ (lines : List SrcLine) (k : Nat) (st : LoaderState) (line : SrcLine)
      (rest : List SrcLine) (e : LoadError),
      afterPasses E k (initialState E) lines = some (st, line :: rest) →
      line.ending = LineEnd.newline →
      (pass E st line rest).error = some e →
      DNSL1HashTable E (some lines) = Except.error e ∧
      st.entry_count = k ∧
      (construct E (some lines)).1.entry_count = k ∧
      ∀ i, ∀ x ∈ st.entry_buckets_ i, x ∈ (construct E (some lines)).1.entry_buckets_ i) ∧
    (∀ (lines : List SrcLine) (k : Nat) (st : LoaderState) (line : SrcLine)
      (rest : List SrcLine),
      afterPasses E k (initialState E) lines = some (st, line :: rest) →
      line.ending = LineEnd.failure →
      DNSL1HashTable E (some lines) = Except.error LoadError.readError ∧
      st.entry_count = k ∧
      construct E (some lines) = (st, some LoadError.readError)) ∧
    (∀ (lines : List SrcLine) (table : Buckets),
      DNSL1HashTable E (some lines) = Except.ok table →
      ∃ k st left, afterPasses E k (initialState E) lines = some (st, left) ∧
        table = st.entry_buckets_ ∧ st.entry_count = k ∧
        (left = [] ∨ ∃ l ls, left = l :: ls ∧ l.ending = LineEnd.eof)) := by
  refine ⟨rfl, ?_, ?_, ?_⟩
  · intro lines k st line rest e hreach hnl herr
    have hc := construct_at_failing_pass E lines k st line rest e hreach hnl herr
    have hk := afterPasses_entry_count E k _ _ _ _ hreach
    have hk0 : st.entry_count = k := by
      rw [hk]; simp [initialState]
    obtain ⟨hmono, hcount⟩ := pass_state E st line rest
    refine ⟨table_of_failing E _ _ _ hc, hk0, ?_, ?_⟩
    · rw [hc]
      simp only
      rw [hcount e herr, hk0]
    · rw [hc]
      exact hmono
  · intro lines k st line rest hreach hfail
    have hc := construct_at_failed_read E lines k st line rest hreach hfail
    have hk := afterPasses_entry_count E k _ _ _ _ hreach
    refine ⟨table_of_failing E _ _ _ hc, ?_, hc⟩
    rw [hk]; simp [initialState]
  · intro lines table h
    obtain ⟨hok, htab⟩ := table_of_ok E lines table h
    have hloop : loop E lines.length (initialState E) lines =
        ((loop E lines.length (initialState E) lines).1, none) := by
      rw [← hok]
    obtain ⟨k, left, hk, hleft⟩ := loop_ok_afterPasses E _ _ _ _ hloop
    refine ⟨k, _, left, hk, htab, ?_, hleft⟩
    rw [afterPasses_entry_count E k _ _ _ _ hk]
    simp [initialState]

/-- Witness for C18 amended: in the file with a complete address query followed by a query of
class CH the second pass throws; no table is returned although one entry had been built.
In the file whose second line cannot be read to its end the read error is thrown. -/
theorem C18_all_or_nothing_witness :
    DNSL1HashTable exampleEnv (some fileWithChaos) = Except.error LoadError.notImplemented ∧
    (construct exampleEnv (some fileWithChaos)).1.entry_count = 1 ∧
    DNSL1HashTable exampleEnv (some fileReadFailure) = Except.error LoadError.readError :=
  ⟨((C18_all_or_nothing exampleEnv).2.1 fileWithChaos 1
      (pass exampleEnv (initialState exampleEnv) lineExampleA2
        [lineRecordA1, lineRecordA2, lineOtherChaos]).state
      lineOtherChaos [] LoadError.notImplemented rfl rfl (by decide)).1,
   ((C18_all_or_nothing exampleEnv).2.1 fileWithChaos 1
      (pass exampleEnv (initialState exampleEnv) lineExampleA2
        [lineRecordA1, lineRecordA2, lineOtherChaos]).state
      lineOtherChaos [] LoadError.notImplemented rfl rfl (by decide)).2.2.1,
   ((C18_all_or_nothing exampleEnv).2.2.1 fileReadFailure 1
      (pass exampleEnv (initialState exampleEnv) lineExampleNxdomain [lineOtherFailed]).state
      lineOtherFailed [] rfl rfl).1⟩

/-! ## Duplicates -/

theorem push_back_apply (b : Buckets) (i j : Nat) (x : DNSL1HashEntry) :
    (b.push_back i x) j = b j ++ (([(i, x)] : List (Nat × DNSL1HashEntry)).filter
      (fun p => decide (p.1 = j))).map Prod.snd := by
  unfold Buckets.push_back
  by_cases h : j = i
  · subst h
    simp
  · have h' : ¬ i = j := fun e => h e.symm
    simp [h, h']

theorem loop_buckets_trace (E : Env) :
    ∀ (fuel : Nat) (st : LoaderState) (lines : List SrcLine),
      (loop E fuel st lines).2 = none →
      ∀ b, (loop E fuel st lines).1.entry_buckets_ b =
        st.entry_buckets_ b ++
          ((loadedEntries E fuel st lines).filter (fun p => decide (p.1 = b))).map Prod.snd := by
  intro fuel
  induction fuel with
  | zero =>
    intro st lines hok b
    cases lines with
    | nil => simp [loop, loadedEntries]
    | cons line rest => simp [loop] at hok
  | succ fuel ih =>
    intro st lines hok b
    cases lines with
    | nil => simp [loop, loadedEntries]
    | cons line rest =>
      cases hend : line.ending with
      | eof => simp [loop, loadedEntries, hend]
      | failure => simp [loop, hend] at hok
      | newline =>
        cases hp : pass E st line rest with
        | mk st1 rest1 err =>
          cases err with
          | some e => simp [loop, hend, hp] at hok
          | none =>
            have herr : (pass E st line rest).error = none := by rw [hp]
            obtain ⟨q, hq, _, _⟩ := pass_ok E st line rest herr
            have hb := pass_builds E st line rest q hq herr
            rw [hp] at hb
            simp only at hb
            simp only [loop, hend, hp] at hok ⊢
            rw [ih st1 rest1 hok b, hb, push_back_apply]
            simp only [loadedEntries, hend, hp, passEntry, hq, List.filter_append,
              List.map_append, List.append_assoc]

theorem loadedEntries_keyed (E : Env) :
    ∀ (fuel : Nat) (st : LoaderState) (lines : List SrcLine),
      ∀ p ∈ loadedEntries E fuel st lines,
        ∃ n, p.1 = getQueryHash E n p.2.rrtype_ % E.N_BUCKETS ∧
          labelsEq n (E.deserialize p.2.nameBuf) = true := by
  intro fuel
  induction fuel with
  | zero =>
    intro st lines p hp
    cases lines <;> simp [loadedEntries] at hp
  | succ fuel ih =>
    intro st lines p hp
    cases lines with
    | nil => simp [loadedEntries] at hp
    | cons line rest =>
      cases hend : line.ending with
      | eof => simp [loadedEntries, hend] at hp
      | failure => simp [loadedEntries, hend] at hp
      | newline =>
        cases hpass : pass E st line rest with
        | mk st1 rest1 err =>
          cases err with
          | some e => simp [loadedEntries, hend, hpass] at hp
          | none =>
            have herr : (pass E st line rest).error = none := by rw [hpass]
            obtain ⟨q, hq, _, _⟩ := pass_ok E st line rest herr
            obtain ⟨_, _, _, _, hl, _⟩ := pass_ok_buckets E st line rest q hq herr
            simp only [loadedEntries, hend, hpass, passEntry, hq, List.mem_append,
              List.mem_singleton] at hp
            rcases hp with hp | hp
            · subst hp
              exact ⟨q.qname, rfl, hl⟩
            · exact ih st1 rest1 p hp

theorem find?_filter_bucket (P : DNSL1HashEntry → Bool) (b : Nat) :
    ∀ (l : List (Nat × DNSL1HashEntry)), (∀ p ∈ l, P p.2 = true → p.1 = b) →
      ((l.filter (fun p => decide (p.1 = b))).map Prod.snd).find? P =
        (l.map Prod.snd).find? P := by
  intro l
  induction l with
  | nil => intro _; rfl
  | cons p l ih =>
    intro h
    have ih' := ih (fun x hx => h x (List.mem_cons_of_mem _ hx))
    by_cases hb : p.1 = b
    · simp only [List.filter_cons, hb, decide_True, if_true, List.map_cons, List.find?_cons]
      rw [← hb] at ih' ⊢
      rw [ih']
    · have hP : P p.2 = false := by
        cases hP : P p.2 with
        | false => rfl
        | true => exact absurd (h p (List.mem_cons_self _ _) hP) hb
      simp only [List.filter_cons, hb, decide_False, Bool.false_eq_true, if_false,
        List.map_cons, List.find?_cons, hP]
      exact ih'

/-- C16: in a table the loader built, every bucket chain holds the entries built for that
bucket in load order, entries of the same type whose stored names are equal
case-insensitively are in the same bucket, and `find` returns the first entry in load order
that has the requested type and name. -/
theorem C16_duplicates_first_loaded (E : Env) (lines : List SrcLine) (table : Buckets)
    (h : DNSL1HashTable E (some lines) = Except.ok table) :
    (∀ b, table b =
      ((entriesOf E lines).filter (fun p => decide (p.1 = b))).map Prod.snd) ∧
    (∀ p1 ∈ entriesOf E lines, ∀ p2 ∈ entriesOf E lines,
      p1.2.rrtype_ = p2.2.rrtype_ →
      labelsEq (E.deserialize p1.2.nameBuf) (E.deserialize p2.2.nameBuf) = true →
      p1.1 = p2.1) ∧
    (∀ name type, find E table name type =
      ((entriesOf E lines).map Prod.snd).find? (entryMatches E name type)) := by
  obtain ⟨hok, htab⟩ := table_of_ok E lines table h
  have htrace : ∀ b, table b =
      ((entriesOf E lines).filter (fun p => decide (p.1 = b))).map Prod.snd := by
    intro b
    rw [htab, loop_buckets_trace E _ _ _ hok b]
    simp [initialState, entriesOf]
  have hkeyed := loadedEntries_keyed E lines.length (initialState E) lines
  refine ⟨htrace, ?_, ?_⟩
  · intro p1 hp1 p2 hp2 hty hnm
    obtain ⟨n1, hb1, hl1⟩ := hkeyed p1 hp1
    obtain ⟨n2, hb2, hl2⟩ := hkeyed p2 hp2
    rw [hb1, hb2, hty]
    rw [getQueryHash_congr E p2.2.rrtype_
      (labelsEq_trans (labelsEq_trans hl1 hnm) (labelsEq_symm hl2))]
  · intro name type
    show (table (getQueryHash E name type % E.N_BUCKETS)).find? (entryMatches E name type) = _
    rw [htrace]
    apply find?_filter_bucket
    intro p hp hmatch
    obtain ⟨n, hb, hl⟩ := hkeyed p hp
    unfold entryMatches at hmatch
    simp only [Bool.and_eq_true, decide_eq_true_eq] at hmatch
    rw [hb, hmatch.1, getQueryHash_congr E type (labelsEq_trans hl hmatch.2)]

/-- Witness for C16: `example.test` with type A is loaded twice, the second time written in
capitals and with result code 3; both entries are in one bucket and `find` returns the
first, which has two answers. -/
theorem C16_duplicates_first_loaded_witness :
    ((construct exampleEnv (some fileDuplicate)).1.entry_buckets_
      (getQueryHash exampleEnv exampleTestName 1 % exampleEnv.N_BUCKETS)).map
      (fun e => (e.ans_count_, e.rcode_)) = [(2, ⟨0⟩), (0, ⟨3⟩)] ∧
    find exampleEnv (construct exampleEnv (some fileDuplicate)).1.entry_buckets_
      exampleTestName 1 =
      ((entriesOf exampleEnv fileDuplicate).map Prod.snd).find?
        (entryMatches exampleEnv exampleTestName 1) :=
  ⟨by decide,
   (C16_duplicates_first_loaded exampleEnv fileDuplicate _
     (table_of_construct exampleEnv (some fileDuplicate) (by decide))).2.2
     exampleTestName 1⟩

/-! ## An address RRset loaded from a one-query file -/

theorem renderedMember_getLength (E : Env) (rrset : RRset) (rotatable first : Bool)
    (rd : Rdata) (c : CacheDataCreater) :
    c.renderer_.getLength + 10 ≤
      (renderedMember E rrset rotatable first rd c).renderer_.getLength := by
  show _ ≤ (renderedRecord E rrset rd c.renderer_).getLength
  rw [renderedRecord_getLength]
  omega

theorem renderedMembers_facts (E : Env) (rrset : RRset) (rotatable : Bool) :
    ∀ (rds : List Rdata) (first : Bool) (c : CacheDataCreater),
      c.renderer_.getLength + 10 * rds.length ≤
        (renderedMembers E rrset rotatable first rds c).renderer_.getLength ∧
      (renderedMembers E rrset rotatable first rds c).offset0_ = c.offset0_ ∧
      (renderedMembers E rrset rotatable first rds c).rotatable_ = c.rotatable_ := by
  intro rds
  induction rds with
  | nil =>
    intro first c
    simp [renderedMembers]
  | cons rd rds ih =>
    intro first c
    obtain ⟨h1, h2, h3⟩ := ih false (renderedMember E rrset rotatable first rd c)
    have h0 := renderedMember_getLength E rrset rotatable first rd c
    simp only [renderedMembers, List.length_cons]
    refine ⟨by omega, ?_, ?_⟩
    · rw [h2]; rfl
    · rw [h3]; rfl

theorem renderRdatas_length (E : Env) (rrset : RRset) (rotatable : Bool) :
    ∀ (rds : List Rdata) (first : Bool) (c : CacheDataCreater),
      (CacheDataCreater.renderRdatas E rrset rotatable first rds c).2 = none →
      c.renderer_.getLength + 10 * rds.length ≤
        (CacheDataCreater.renderRdatas E rrset rotatable first rds c).1.renderer_.getLength := by
  intro rds
  induction rds with
  | nil =>
    intro first c _
    simp [CacheDataCreater.renderRdatas]
  | cons rd rds ih =>
    intro first c hok
    rcases renderRdata_cases E rrset rotatable first rd c with
      ⟨hf, _⟩ | ⟨c1, h1, _, _, _, _, _, hlen⟩
    · simp [CacheDataCreater.renderRdatas, hf] at hok
    · simp only [CacheDataCreater.renderRdatas, h1] at hok ⊢
      have := ih false c1 hok
      simp only [List.length_cons]
      omega

theorem addRRset_progress (E : Env) (c : CacheDataCreater) (rrset : RRset) (T : Nat)
    (hok : (CacheDataCreater.addRRset E c rrset).2 = none) (hP : Progress c T) :
    Progress (CacheDataCreater.addRRset E c rrset).1 T := by
  have hsum := addRRset_counts_sum E c rrset hok
  obtain ⟨ws, hws, hwl, _⟩ := addRRset_words E c rrset hok
  cases hca : CacheDataCreater.countsAssert c rrset.rdatas.length with
  | false =>
    rw [addRRset_assert_fails E c rrset hca] at hok
    simp at hok
  | true =>
    rw [addRRset_eq_loop E c rrset hca] at hok hsum hws ⊢
    have hlen := renderRdatas_length E rrset _ rrset.rdatas true (loopEntry c rrset) hok
    obtain ⟨_, _, h0, _, _⟩ := renderRdatas_offsets E rrset
      (CacheDataCreater.isRotatable c rrset) rrset.rdatas true (loopEntry c rrset)
    have hl0 : (loopEntry c rrset).offset0_ = c.offset0_ ∧
        (loopEntry c rrset).renderer_ = c.renderer_ := by
      unfold loopEntry; split <;> exact ⟨rfl, rfl⟩
    rw [hl0.1] at h0
    rw [hl0.2] at hlen
    obtain ⟨hP1, hP2⟩ := hP
    unfold Progress
    rw [hws, h0, List.length_append, hwl]
    constructor <;> omega

theorem collatorAddRR_progress (E : Env) (f : Feed) (rr : RR) (T : Nat)
    (hok : (collatorAddRR E f rr).2 = none) (hP : Progress f.creator T) :
    Progress (collatorAddRR E f rr).1.creator T := by
  unfold collatorAddRR at hok ⊢
  cases hcur : f.current_rrset_ with
  | none => simpa [hcur] using hP
  | some cur =>
    simp only [hcur] at hok ⊢
    split
    · rename_i hdiff
      simp only [hdiff, if_true] at hok
      cases hadd : CacheDataCreater.addRRset E f.creator cur with
      | mk c1 err =>
        cases err with
        | some e => simp [hadd] at hok
        | none =>
          have := addRRset_progress E f.creator cur T (by rw [hadd]) hP
          rw [hadd] at this
          simpa using this
    · simpa using hP

theorem collatorFlush_progress (E : Env) (f : Feed) (T : Nat)
    (hok : (collatorFlush E f).2 = none) (hP : Progress f.creator T) :
    Progress (collatorFlush E f).1.creator T := by
  unfold collatorFlush at hok ⊢
  cases hcur : f.current_rrset_ with
  | none => simpa [hcur] using hP
  | some cur =>
    simp only [hcur] at hok ⊢
    cases hadd : CacheDataCreater.addRRset E f.creator cur with
    | mk c1 err =>
      cases err with
      | some e => simp [hadd] at hok
      | none =>
        have := addRRset_progress E f.creator cur T (by rw [hadd]) hP
        rw [hadd] at this
        simpa using this

theorem loadIncremental_progress (E : Env) (T : Nat) :
    ∀ (ls : List SrcLine) (n : Nat) (f : Feed),
      (loadIncremental E n ls f).error = none → Progress f.creator T →
      Progress (loadIncremental E n ls f).feed.creator T := by
  intro ls
  induction ls with
  | nil =>
    intro n f _ hP
    cases n <;> simpa [loadIncremental] using hP
  | cons l ls ih =>
    intro n f hok hP
    cases n with
    | zero => simpa [loadIncremental] using hP
    | succ n =>
      unfold loadIncremental at hok ⊢
      cases hend : l.ending with
      | failure => simp [hend] at hok
      | eof =>
        cases hrr : l.rr with
        | bad => simp [hend, hrr] at hok
        | skip => simpa [hend, hrr] using hP
        | rr r =>
          simp only [hend, hrr] at hok ⊢
          cases hadd : collatorAddRR E f r with
          | mk f1 err =>
            cases err with
            | some e => simp [hadd] at hok
            | none =>
              have hP1 := collatorAddRR_progress E f r T (by rw [hadd]) hP
              rw [hadd] at hP1
              simpa using hP1
      | newline =>
        cases hrr : l.rr with
        | bad => simp [hend, hrr] at hok
        | skip =>
          simp only [hend, hrr] at hok ⊢
          exact ih (n + 1) f hok hP
        | rr r =>
          simp only [hend, hrr] at hok ⊢
          cases hadd : collatorAddRR E f r with
          | mk f1 err =>
            cases err with
            | some e => simp [hadd] at hok
            | none =>
              simp only [hadd] at hok ⊢
              have hP1 := collatorAddRR_progress E f r T (by rw [hadd]) hP
              rw [hadd] at hP1
              exact ih n f1 hok hP1

theorem start_progress (E : Env) (c : CacheDataCreater) (qname : Name)
    (qtype qclass a s : Nat) : Progress (c.start E qname qtype qclass a s) (a + s) := by
  unfold Progress CacheDataCreater.start
  simp

theorem renderRecord_progress (E : Env) (c : CacheDataCreater) (qname : Name)
    (qtype qclass a s : Nat) (rest : List SrcLine)
    (hok : (renderRecord E c qname qtype qclass a s rest).error = none) :
    Progress (renderRecord E c qname qtype qclass a s rest).feed.creator (a + s) := by
  unfold renderRecord at hok ⊢
  simp only at hok ⊢
  generalize hl1 : (if a > 0 then loadIncremental E a rest
    ⟨c.start E qname qtype qclass a s, none⟩
    else (⟨⟨c.start E qname qtype qclass a s, none⟩, rest, false, none⟩ : Loaded)) = l1
    at hok ⊢
  have h1 : l1.error = none → Progress l1.feed.creator (a + s) := by
    intro he
    rw [← hl1] at he ⊢
    split
    · rename_i ha
      simp only [ha, if_true] at he
      exact loadIncremental_progress E (a + s) rest a _ he (start_progress E c _ _ _ a s)
    · exact start_progress E c _ _ _ a s
  cases he1 : l1.error with
  | some e => simp [he1] at hok
  | none =>
    simp only [he1] at hok ⊢
    have hP1 := h1 he1
    generalize hl2 : (if s > 0 then
        if l1.complete = true then
          (⟨l1.feed, l1.rest, true, some LoadError.invalidOperation⟩ : Loaded)
        else loadIncremental E s l1.rest l1.feed
      else l1) = l2 at hok ⊢
    have h2 : l2.error = none → Progress l2.feed.creator (a + s) := by
      intro he
      rw [← hl2] at he ⊢
      split
      · rename_i hs
        simp only [hs, if_true] at he
        split
        · rename_i hc
          simp [hc] at he
        · rename_i hc
          simp only [hc, if_false] at he
          exact loadIncremental_progress E (a + s) l1.rest s _ he hP1
      · exact hP1
    cases he2 : l2.error with
    | some e => simp [he2] at hok
    | none =>
      simp only [he2] at hok ⊢
      have hP2 := h2 he2
      cases hfl : collatorFlush E l2.feed with
      | mk f3 e =>
        simp only [hfl] at hok ⊢
        have := collatorFlush_progress E l2.feed (a + s) (by rw [hfl]; exact hok) hP2
        rw [hfl] at this
        exact this

theorem pass_ok_progress (E : Env) (st : LoaderState) (line : SrcLine) (rest : List SrcLine)
    (h : (pass E st line rest).error = none) :
    (pass E st line rest).state.creator.offsets_.length =
      2 * ((readParams E st line.words).ans_count + (readParams E st line.words).soa_count) ∧
    10 * ((readParams E st line.words).ans_count + (readParams E st line.words).soa_count) ≤
      E.MASK_OFFSET := by
  obtain ⟨q, hq, _, hpass⟩ := pass_ok E st line rest h
  obtain ⟨_, hc, hend, hm, _, _⟩ := pass_ok_buckets E st line rest q hq h
  rw [hpass] at h
  have hrender := (loadQuery_ok E _ q rest h).1
  rw [readParams_creator] at hrender
  have hP := renderRecord_progress E st.creator q.qname q.qtype q.qclass _ _ rest hrender
  rw [← hc] at hP
  obtain ⟨hP1, hP2⟩ := hP
  unfold CacheDataCreater.end at hend
  have hz : (pass E st line rest).state.creator.ans_count_ = 0 ∧
      (pass E st line rest).state.creator.soa_count_ = 0 := by
    by_contra hcon
    have : (pass E st line rest).state.creator.ans_count_ ≠ 0 ∨
        (pass E st line rest).state.creator.soa_count_ ≠ 0 := by omega
    rw [if_pos this] at hend
    cases hend
  rw [hz.1, hz.2] at hP1 hP2
  constructor <;> omega

theorem dataLen_and_rot (E : Env) (hE : FlagsWF E) (c : CacheDataCreater)
    (hm : c.renderer_.getLength - c.offset0_ ≤ E.MASK_OFFSET) (hrot : c.rotatable_ = true) :
    dataLen E c &&& E.FLAG_ROTATABLE = E.FLAG_ROTATABLE := by
  have h16 : (65536 : Nat) = 2 ^ 16 := by norm_num
  have hp : c.renderer_.getLength - c.offset0_ < 2 ^ 16 := by
    rw [← h16]; exact lt_of_le_of_lt hm hE.mask_lt
  have hR : E.FLAG_ROTATABLE < 2 ^ 16 := by rw [← h16]; exact hE.rot_lt
  unfold dataLen
  rw [hrot, if_pos rfl, h16, Nat.mod_eq_of_lt (Nat.or_lt_two_pow hp hR), and_or_right,
    hE.rot_mask _ hm, Nat.and_self, Nat.zero_or]

theorem and_even_mask (x : Nat) (hx : x < 2 ^ 64) : x &&& (2 ^ 64 - 2) = x - x % 2 := by
  have hm : (2 ^ 64 - 2 : Nat) = Nat.bit false (2 ^ 63 - 1) := by
    simp [Nat.bit_val]
  have hx2 : x = Nat.bit x.bodd x.div2 := (Nat.bit_decomp x).symm
  have hd : x.div2 % 2 ^ 63 = x / 2 := by
    rw [Nat.div2_val]
    apply Nat.mod_eq_of_lt
    omega
  calc x &&& (2 ^ 64 - 2) = Nat.bit x.bodd x.div2 &&& Nat.bit false (2 ^ 63 - 1) := by
        rw [← hm, ← hx2]
    _ = Nat.bit false (x / 2) := by
        rw [Nat.land_bit, Bool.and_false, Nat.and_pow_two_sub_one_eq_mod, hd]
    _ = x - x % 2 := by
        simp only [Nat.bit_val, Bool.toNat_false]
        omega

/-- C22: for a serialized name length `n` (any `size_t` value below the largest one), the
padded name length `(n + 1) & ~1` is even, at least `n`, at most `n + 1`, and no even number
from `n` on is smaller; it is the value stored as the entry's padded name length. -/
theorem C22_padded_name_length (n : Nat) (hn : n + 1 < 2 ^ 64) :
    nameBuflen n % 2 = 0 ∧ n ≤ nameBuflen n ∧ nameBuflen n ≤ n + 1 ∧
    (∀ m, m % 2 = 0 → n ≤ m → nameBuflen n ≤ m) ∧
    ∀ (E : Env) (c : CacheDataCreater) (qname : Name) (qtype : Nat) (rcode : Rcode)
      (a s : Nat), (E.serialize qname).length = n →
      (buildEntry E c qname qtype rcode a s).name_buflen = nameBuflen n := by
  refine ⟨?_, ?_, ?_, ?_, ?_⟩
  · unfold nameBuflen
    rw [Nat.mod_eq_of_lt hn, and_even_mask (n + 1) hn]
    omega
  · unfold nameBuflen
    rw [Nat.mod_eq_of_lt hn, and_even_mask (n + 1) hn]
    omega
  · unfold nameBuflen
    rw [Nat.mod_eq_of_lt hn, and_even_mask (n + 1) hn]
    omega
  · intro m hm hnm
    unfold nameBuflen
    rw [Nat.mod_eq_of_lt hn, and_even_mask (n + 1) hn]
    omega
  · intro E c qname qtype rcode a s hlen
    simp [buildEntry, hlen]

/-- Witness for C22: a serialized name of 13 bytes is padded to 14 bytes. -/
theorem C22_padded_name_length_witness :
    13 + 1 < 2 ^ 64 ∧ nameBuflen 13 % 2 = 0 ∧ 13 ≤ nameBuflen 13 ∧ nameBuflen 13 ≤ 13 + 1 :=
  ⟨by decide, (C22_padded_name_length 13 (by decide)).1,
    (C22_padded_name_length 13 (by decide)).2.1, (C22_padded_name_length 13 (by decide)).2.2.1⟩

/-! ## Interface lookup -/

theorem getIfaceByIndexFrom_some (D : IfaceDecl) (ifindex : Int) :
    ∀ (l : List Iface) (pos i : Nat), getIfaceByIndexFrom D ifindex l pos = some i ↔
      pos ≤ i ∧ (∃ x, l.get? (i - pos) = some x ∧ D.getIndex x = ifindex) ∧
        ∀ j y, j < i - pos → l.get? j = some y → D.getIndex y ≠ ifindex := by
  intro l
  induction l with
  | nil => intro pos i; simp [getIfaceByIndexFrom]
  | cons a l ih =>
    intro pos i
    unfold getIfaceByIndexFrom
    by_cases ha : D.getIndex a = ifindex
    · rw [if_pos ha]
      constructor
      · intro h
        have : pos = i := by simpa using h
        subst this
        simp [ha]
      · rintro ⟨hle, _, hno⟩
        by_cases hp : i - pos = 0
        · have : pos = i := by omega
          rw [this]
        · exact absurd ha (hno 0 a (by omega) rfl)
    · rw [if_neg ha, ih (pos + 1) i]
      constructor
      · rintro ⟨hle, ⟨x, hx, hxi⟩, hno⟩
        have e : i - pos = (i - (pos + 1)) + 1 := by omega
        refine ⟨by omega, ⟨x, ?_, hxi⟩, ?_⟩
        · rw [e]; simpa using hx
        · intro j y hj hy
          cases j with
          | zero =>
            have : a = y := by simpa using hy
            rw [← this]; exact ha
          | succ j => exact hno j y (by omega) (by simpa using hy)
      · rintro ⟨hle, ⟨x, hx, hxi⟩, hno⟩
        have hne : i - pos ≠ 0 := by
          intro h0
          rw [h0] at hx
          have : a = x := by simpa using hx
          rw [this] at ha
          exact ha hxi
        have e : i - pos = (i - (pos + 1)) + 1 := by omega
        refine ⟨by omega, ⟨x, ?_, hxi⟩, ?_⟩
        · rw [e] at hx; simpa using hx
        · intro j y hj hy
          exact hno (j + 1) y (by omega) (by simpa using hy)

theorem getIfaceByIndexFrom_none (D : IfaceDecl) (ifindex : Int) :
    ∀ (l : List Iface) (pos : Nat), getIfaceByIndexFrom D ifindex l pos = none ↔
      ∀ x ∈ l, D.getIndex x ≠ ifindex := by
  intro l
  induction l with
  | nil => intro pos; simp [getIfaceByIndexFrom]
  | cons a l ih =>
    intro pos
    unfold getIfaceByIndexFrom
    by_cases ha : D.getIndex a = ifindex
    · simp [ha]
    · rw [if_neg ha, ih (pos + 1)]
      simp [ha]

theorem getIfaceByNameFrom_some (D : IfaceDecl) (ifname : String) :
    ∀ (l : List Iface) (pos i : Nat), getIfaceByNameFrom D ifname l pos = some i ↔
      pos ≤ i ∧ (∃ x, l.get? (i - pos) = some x ∧ D.getName x = ifname) ∧
        ∀ j y, j < i - pos → l.get? j = some y → D.getName y ≠ ifname := by
  intro l
  induction l with
  | nil => intro pos i; simp [getIfaceByNameFrom]
  | cons a l ih =>
    intro pos i
    unfold getIfaceByNameFrom
    by_cases ha : D.getName a = ifname
    · rw [if_pos ha]
      constructor
      · intro h
        have : pos = i := by simpa using h
        subst this
        simp [ha]
      · rintro ⟨hle, _, hno⟩
        by_cases hp : i - pos = 0
        · have : pos = i := by omega
          rw [this]
        · exact absurd ha (hno 0 a (by omega) rfl)
    · rw [if_neg ha, ih (pos + 1) i]
      constructor
      · rintro ⟨hle, ⟨x, hx, hxi⟩, hno⟩
        have e : i - pos = (i - (pos + 1)) + 1 := by omega
        refine ⟨by omega, ⟨x, ?_, hxi⟩, ?_⟩
        · rw [e]; simpa using hx
        · intro j y hj hy
          cases j with
          | zero =>
            have : a = y := by simpa using hy
            rw [← this]; exact ha
          | succ j => exact hno j y (by omega) (by simpa using hy)
      · rintro ⟨hle, ⟨x, hx, hxi⟩, hno⟩
        have hne : i - pos ≠ 0 := by
          intro h0
          rw [h0] at hx
          have : a = x := by simpa using hx
          rw [this] at ha
          exact ha hxi
        have e : i - pos = (i - (pos + 1)) + 1 := by omega
        refine ⟨by omega, ⟨x, ?_, hxi⟩, ?_⟩
        · rw [e] at hx; simpa using hx
        · intro j y hj hy
          exact hno (j + 1) y (by omega) (by simpa using hy)

theorem getIfaceByNameFrom_none (D : IfaceDecl) (ifname : String) :
    ∀ (l : List Iface) (pos : Nat), getIfaceByNameFrom D ifname l pos = none ↔
      ∀ x ∈ l, D.getName x ≠ ifname := by
  intro l
  induction l with
  | nil => intro pos; simp [getIfaceByNameFrom]
  | cons a l ih =>
    intro pos
    unfold getIfaceByNameFrom
    by_cases ha : D.getName a = ifname
    · simp [ha]
    · rw [if_neg ha, ih (pos + 1)]
      simp [ha]

/-- C23: `getIface(ifindex)` returns a pointer to the interface at position `i` exactly when
that interface has the index `ifindex` and no interface before it has; `getIface(name)`
does the same with names; each returns `NULL` exactly when no interface of the list
matches; neither changes the manager.  In the unit test's list `lo1/1`, `eth5/2`, `en3/5`,
`e1000g0/3`, `getIface(5)` points to `en3`, `getIface("lo1")` to the interface of index 1,
and `getIface("wifi0")` is `NULL`. -/
theorem C23_getIface_first_match (D : IfaceDecl) (m : IfaceMgr) :
    (∀ ifindex : Int,
      (m.getIface D ifindex).1 = m ∧
      (∀ i, (m.getIface D ifindex).2 = some i ↔
        (∃ x, m.ifaces_.get? i = some x ∧ D.getIndex x = ifindex) ∧
          ∀ j y, j < i → m.ifaces_.get? j = some y → D.getIndex y ≠ ifindex) ∧
      ((m.getIface D ifindex).2 = none ↔ ∀ x ∈ m.ifaces_, D.getIndex x ≠ ifindex)) ∧
    (∀ ifname : String,
      (m.getIfaceNamed D ifname).1 = m ∧
      (∀ i, (m.getIfaceNamed D ifname).2 = some i ↔
        (∃ x, m.ifaces_.get? i = some x ∧ D.getName x = ifname) ∧
          ∀ j y, j < i → m.ifaces_.get? j = some y → D.getName y ≠ ifname) ∧
      ((m.getIfaceNamed D ifname).2 = none ↔ ∀ x ∈ m.ifaces_, D.getName x ≠ ifname)) ∧
    (testIfaceMgr.getIface memberAccess 5).2 = some 2 ∧
    (testIfaceMgr.ifaces_.get? 2).map (fun x => (x.name_, x.ifindex_)) = some ("en3", 5) ∧
    (testIfaceMgr.getIfaceNamed memberAccess "lo1").2 = some 0 ∧
    (testIfaceMgr.ifaces_.get? 0).map (fun x => (x.name_, x.ifindex_)) = some ("lo1", 1) ∧
    (testIfaceMgr.getIfaceNamed memberAccess "wifi0").2 = none := by
  refine ⟨?_, ?_, by decide, by decide, by decide, by decide, by decide⟩
  · intro ifindex
    refine ⟨rfl, ?_, ?_⟩
    · intro i
      have := getIfaceByIndexFrom_some D ifindex m.ifaces_ 0 i
      simpa [IfaceMgr.getIface] using this
    · exact getIfaceByIndexFrom_none D ifindex m.ifaces_ 0
  · intro ifname
    refine ⟨rfl, ?_, ?_⟩
    · intro i
      have := getIfaceByNameFrom_some D ifname m.ifaces_ 0 i
      simpa [IfaceMgr.getIfaceNamed] using this
    · exact getIfaceByNameFrom_none D ifname m.ifaces_ 0

/-! ## The type and the counts an entry stores -/

theorem readParams_of_six_words (E : Env) (st : LoaderState) (w0 w1 w2 w3 w4 w5 : String)
    (rc a s : Nat) (h3 : E.readNum w3 = ⟨some rc, true, ""⟩)
    (h4 : E.readNum w4 = ⟨some a, true, ""⟩) (h5 : E.readNum w5 = ⟨some s, true, ""⟩) :
    (readParams E st [w0, w1, w2, w3, w4, w5]).qtype_str = w2 ∧
    (readParams E st [w0, w1, w2, w3, w4, w5]).ans_count = a ∧
    (readParams E st [w0, w1, w2, w3, w4, w5]).soa_count = s := by
  simp [readParams, SStream.getStr, SStream.getNum, h3, h4, h5]

theorem end_none_counts (c : CacheDataCreater) (h : c.end = none) :
    c.ans_count_ = 0 ∧ c.soa_count_ = 0 := by
  unfold CacheDataCreater.end at h
  by_contra hcon
  have : c.ans_count_ ≠ 0 ∨ c.soa_count_ ≠ 0 := by omega
  rw [if_pos this] at h
  cases h

/-- C21: the entry a completed pass appends stores the query type of the pass and the answer
and authority counts as the loader read them for the line, while the creator's own
remaining counters are both zero by then; for a metadata line of six fields
`name class type rcode a s` the stored type is the type the third field names and the
stored counts are `a` and `s`. -/
theorem C21_entry_type_and_counts (E : Env) (st : LoaderState) (line : SrcLine)
    (rest : List SrcLine) (h : (pass E st line rest).error = none) :
    ∃ q, parseQuery E (readParams E st line.words) = Except.ok q ∧
      (pass E st line rest).state.entry_buckets_ =
        st.entry_buckets_.push_back (builtBucket E q) (builtEntry E st line rest q) ∧
      (builtEntry E st line rest q).rrtype_ = q.qtype ∧
      (builtEntry E st line rest q).ans_count_ = (readParams E st line.words).ans_count ∧
      (builtEntry E st line rest q).soa_count_ = (readParams E st line.words).soa_count ∧
      (pass E st line rest).state.creator.ans_count_ = 0 ∧
      (pass E st line rest).state.creator.soa_count_ = 0 ∧
      ∀ (w0 w1 w2 w3 w4 w5 : String) (t rc a s : Nat),
        line.words = [w0, w1, w2, w3, w4, w5] → E.typeFromText w2 = some t →
        E.readNum w3 = ⟨some rc, true, ""⟩ → E.readNum w4 = ⟨some a, true, ""⟩ →
        E.readNum w5 = ⟨some s, true, ""⟩ →
        (builtEntry E st line rest q).rrtype_ = t ∧
        (builtEntry E st line rest q).ans_count_ = a ∧
        (builtEntry E st line rest q).soa_count_ = s := by
  obtain ⟨q, hq, _, _⟩ := pass_ok E st line rest h
  obtain ⟨_, _, hend, _⟩ := pass_ok_buckets E st line rest q hq h
  have hz := end_none_counts _ hend
  refine ⟨q, hq, pass_builds E st line rest q hq h, rfl, rfl, rfl, hz.1, hz.2, ?_⟩
  intro w0 w1 w2 w3 w4 w5 t rc a s hw hty h3 h4 h5
  obtain ⟨hp2, hpa, hps⟩ := readParams_of_six_words E st w0 w1 w2 w3 w4 w5 rc a s h3 h4 h5
  have htq := (parseQuery_ok E _ q hq).2.2.2.1
  rw [hw, hp2, hty] at htq
  refine ⟨?_, ?_, ?_⟩
  · show q.qtype = t
    exact (Option.some.inj htq).symm
  · show (readParams E st line.words).ans_count = a
    rw [hw]; exact hpa
  · show (readParams E st line.words).soa_count = s
    rw [hw]; exact hps

/-- Witness for C21: the pass over `example.test IN A 0 2 0` and its two address records
completes, and the entry it builds has type A, answer count 2 and authority count 0. -/
theorem C21_entry_type_and_counts_witness :
    (pass exampleEnv (initialState exampleEnv) lineExampleA2
      [lineRecordA1, lineRecordA2]).error = none ∧
    ∃ q, (builtEntry exampleEnv (initialState exampleEnv) lineExampleA2
        [lineRecordA1, lineRecordA2] q).rrtype_ = 1 ∧
      (builtEntry exampleEnv (initialState exampleEnv) lineExampleA2
        [lineRecordA1, lineRecordA2] q).ans_count_ = 2 ∧
      (builtEntry exampleEnv (initialState exampleEnv) lineExampleA2
        [lineRecordA1, lineRecordA2] q).soa_count_ = 0 :=
  ⟨by decide,
   (C21_entry_type_and_counts exampleEnv (initialState exampleEnv) lineExampleA2
      [lineRecordA1, lineRecordA2] (by decide)).imp
     fun _ hq => hq.2.2.2.2.2.2.2 "example.test" "IN" "A" "0" "2" "0" 1 0 2 0 rfl rfl rfl rfl rfl⟩

/-! ## A new query starts from nothing -/

/-- C30: `start` leaves nothing of the creator it is called on: started with the same
arguments, two creators are equal in every member (offset list, payload origin, rotatable
flag, remaining counters, rendered bytes and compression history), they stay equal through
any sequence of `addRRset` calls, failed ones included, and the record producer's part of a
pass gives the same result from either. -/
theorem C30_start_resets (E : Env) (c1 c2 : CacheDataCreater) (qname : Name)
    (qtype qclass a s : Nat) :
    c1.start E qname qtype qclass a s = c2.start E qname qtype qclass a s ∧
    (∀ rrsets, addRRsets E (c1.start E qname qtype qclass a s) rrsets =
      addRRsets E (c2.start E qname qtype qclass a s) rrsets) ∧
    (∀ rest, (renderRecord E c1 qname qtype qclass a s rest).feed.creator =
        (renderRecord E c2 qname qtype qclass a s rest).feed.creator ∧
      (renderRecord E c1 qname qtype qclass a s rest).error =
        (renderRecord E c2 qname qtype qclass a s rest).error ∧
      (renderRecord E c1 qname qtype qclass a s rest).rest =
        (renderRecord E c2 qname qtype qclass a s rest).rest) := by
  have h : c1.start E qname qtype qclass a s = c2.start E qname qtype qclass a s := rfl
  refine ⟨h, ?_, ?_⟩
  · intro rrsets
    rw [h]
  · intro rest
    have hr : renderRecord E c1 qname qtype qclass a s rest =
        renderRecord E c2 qname qtype qclass a s rest := by
      unfold renderRecord
      rw [h]
    rw [hr]
    exact ⟨rfl, rfl, rfl⟩

/-! ## The members of one RRset, one after the other -/

theorem renderRdatas_take (E : Env) (rrset : RRset) (rotatable : Bool) :
    ∀ (rds : List Rdata) (first : Bool) (c : CacheDataCreater) (k : Nat) (rd : Rdata),
      rds.get? k = some rd →
      (CacheDataCreater.renderRdatas E rrset rotatable first rds c).2 = none →
      CacheDataCreater.renderRdatas E rrset rotatable first (rds.take (k + 1)) c =
        (renderedMember E rrset rotatable (first && decide (k = 0)) rd
          (CacheDataCreater.renderRdatas E rrset rotatable first (rds.take k) c).1, none) ∧
      ((CacheDataCreater.renderRdatas E rrset rotatable first (rds.take k) c).1.renderer_.getLength
        - c.offset0_) % 65536 ≤ E.MASK_OFFSET ∧
      c.renderer_.getLength ≤
        (CacheDataCreater.renderRdatas E rrset rotatable first (rds.take k)
          c).1.renderer_.getLength ∧
      (CacheDataCreater.renderRdatas E rrset rotatable first (rds.take (k + 1))
          c).1.renderer_.getLength ≤
        (CacheDataCreater.renderRdatas E rrset rotatable first rds c).1.renderer_.getLength := by
  intro rds
  induction rds with
  | nil =>
    intro first c k rd hk _
    simp at hk
  | cons rd0 rds ih =>
    intro first c k rd hk hok
    rcases renderRdata_cases E rrset rotatable first rd0 c with
      ⟨hf, _⟩ | ⟨c1, h1, hm, _, h0, _, _, hlen⟩
    · simp [CacheDataCreater.renderRdatas, hf] at hok
    · have heq := renderRdata_eq E rrset rotatable first rd0 c hm
      simp only [CacheDataCreater.renderRdatas, h1] at hok
      cases k with
      | zero =>
        have hrd : rd0 = rd := by simpa using hk
        subst hrd
        have hfin := renderRdatas_length E rrset rotatable rds false c1 hok
        have hc1 : c1 = renderedMember E rrset rotatable first rd0 c := by
          rw [h1] at heq
          exact (Prod.mk.inj heq).1
        simp only [List.take_zero, List.take_succ_cons, CacheDataCreater.renderRdatas, h1,
          decide_True, Bool.and_true]
        refine ⟨by rw [hc1], hm, le_refl _, ?_⟩
        omega
      | succ k =>
        have hk1 : rds.get? k = some rd := by simpa using hk
        obtain ⟨ha, hb, hc, hd⟩ := ih false c1 k rd hk1 hok
        simp only [List.take_succ_cons, CacheDataCreater.renderRdatas, h1]
        rw [h0] at hb
        refine ⟨?_, hb, by omega, hd⟩
        rw [ha]
        simp

theorem loopEntry_fields (c : CacheDataCreater) (rrset : RRset) :
    (loopEntry c rrset).renderer_ = c.renderer_ ∧ (loopEntry c rrset).offsets_ = c.offsets_ ∧
    (loopEntry c rrset).offset0_ = c.offset0_ := by
  unfold loopEntry
  split <;> exact ⟨rfl, rfl, rfl⟩

theorem addRRset_countsAssert (E : Env) (c : CacheDataCreater) (rrset : RRset)
    (hok : (CacheDataCreater.addRRset E c rrset).2 = none) :
    CacheDataCreater.countsAssert c rrset.rdatas.length = true := by
  cases hca : CacheDataCreater.countsAssert c rrset.rdatas.length with
  | false =>
    rw [addRRset_assert_fails E c rrset hca] at hok
    simp at hok
  | true => rfl

theorem beforeMember_facts (E : Env) (c : CacheDataCreater) (rrset : RRset)
    (hok : (CacheDataCreater.addRRset E c rrset).2 = none) (k : Nat) (rd : Rdata)
    (hk : rrset.rdatas.get? k = some rd) :
    beforeMember E c rrset (k + 1) =
      renderedMember E rrset (CacheDataCreater.isRotatable c rrset) (decide (k = 0)) rd
        (beforeMember E c rrset k) ∧
    ((beforeMember E c rrset k).renderer_.getLength - c.offset0_) % 65536 ≤ E.MASK_OFFSET ∧
    c.renderer_.getLength ≤ (beforeMember E c rrset k).renderer_.getLength ∧
    (beforeMember E c rrset (k + 1)).renderer_.getLength ≤
      (CacheDataCreater.addRRset E c rrset).1.renderer_.getLength := by
  have hca := addRRset_countsAssert E c rrset hok
  rw [addRRset_eq_loop E c rrset hca] at hok ⊢
  obtain ⟨ha, hb, hc, hd⟩ := renderRdatas_take E rrset (CacheDataCreater.isRotatable c rrset)
    rrset.rdatas true (loopEntry c rrset) k rd hk hok
  obtain ⟨hl1, _, hl3⟩ := loopEntry_fields c rrset
  rw [hl3] at hb
  rw [hl1] at hc
  unfold beforeMember
  refine ⟨?_, hb, hc, hd⟩
  rw [ha]
  simp

theorem beforeMember_all (E : Env) (c : CacheDataCreater) (rrset : RRset)
    (hok : (CacheDataCreater.addRRset E c rrset).2 = none) :
    beforeMember E c rrset rrset.rdatas.length = (CacheDataCreater.addRRset E c rrset).1 := by
  have hca := addRRset_countsAssert E c rrset hok
  rw [addRRset_eq_loop E c rrset hca]
  unfold beforeMember
  rw [List.take_length]

/-! ## The backpatched length field -/

theorem renderedRecord_eq_patch (E : Env) (rrset : RRset) (rd : Rdata) (r : MessageRenderer) :
    (beforePatch E rrset rd r).writeUint16At
        (((beforePatch E rrset rd r).getLength - lengthFieldPos E rrset r - 2) % 65536)
        (lengthFieldPos E rrset r) =
      some (renderedRecord E rrset rd r) ∧
    (beforePatch E rrset rd r).getLength - lengthFieldPos E rrset r - 2 =
      (rdataBytes E rrset rd r).length ∧
    lengthFieldPos E rrset r + 2 ≤ (beforePatch E rrset rd r).getLength := by
  have hlen : lengthFieldPos E rrset r + 2 + (rdataBytes E rrset rd r).length =
      (beforePatch E rrset rd r).getLength := by
    simp [lengthFieldPos, beforePatch, rdataBytes, MessageRenderer.getLength,
      MessageRenderer.writeUint32, MessageRenderer.writeUint16, MessageRenderer.writeName,
      MessageRenderer.skip, MessageRenderer.writeRdata]
    omega
  refine ⟨?_, by omega, by omega⟩
  unfold MessageRenderer.writeUint16At
  rw [if_pos (by unfold MessageRenderer.getLength at hlen; omega)]
  rfl

theorem get?_set_set (l : List Nat) (pos a b : Nat) (h : pos + 2 ≤ l.length) :
    ((l.set pos a).set (pos + 1) b).length = l.length ∧
    ((l.set pos a).set (pos + 1) b).get? pos = some a ∧
    ((l.set pos a).set (pos + 1) b).get? (pos + 1) = some b ∧
    ∀ i, i ≠ pos → i ≠ pos + 1 → ((l.set pos a).set (pos + 1) b).get? i = l.get? i := by
  refine ⟨by simp, ?_, ?_, ?_⟩
  · rw [List.get?_eq_getElem?, List.getElem?_set_ne (by omega), List.getElem?_set_self (by omega)]
  · rw [List.get?_eq_getElem?, List.getElem?_set_self (by simp; omega)]
  · intro i h1 h2
    rw [List.get?_eq_getElem?, List.get?_eq_getElem?, List.getElem?_set_ne (by omega),
      List.getElem?_set_ne (by omega)]

/-- C24: for every member record `addRRset` renders, the backpatch `writeUint16At` succeeds
and gives the renderer the member leaves; the two bytes at the reserved position `pos` then
hold, most significant byte first, the 16-bit value of (renderer length after the data) -
`pos` - 2, which is the number of bytes the record data wrote; every other byte, the length
of the buffer and the compression history are as before the backpatch. -/
theorem C24_length_field_backpatched (E : Env) (c : CacheDataCreater) (rrset : RRset)
    (hok : (CacheDataCreater.addRRset E c rrset).2 = none) (k : Nat) (rd : Rdata)
    (hk : rrset.rdatas.get? k = some rd) :
    (beforePatch E rrset rd (beforeMember E c rrset k).renderer_).writeUint16At
        (((beforePatch E rrset rd (beforeMember E c rrset k).renderer_).getLength -
          lengthFieldPos E rrset (beforeMember E c rrset k).renderer_ - 2) % 65536)
        (lengthFieldPos E rrset (beforeMember E c rrset k).renderer_) =
      some (beforeMember E c rrset (k + 1)).renderer_ ∧
    (beforePatch E rrset rd (beforeMember E c rrset k).renderer_).getLength -
        lengthFieldPos E rrset (beforeMember E c rrset k).renderer_ - 2 =
      (rdataBytes E rrset rd (beforeMember E c rrset k).renderer_).length ∧
    (beforeMember E c rrset (k + 1)).renderer_.data.get?
        (lengthFieldPos E rrset (beforeMember E c rrset k).renderer_) =
      some ((rdataBytes E rrset rd (beforeMember E c rrset k).renderer_).length % 65536
        / 256 % 256) ∧
    (beforeMember E c rrset (k + 1)).renderer_.data.get?
        (lengthFieldPos E rrset (beforeMember E c rrset k).renderer_ + 1) =
      some ((rdataBytes E rrset rd (beforeMember E c rrset k).renderer_).length % 65536
        % 256) ∧
    (∀ i, i ≠ lengthFieldPos E rrset (beforeMember E c rrset k).renderer_ →
      i ≠ lengthFieldPos E rrset (beforeMember E c rrset k).renderer_ + 1 →
      (beforeMember E c rrset (k + 1)).renderer_.data.get? i =
        (beforePatch E rrset rd (beforeMember E c rrset k).renderer_).data.get? i) ∧
    (beforeMember E c rrset (k + 1)).renderer_.getLength =
      (beforePatch E rrset rd (beforeMember E c rrset k).renderer_).getLength ∧
    (beforeMember E c rrset (k + 1)).renderer_.log =
      (beforePatch E rrset rd (beforeMember E c rrset k).renderer_).log := by
  obtain ⟨hsucc, _, _, _⟩ := beforeMember_facts E c rrset hok k rd hk
  generalize beforeMember E c rrset k = b at hsucc ⊢
  obtain ⟨hp, hcount, hpos⟩ := renderedRecord_eq_patch E rrset rd b.renderer_
  have hr : (beforeMember E c rrset (k + 1)).renderer_ = renderedRecord E rrset rd b.renderer_ := by
    rw [hsucc]; rfl
  rw [hr]
  obtain ⟨g1, g2, g3, g4⟩ := get?_set_set (beforePatch E rrset rd b.renderer_).data
    (lengthFieldPos E rrset b.renderer_)
    (((beforePatch E rrset rd b.renderer_).getLength - lengthFieldPos E rrset b.renderer_ - 2)
      % 65536 / 256 % 256)
    (((beforePatch E rrset rd b.renderer_).getLength - lengthFieldPos E rrset b.renderer_ - 2)
      % 65536 % 256) hpos
  have hd : (renderedRecord E rrset rd b.renderer_).data =
      ((beforePatch E rrset rd b.renderer_).data.set (lengthFieldPos E rrset b.renderer_)
        (((beforePatch E rrset rd b.renderer_).getLength - lengthFieldPos E rrset b.renderer_
          - 2) % 65536 / 256 % 256)).set (lengthFieldPos E rrset b.renderer_ + 1)
        (((beforePatch E rrset rd b.renderer_).getLength - lengthFieldPos E rrset b.renderer_
          - 2) % 65536 % 256) := rfl
  refine ⟨hp, hcount, ?_, ?_, ?_, ?_, rfl⟩
  · rw [hd, g2, hcount]
  · rw [hd, g3, hcount]
  · intro i h1 h2
    rw [hd]
    exact g4 i h1 h2
  · unfold MessageRenderer.getLength
    rw [hd, g1]

/-- Witness for C24: after the first address record of `example.test` the reserved bytes at
position 40 hold 0 and 4, the length of the address. -/
theorem C24_length_field_backpatched_witness :
    (CacheDataCreater.addRRset exampleEnv startedTwoAnswers rrsetTwoAddresses).2 = none ∧
    rrsetTwoAddresses.rdatas.get? 0 = some [192, 0, 2, 1] ∧
    lengthFieldPos exampleEnv rrsetTwoAddresses
      (beforeMember exampleEnv startedTwoAnswers rrsetTwoAddresses 0).renderer_ = 40 ∧
    (beforeMember exampleEnv startedTwoAnswers rrsetTwoAddresses (0 + 1)).renderer_.data.get?
        (lengthFieldPos exampleEnv rrsetTwoAddresses
          (beforeMember exampleEnv startedTwoAnswers rrsetTwoAddresses 0).renderer_ + 1) =
      some ((rdataBytes exampleEnv rrsetTwoAddresses [192, 0, 2, 1]
        (beforeMember exampleEnv startedTwoAnswers rrsetTwoAddresses 0).renderer_).length
          % 65536 % 256) ∧
    (rdataBytes exampleEnv rrsetTwoAddresses [192, 0, 2, 1]
      (beforeMember exampleEnv startedTwoAnswers rrsetTwoAddresses 0).renderer_).length = 4 :=
  ⟨by decide, by decide, by decide,
   (C24_length_field_backpatched exampleEnv startedTwoAnswers rrsetTwoAddresses (by decide) 0
      [192, 0, 2, 1] (by decide)).2.2.2.1, by decide⟩

/-! ## The numbers in the two words of a member record -/

theorem renderedMember_nameEnd (E : Env) (rrset : RRset) (rotatable first : Bool) (rd : Rdata)
    (c : CacheDataCreater) :
    nameEnd E rrset c + 10 ≤ (renderedMember E rrset rotatable first rd c).renderer_.getLength ∧
    nameEnd E rrset c = c.renderer_.getLength + (E.nameWire c.renderer_ rrset.name).length ∧
    (renderedMember E rrset rotatable first rd c).offset0_ = c.offset0_ ∧
    (renderedMember E rrset rotatable first rd c).rotatable_ = c.rotatable_ := by
  have h := renderedRecord_getLength E rrset rd c.renderer_
  have hn : nameEnd E rrset c =
      c.renderer_.getLength + (E.nameWire c.renderer_ rrset.name).length := by
    simp [nameEnd, MessageRenderer.getLength, MessageRenderer.writeName]
  refine ⟨?_, hn, rfl, rfl⟩
  show nameEnd E rrset c + 10 ≤ (renderedRecord E rrset rd c.renderer_).getLength
  omega

theorem and_eq_zero_of_le_mask (E : Env) (hE : FlagsWF E) (x : Nat) (hx : x ≤ E.MASK_OFFSET) :
    hasStart E x = false ∧ hasRotatable E x = false := by
  have h1 := hE.start_mask x hx
  have h2 := hE.rot_mask x hx
  have h3 := hE.start_ne
  have h4 := hE.rot_ne
  unfold hasStart hasRotatable
  rw [h1, h2]
  constructor
  · exact decide_eq_false (fun h => h3 h.symm)
  · exact decide_eq_false (fun h => h4 h.symm)

theorem member_words (E : Env) (hE : FlagsWF E) (rrset : RRset) (rotatable first : Bool)
    (rd : Rdata) (c : CacheDataCreater) (h0 : c.offset0_ ≤ c.renderer_.getLength)
    (hfit : (renderedMember E rrset rotatable first rd c).renderer_.getLength - c.offset0_ ≤
      E.MASK_OFFSET) :
    c.renderer_.getLength - c.offset0_ ≤ E.MASK_OFFSET ∧
    firstWord E rotatable first c =
      (c.renderer_.getLength - c.offset0_) |||
        (if rotatable then E.FLAG_ROTATABLE else 0) |||
        (if first then E.FLAG_START_RRSET else 0) ∧
    hasStart E (firstWord E rotatable first c) = first ∧
    hasRotatable E (firstWord E rotatable first c) = rotatable ∧
    secondWord E rrset c = nameEnd E rrset c - c.offset0_ ∧
    secondWord E rrset c + 10 ≤
      (renderedMember E rrset rotatable first rd c).renderer_.getLength - c.offset0_ ∧
    secondWord E rrset c ≤ E.MASK_OFFSET ∧
    hasStart E (secondWord E rrset c) = false ∧
    hasRotatable E (secondWord E rrset c) = false := by
  obtain ⟨hne, hnl, _, _⟩ := renderedMember_nameEnd E rrset rotatable first rd c
  have hml := hE.mask_lt
  have hp : c.renderer_.getLength - c.offset0_ ≤ E.MASK_OFFSET := by omega
  have hp16 : (c.renderer_.getLength - c.offset0_) % 65536 = c.renderer_.getLength - c.offset0_ :=
    Nat.mod_eq_of_lt (by omega)
  have hp' : (c.renderer_.getLength - c.offset0_) % 65536 ≤ E.MASK_OFFSET := by rw [hp16]; exact hp
  have hfw := firstWord_eq E hE rotatable first c
  rw [hp16] at hfw
  have hs := firstWord_and_start E hE rotatable first c hp'
  have hr := firstWord_and_rot E hE rotatable first c hp'
  have hsw : secondWord E rrset c = nameEnd E rrset c - c.offset0_ := by
    show (nameEnd E rrset c - c.offset0_) % 65536 = _
    exact Nat.mod_eq_of_lt (by omega)
  have hsm : secondWord E rrset c ≤ E.MASK_OFFSET := by rw [hsw]; omega
  obtain ⟨z1, z2⟩ := and_eq_zero_of_le_mask E hE _ hsm
  refine ⟨hp, hfw, ?_, ?_, hsw, by rw [hsw]; omega, hsm, z1, z2⟩
  · unfold hasStart
    rw [hs]
    cases first
    · simpa using fun h => hE.start_ne h.symm
    · simp
  · unfold hasRotatable
    rw [hr]
    cases rotatable
    · simpa using fun h => hE.rot_ne h.symm
    · simp

theorem renderRdatas_ok_eq_rendered (E : Env) (rrset : RRset) (rotatable : Bool) :
    ∀ (rds : List Rdata) (first : Bool) (c : CacheDataCreater),
      (CacheDataCreater.renderRdatas E rrset rotatable first rds c).2 = none →
      (CacheDataCreater.renderRdatas E rrset rotatable first rds c).1 =
        renderedMembers E rrset rotatable first rds c := by
  intro rds
  induction rds with
  | nil => intro first c _; rfl
  | cons rd rds ih =>
    intro first c hok
    rcases renderRdata_cases E rrset rotatable first rd c with ⟨hf, _⟩ | ⟨c1, h1, hm, _⟩
    · simp [CacheDataCreater.renderRdatas, hf] at hok
    · have heq := renderRdata_eq E rrset rotatable first rd c hm
      simp only [CacheDataCreater.renderRdatas, heq] at hok ⊢
      simp only [renderedMembers]
      exact ih false _ hok

theorem addRRset_ok_eq_rendered (E : Env) (c : CacheDataCreater) (rrset : RRset)
    (hok : (CacheDataCreater.addRRset E c rrset).2 = none) :
    (CacheDataCreater.addRRset E c rrset).1 =
      renderedMembers E rrset (CacheDataCreater.isRotatable c rrset) true rrset.rdatas
        (loopEntry c rrset) := by
  have hca := addRRset_countsAssert E c rrset hok
  rw [addRRset_eq_loop E c rrset hca] at hok ⊢
  exact renderRdatas_ok_eq_rendered E rrset _ rrset.rdatas true _ hok

/-! ## The flag bits along a build -/

theorem renderedMember_flagged (E : Env) (hE : FlagsWF E) (rrset : RRset)
    (rotatable first : Bool) (rd : Rdata) (c : CacheDataCreater) (n : Nat) (r : Bool)
    (hF : Flagged E c n r)
    (hfit : (renderedMember E rrset rotatable first rd c).renderer_.getLength - c.offset0_ ≤
      E.MASK_OFFSET) :
    Flagged E (renderedMember E rrset rotatable first rd c) (n + if first then 1 else 0)
      (r || (rotatable && first)) := by
  obtain ⟨h0, hcnt, hex⟩ := hF
  obtain ⟨_, _, hs1, hr1, _, _, _, hs2, hr2⟩ :=
    member_words E hE rrset rotatable first rd c h0 hfit
  have hlen := renderedMember_getLength E rrset rotatable first rd c
  refine ⟨?_, ?_, ?_⟩
  · show c.offset0_ ≤ _
    omega
  · rw [renderedMember_offsets, List.countP_append, hcnt]
    simp only [List.countP_cons, List.countP_nil, hs1, hs2]
    cases first <;> simp
  · rw [renderedMember_offsets]
    constructor
    · rintro ⟨w, hw, hws, hwr⟩
      rcases List.mem_append.1 hw with hold | hnew
      · have : r = true := hex.1 ⟨w, hold, hws, hwr⟩
        simp [this]
      · simp only [List.mem_cons, List.mem_singleton, List.not_mem_nil, or_false] at hnew
        rcases hnew with rfl | rfl
        · rw [hs1] at hws
          rw [hr1] at hwr
          simp [hws, hwr]
        · rw [hs2] at hws
          cases hws
    · intro h
      rcases Bool.or_eq_true_iff.1 h with hr | hn
      · obtain ⟨w, hw, hws, hwr⟩ := hex.2 hr
        exact ⟨w, List.mem_append_left _ hw, hws, hwr⟩
      · obtain ⟨hrt, hft⟩ := Bool.and_eq_true_iff.1 hn
        refine ⟨firstWord E rotatable first c, ?_, ?_, ?_⟩
        · simp
        · rw [hs1]; exact hft
        · rw [hr1]; exact hrt

theorem renderedMembers_flagged (E : Env) (hE : FlagsWF E) (rrset : RRset) (rotatable : Bool) :
    ∀ (rds : List Rdata) (first : Bool) (c : CacheDataCreater) (n : Nat) (r : Bool),
      Flagged E c n r →
      (renderedMembers E rrset rotatable first rds c).renderer_.getLength - c.offset0_ ≤
        E.MASK_OFFSET →
      Flagged E (renderedMembers E rrset rotatable first rds c)
        (n + if first = true ∧ rds ≠ [] then 1 else 0)
        (r || (rotatable && first && decide (rds ≠ []))) := by
  intro rds
  induction rds with
  | nil =>
    intro first c n r hF _
    simpa [renderedMembers] using hF
  | cons rd rds ih =>
    intro first c n r hF hfit
    simp only [renderedMembers] at hfit ⊢
    obtain ⟨hmono, ho0, _⟩ := renderedMembers_facts E rrset rotatable rds false
      (renderedMember E rrset rotatable first rd c)
    have ho1 : (renderedMember E rrset rotatable first rd c).offset0_ = c.offset0_ := rfl
    have hfit1 : (renderedMember E rrset rotatable first rd c).renderer_.getLength -
        c.offset0_ ≤ E.MASK_OFFSET := by omega
    have hF1 := renderedMember_flagged E hE rrset rotatable first rd c n r hF hfit1
    have := ih false _ _ _ hF1 (by rw [ho1]; exact hfit)
    cases first <;> simpa using this

theorem addRRset_mono (E : Env) (c : CacheDataCreater) (rrset : RRset)
    (hok : (CacheDataCreater.addRRset E c rrset).2 = none) :
    c.renderer_.getLength ≤ (CacheDataCreater.addRRset E c rrset).1.renderer_.getLength ∧
    (CacheDataCreater.addRRset E c rrset).1.offset0_ = c.offset0_ ∧
    (CacheDataCreater.addRRset E c rrset).1.rotatable_ =
      (c.rotatable_ || CacheDataCreater.isRotatable c rrset) := by
  rw [addRRset_ok_eq_rendered E c rrset hok]
  obtain ⟨h1, h2, h3⟩ := renderedMembers_facts E rrset (CacheDataCreater.isRotatable c rrset)
    rrset.rdatas true (loopEntry c rrset)
  obtain ⟨l1, _, l3⟩ := loopEntry_fields c rrset
  rw [l1] at h1
  rw [l3] at h2
  refine ⟨by omega, h2, ?_⟩
  rw [h3]
  unfold loopEntry
  cases hr : CacheDataCreater.isRotatable c rrset <;> simp

theorem addRRsets_cons_ok (E : Env) (c : CacheDataCreater) (rrset : RRset)
    (rest : List RRset) (hok : (addRRsets E c (rrset :: rest)).2 = none) :
    (CacheDataCreater.addRRset E c rrset).2 = none ∧
    addRRsets E c (rrset :: rest) =
      addRRsets E (CacheDataCreater.addRRset E c rrset).1 rest := by
  cases hadd : CacheDataCreater.addRRset E c rrset with
  | mk c1 err =>
    cases err with
    | some e => simp [addRRsets, hadd] at hok
    | none => exact ⟨rfl, by simp [addRRsets, hadd]⟩

theorem addRRsets_mono (E : Env) :
    ∀ (rrsets : List RRset) (c : CacheDataCreater), (addRRsets E c rrsets).2 = none →
      c.renderer_.getLength ≤ (addRRsets E c rrsets).1.renderer_.getLength ∧
      (addRRsets E c rrsets).1.offset0_ = c.offset0_ := by
  intro rrsets
  induction rrsets with
  | nil => intro c _; exact ⟨le_refl _, rfl⟩
  | cons rrset rest ih =>
    intro c hok
    obtain ⟨h1, heq⟩ := addRRsets_cons_ok E c rrset rest hok
    rw [heq] at hok ⊢
    obtain ⟨m1, m2, _⟩ := addRRset_mono E c rrset h1
    obtain ⟨i1, i2⟩ := ih _ hok
    exact ⟨by omega, by rw [i2, m2]⟩

theorem addRRset_flagged (E : Env) (hE : FlagsWF E) (c : CacheDataCreater) (rrset : RRset)
    (n : Nat) (r : Bool) (hF : Flagged E c n r)
    (hok : (CacheDataCreater.addRRset E c rrset).2 = none)
    (hfit : (CacheDataCreater.addRRset E c rrset).1.renderer_.getLength - c.offset0_ ≤
      E.MASK_OFFSET) :
    Flagged E (CacheDataCreater.addRRset E c rrset).1
      (n + if rrset.rdatas ≠ [] then 1 else 0)
      (r || CacheDataCreater.isRotatable c rrset) := by
  rw [addRRset_ok_eq_rendered E c rrset hok] at hfit ⊢
  obtain ⟨l1, l2, l3⟩ := loopEntry_fields c rrset
  have hF0 : Flagged E (loopEntry c rrset) n r := by
    unfold Flagged
    rw [l1, l2, l3]
    exact hF
  have := renderedMembers_flagged E hE rrset (CacheDataCreater.isRotatable c rrset)
    rrset.rdatas true (loopEntry c rrset) n r hF0 (by rw [l3]; exact hfit)
  have hne : CacheDataCreater.isRotatable c rrset = true → rrset.rdatas ≠ [] := by
    intro hr hnil
    unfold CacheDataCreater.isRotatable at hr
    rw [hnil] at hr
    simp at hr
  cases hr : CacheDataCreater.isRotatable c rrset with
  | false => simpa [hr] using this
  | true =>
    have hne1 := hne hr
    simpa [hr, hne1] using this

theorem nonEmptyCount_cons (rrset : RRset) (rest : List RRset) :
    nonEmptyCount (rrset :: rest) =
      (if rrset.rdatas ≠ [] then 1 else 0) + nonEmptyCount rest := by
  unfold nonEmptyCount
  by_cases h : rrset.rdatas = []
  · simp [List.filter_cons, h]
  · simp [List.filter_cons, h]
    omega

theorem addRRsets_flagged (E : Env) (hE : FlagsWF E) :
    ∀ (rrsets : List RRset) (c : CacheDataCreater) (n : Nat) (r : Bool),
      Flagged E c n r → c.rotatable_ = r → (addRRsets E c rrsets).2 = none →
      (addRRsets E c rrsets).1.renderer_.getLength - c.offset0_ ≤ E.MASK_OFFSET →
      Flagged E (addRRsets E c rrsets).1 (n + nonEmptyCount rrsets)
        (r || anyRotatable E c rrsets) ∧
      (addRRsets E c rrsets).1.rotatable_ = (r || anyRotatable E c rrsets) := by
  intro rrsets
  induction rrsets with
  | nil =>
    intro c n r hF hr _ _
    simpa [addRRsets, nonEmptyCount, anyRotatable] using ⟨hF, hr⟩
  | cons rrset rest ih =>
    intro c n r hF hr hok hfit
    obtain ⟨h1, heq⟩ := addRRsets_cons_ok E c rrset rest hok
    rw [heq] at hok hfit ⊢
    obtain ⟨m1, m2, m3⟩ := addRRset_mono E c rrset h1
    obtain ⟨i1, i2⟩ := addRRsets_mono E rest _ hok
    have hF1 := addRRset_flagged E hE c rrset n r hF h1 (by omega)
    have := ih _ _ _ hF1 (by rw [m3, hr]) hok (by rw [m2]; exact hfit)
    rw [nonEmptyCount_cons]
    simpa [anyRotatable, Nat.add_assoc, Bool.or_assoc] using this

theorem start_facts (E : Env) (c : CacheDataCreater) (qname : Name) (qtype qclass a s : Nat) :
    (c.start E qname qtype qclass a s).offsets_ = [] ∧
    (c.start E qname qtype qclass a s).renderer_.getLength =
      (c.start E qname qtype qclass a s).offset0_ ∧
    (c.start E qname qtype qclass a s).rotatable_ = false ∧
    (c.start E qname qtype qclass a s).ans_count_ = a ∧
    (c.start E qname qtype qclass a s).soa_count_ = s :=
  ⟨rfl, rfl, rfl, rfl, rfl⟩

theorem start_flagged (E : Env) (c : CacheDataCreater) (qname : Name)
    (qtype qclass a s : Nat) : Flagged E (c.start E qname qtype qclass a s) 0 false := by
  obtain ⟨h1, h2, _⟩ := start_facts E c qname qtype qclass a s
  refine ⟨by rw [h2], by rw [h1]; rfl, ?_⟩
  rw [h1]
  simp

/-! ## Offset words and the offset mask -/

theorem mediumText_after_first_length :
    (renderedMember exampleEnv rrsetMediumText false true (List.replicate 16371 0)
      startedTwoTexts).renderer_.getLength = 16413 := by
  have h0 : startedTwoTexts.renderer_.getLength = 30 := by decide
  have hn : (exampleEnv.nameWire startedTwoTexts.renderer_ rrsetMediumText.name).length = 2 := by
    decide
  show (renderedRecord exampleEnv rrsetMediumText (List.replicate 16371 0)
    startedTwoTexts.renderer_).getLength = 16413
  rw [renderedRecord_getLength, h0, hn, exampleEnv_rdataWire, List.length_replicate]

theorem mediumText_after_first_offset0 :
    (renderedMember exampleEnv rrsetMediumText false true (List.replicate 16371 0)
      startedTwoTexts).offset0_ = 30 := by decide

theorem mediumText_second_ok :
    ((renderedMember exampleEnv rrsetMediumText false true (List.replicate 16371 0)
        startedTwoTexts).renderer_.getLength -
      (renderedMember exampleEnv rrsetMediumText false true (List.replicate 16371 0)
        startedTwoTexts).offset0_) % 65536 ≤ exampleEnv.MASK_OFFSET := by
  have h1 := mediumText_after_first_length
  have h2 := mediumText_after_first_offset0
  generalize renderedMember exampleEnv rrsetMediumText false true (List.replicate 16371 0)
        startedTwoTexts = c at h1 h2 ⊢
  rw [h1, h2]
  decide

theorem mediumText_addRRset :
    CacheDataCreater.addRRset exampleEnv startedTwoTexts rrsetMediumText =
      (renderedMember exampleEnv rrsetMediumText false false [1, 65]
        (renderedMember exampleEnv rrsetMediumText false true (List.replicate 16371 0)
          startedTwoTexts), none) :=
  addRRset_two_members exampleEnv startedTwoTexts rrsetMediumText _ _ rfl (by decide) (by decide)
    longText_first_ok mediumText_second_ok

theorem mediumText_second_name :
    exampleEnv.nameWire (renderedMember exampleEnv rrsetMediumText false true
      (List.replicate 16371 0) startedTwoTexts).renderer_ rrsetMediumText.name = [192, 12] := by
  decide

theorem mediumText_first_offsets :
    (renderedMember exampleEnv rrsetMediumText false true (List.replicate 16371 0)
      startedTwoTexts).offsets_ = [16384, 2] := by
  have h1 : firstWord exampleEnv false true startedTwoTexts = 16384 := by decide
  have h2 : secondWord exampleEnv rrsetMediumText startedTwoTexts = 2 := by decide
  have hs : startedTwoTexts.offsets_ = [] := by decide
  rw [renderedMember_offsets, hs, h1, h2]
  rfl

theorem mediumText_second_words (c : CacheDataCreater) (rd : Rdata)
    (hn : exampleEnv.nameWire c.renderer_ rrsetMediumText.name = [192, 12])
    (hl : c.renderer_.getLength = 16413) (h0 : c.offset0_ = 30)
    (ho : c.offsets_ = [16384, 2]) :
    (renderedMember exampleEnv rrsetMediumText false false rd c).offsets_ =
      [16384, 2, 16383, 16385] := by
  have h3 : firstWord exampleEnv false false c = 16383 := by
    unfold firstWord
    rw [hl, h0]
    decide
  have h4 : secondWord exampleEnv rrsetMediumText c = 16385 := by
    unfold secondWord MessageRenderer.writeName
    unfold MessageRenderer.getLength at hl ⊢
    simp only [List.length_append]
    rw [hn, hl, h0]
    decide
  rw [renderedMember_offsets, ho, h3, h4]
  rfl

theorem mediumText_result (r : CacheDataCreater × Option LoadError) (c : CacheDataCreater)
    (hr : r = (c, none)) (ho : c.offsets_ = [16384, 2, 16383, 16385]) :
    r.2 = none ∧ r.1.offsets_ = [16384, 2, 16383, 16385] := by
  subst hr
  exact ⟨rfl, ho⟩

theorem mediumText_words :
    (CacheDataCreater.addRRset exampleEnv startedTwoTexts rrsetMediumText).2 = none ∧
    (CacheDataCreater.addRRset exampleEnv startedTwoTexts rrsetMediumText).1.offsets_ =
      [16384, 2, 16383, 16385] :=
  mediumText_result _ _ mediumText_addRRset
    (mediumText_second_words _ _ mediumText_second_name mediumText_after_first_length
      mediumText_after_first_offset0 mediumText_first_offsets)

theorem word_has_bits (l : List Nat) (h : l = [16384, 2, 16383, 16385]) :
    l.get? 3 = some 16385 ∧ ¬ 16385 ≤ exampleEnv.MASK_OFFSET ∧
    16385 &&& exampleEnv.FLAG_START_RRSET = exampleEnv.FLAG_START_RRSET ∧
    l.countP (hasStart exampleEnv) = 2 ∧ hasStart exampleEnv 16385 = true := by
  subst h
  decide

/-- C25, as stated, fails: a TXT RRset of two members is added after `start`, the first
member with record data of 16371 bytes, so that the second member begins at position 16383,
within `MASK_OFFSET` = 16383.  `addRRset` succeeds, and the second word of the second pair,
the position after the two-byte owner name, is 16385: it exceeds `MASK_OFFSET` and has the
bit of `FLAG_START_RRSET` set. -/
theorem C25_second_word_beyond_mask :
    (CacheDataCreater.addRRset exampleEnv startedTwoTexts rrsetMediumText).2 = none ∧
    (CacheDataCreater.addRRset exampleEnv startedTwoTexts rrsetMediumText).1.offsets_.get? 3 =
      some 16385 ∧
    ¬ 16385 ≤ exampleEnv.MASK_OFFSET ∧
    16385 &&& exampleEnv.FLAG_START_RRSET = exampleEnv.FLAG_START_RRSET :=
  ⟨mediumText_words.1, (word_has_bits _ mediumText_words.2).1,
    (word_has_bits _ mediumText_words.2).2.1, (word_has_bits _ mediumText_words.2).2.2.1⟩

/-- C25, amended: when the payload a successful `addRRset` call leaves is at most
`MASK_OFFSET` bytes, which the loader asserts before it builds an entry, the call appends
for each member a first word that is the member's offset, at most `MASK_OFFSET`, combined
with `FLAG_ROTATABLE` if the RRset is rotatable and with `FLAG_START_RRSET` if the member is
the first, and a second word that is at most `MASK_OFFSET` and carries neither flag. -/
theorem C25_words_within_mask (E : Env) (hE : FlagsWF E) (c : CacheDataCreater)
    (rrset : RRset) (h0 : c.offset0_ ≤ c.renderer_.getLength)
    (hok : (CacheDataCreater.addRRset E c rrset).2 = none)
    (hfit : (CacheDataCreater.addRRset E c rrset).1.renderer_.getLength - c.offset0_ ≤
      E.MASK_OFFSET) :
    ∃ ws, (CacheDataCreater.addRRset E c rrset).1.offsets_ = c.offsets_ ++ ws ∧
      ws.length = 2 * rrset.rdatas.length ∧
      ∀ k, k < rrset.rdatas.length →
        (beforeMember E c rrset k).renderer_.getLength - c.offset0_ ≤ E.MASK_OFFSET ∧
        ws.get? (2 * k) = some
          (((beforeMember E c rrset k).renderer_.getLength - c.offset0_) |||
            (if CacheDataCreater.isRotatable c rrset = true then E.FLAG_ROTATABLE else 0) |||
            (if k = 0 then E.FLAG_START_RRSET else 0)) ∧
        ∃ w2, ws.get? (2 * k + 1) = some w2 ∧ w2 ≤ E.MASK_OFFSET ∧
          w2 &&& E.FLAG_START_RRSET = 0 ∧ w2 &&& E.FLAG_ROTATABLE = 0 := by
  obtain ⟨ws, hws, hlen, hk⟩ := addRRset_words E c rrset hok
  refine ⟨ws, hws, hlen, ?_⟩
  intro k hlt
  obtain ⟨hw1, hw2⟩ := hk k hlt
  have hget : rrset.rdatas.get? k = some (rrset.rdatas.get ⟨k, hlt⟩) := List.get?_eq_get hlt
  obtain ⟨hsucc, _, hge, hle⟩ := beforeMember_facts E c rrset hok k _ hget
  have hb0 := beforeMember_offset0 E c rrset k
  have hfit1 : (renderedMember E rrset (CacheDataCreater.isRotatable c rrset) (decide (k = 0))
      (rrset.rdatas.get ⟨k, hlt⟩) (beforeMember E c rrset k)).renderer_.getLength -
      (beforeMember E c rrset k).offset0_ ≤ E.MASK_OFFSET := by
    rw [← hsucc, hb0]
    omega
  obtain ⟨hp, hfw, _, _, _, _, hsm, _, _⟩ := member_words E hE rrset
    (CacheDataCreater.isRotatable c rrset) (decide (k = 0)) (rrset.rdatas.get ⟨k, hlt⟩)
    (beforeMember E c rrset k) (by rw [hb0]; omega) hfit1
  rw [hb0] at hp hfw
  refine ⟨hp, ?_, secondWord E rrset (beforeMember E c rrset k), hw2, hsm,
    hE.start_mask _ hsm, hE.rot_mask _ hsm⟩
  rw [hw1, hfw]
  simp

/-- Witness for C25 amended: the two address records of `example.test` leave 32 payload
bytes, and the second word of the second record is at most `MASK_OFFSET`. -/
theorem C25_words_within_mask_witness :
    (CacheDataCreater.addRRset exampleEnv startedTwoAnswers rrsetTwoAddresses).2 = none ∧
    (CacheDataCreater.addRRset exampleEnv startedTwoAnswers rrsetTwoAddresses).1.renderer_.getLength
      - startedTwoAnswers.offset0_ = 32 ∧
    ∃ ws, (CacheDataCreater.addRRset exampleEnv startedTwoAnswers rrsetTwoAddresses).1.offsets_ =
        startedTwoAnswers.offsets_ ++ ws ∧
      ∃ w2, ws.get? (2 * 1 + 1) = some w2 ∧ w2 ≤ exampleEnv.MASK_OFFSET :=
  ⟨by decide, by decide,
   (C25_words_within_mask exampleEnv exampleEnv_flagsWF startedTwoAnswers rrsetTwoAddresses
      (by decide) (by decide) (by decide)).imp
     fun _ h => ⟨h.1, (h.2.2 1 (by decide)).2.2.imp fun _ g => ⟨g.1, g.2.1⟩⟩⟩

/-! ## The words that begin an RRset -/

theorem mediumText_end :
    (CacheDataCreater.addRRset exampleEnv startedTwoTexts rrsetMediumText).1.end = none := by
  obtain ⟨_, ha, hs⟩ := (addRRset_counts exampleEnv startedTwoTexts rrsetMediumText
    mediumText_words.1).1 (by decide)
  have ha0 : (CacheDataCreater.addRRset exampleEnv startedTwoTexts rrsetMediumText).1.ans_count_
      = 0 := by
    rw [ha]; decide
  have hs0 : (CacheDataCreater.addRRset exampleEnv startedTwoTexts rrsetMediumText).1.soa_count_
      = 0 := by
    rw [hs]; decide
  unfold CacheDataCreater.end
  rw [ha0, hs0]
  rfl

/-- C26, as stated, fails: in the build `start(example.test, TXT, IN, 2, 0)`, one `addRRset`
call with a two-member TXT RRset whose first record data has 16371 bytes, `end()`, every
call succeeds, and of the four words emitted for the one RRset two carry
`FLAG_START_RRSET`: the first word, and the second word of the second member, 16385. -/
theorem C26_start_flag_on_second_word :
    (CacheDataCreater.addRRset exampleEnv startedTwoTexts rrsetMediumText).2 = none ∧
    (CacheDataCreater.addRRset exampleEnv startedTwoTexts rrsetMediumText).1.end = none ∧
    (CacheDataCreater.addRRset exampleEnv startedTwoTexts rrsetMediumText).1.offsets_.countP
      (hasStart exampleEnv) = 2 ∧
    (CacheDataCreater.addRRset exampleEnv startedTwoTexts rrsetMediumText).1.offsets_.get? 3 =
      some 16385 ∧
    hasStart exampleEnv 16385 = true :=
  ⟨mediumText_words.1, mediumText_end, (word_has_bits _ mediumText_words.2).2.2.2.1,
    (word_has_bits _ mediumText_words.2).1, (word_has_bits _ mediumText_words.2).2.2.2.2⟩

/-- C26, amended: when the payload a successful `addRRset` call leaves is at most
`MASK_OFFSET` bytes, of the 2N words the call appends only the first word of the first
member carries `FLAG_START_RRSET`; and in a build begun by `start` whose `addRRset` calls all
succeed and leave a payload of at most `MASK_OFFSET` bytes, the number of words carrying
`FLAG_START_RRSET` equals the number of non-empty RRsets added. -/
theorem C26_start_flag_once (E : Env) (hE : FlagsWF E) :
    (∀ (c : CacheDataCreater) (rrset : RRset), c.offset0_ ≤ c.renderer_.getLength →
      (CacheDataCreater.addRRset E c rrset).2 = none →
      (CacheDataCreater.addRRset E c rrset).1.renderer_.getLength - c.offset0_ ≤
        E.MASK_OFFSET →
      ∃ ws, (CacheDataCreater.addRRset E c rrset).1.offsets_ = c.offsets_ ++ ws ∧
        ws.length = 2 * rrset.rdatas.length ∧
        ∀ k, k < rrset.rdatas.length →
          ∃ w1 w2, ws.get? (2 * k) = some w1 ∧ ws.get? (2 * k + 1) = some w2 ∧
            (hasStart E w1 = true ↔ k = 0) ∧ hasStart E w2 = false) ∧
    (∀ (c0 : CacheDataCreater) (qname : Name) (qtype qclass a s : Nat) (rrsets : List RRset),
      (addRRsets E (c0.start E qname qtype qclass a s) rrsets).2 = none →
      payloadLength (addRRsets E (c0.start E qname qtype qclass a s) rrsets).1 ≤
        E.MASK_OFFSET →
      (addRRsets E (c0.start E qname qtype qclass a s) rrsets).1.offsets_.countP (hasStart E) =
        nonEmptyCount rrsets) := by
  constructor
  · intro c rrset h0 hok hfit
    obtain ⟨ws, hws, hlen, hk⟩ := addRRset_words E c rrset hok
    refine ⟨ws, hws, hlen, ?_⟩
    intro k hlt
    obtain ⟨hw1, hw2⟩ := hk k hlt
    have hget : rrset.rdatas.get? k = some (rrset.rdatas.get ⟨k, hlt⟩) := List.get?_eq_get hlt
    obtain ⟨hsucc, _, hge, hle⟩ := beforeMember_facts E c rrset hok k _ hget
    have hb0 := beforeMember_offset0 E c rrset k
    have hfit1 : (renderedMember E rrset (CacheDataCreater.isRotatable c rrset) (decide (k = 0))
        (rrset.rdatas.get ⟨k, hlt⟩) (beforeMember E c rrset k)).renderer_.getLength -
        (beforeMember E c rrset k).offset0_ ≤ E.MASK_OFFSET := by
      rw [← hsucc, hb0]
      omega
    obtain ⟨_, _, hs1, _, _, _, _, hs2, _⟩ := member_words E hE rrset
      (CacheDataCreater.isRotatable c rrset) (decide (k = 0)) (rrset.rdatas.get ⟨k, hlt⟩)
      (beforeMember E c rrset k) (by rw [hb0]; omega) hfit1
    refine ⟨_, _, hw1, hw2, ?_, hs2⟩
    rw [hs1]
    simp
  · intro c0 qname qtype qclass a s rrsets hok hfit
    obtain ⟨_, hoff⟩ := addRRsets_mono E rrsets _ hok
    unfold payloadLength at hfit
    rw [hoff] at hfit
    have := (addRRsets_flagged E hE rrsets _ 0 false (start_flagged E c0 qname qtype qclass a s)
      rfl hok hfit).1.2.1
    simpa using this

/-- Witness for C26 amended: in the build for `example.test IN A` with its two address
records, one word carries `FLAG_START_RRSET`, for the one RRset added. -/
theorem C26_start_flag_once_witness :
    (addRRsets exampleEnv (CacheDataCreater.start exampleEnv ⟨⟨[], []⟩, [], 0, false, 0, 0⟩
      exampleTestName 1 1 2 0) [rrsetTwoAddresses]).2 = none ∧
    (addRRsets exampleEnv (CacheDataCreater.start exampleEnv ⟨⟨[], []⟩, [], 0, false, 0, 0⟩
      exampleTestName 1 1 2 0) [rrsetTwoAddresses]).1.offsets_.countP (hasStart exampleEnv) =
        nonEmptyCount [rrsetTwoAddresses] ∧
    nonEmptyCount [rrsetTwoAddresses] = 1 :=
  ⟨by decide,
   (C26_start_flag_once exampleEnv exampleEnv_flagsWF).2 ⟨⟨[], []⟩, [], 0, false, 0, 0⟩
     exampleTestName 1 1 2 0 [rrsetTwoAddresses] (by decide) (by decide),
   by decide⟩

/-! ## The length of the offset list -/

theorem beforeMember_zero (E : Env) (c : CacheDataCreater) (rrset : RRset) :
    beforeMember E c rrset 0 = loopEntry c rrset := by
  unfold beforeMember
  simp [CacheDataCreater.renderRdatas]

theorem beforeMember_ans_count (E : Env) (c : CacheDataCreater) (rrset : RRset)
    (hok : (CacheDataCreater.addRRset E c rrset).2 = none) :
    ∀ k, k ≤ rrset.rdatas.length →
      (beforeMember E c rrset k).ans_count_ = c.ans_count_ - k := by
  intro k
  induction k with
  | zero =>
    intro _
    rw [beforeMember_zero, (loopEntry_counts c rrset).1]
    rfl
  | succ k ih =>
    intro hk
    have hlt : k < rrset.rdatas.length := by omega
    have hget : rrset.rdatas.get? k = some (rrset.rdatas.get ⟨k, hlt⟩) := List.get?_eq_get hlt
    obtain ⟨hsucc, _⟩ := beforeMember_facts E c rrset hok k _ hget
    have ih1 := ih (by omega)
    rw [hsucc]
    show (countsAfter (beforeMember E c rrset k)).1 = _
    unfold countsAfter
    by_cases ha : (beforeMember E c rrset k).ans_count_ > 0
    · rw [if_pos ha]
      show (beforeMember E c rrset k).ans_count_ - 1 = _
      omega
    · rw [if_neg ha]
      by_cases hs : (beforeMember E c rrset k).soa_count_ > 0
      · rw [if_pos hs]
        show (beforeMember E c rrset k).ans_count_ = _
        omega
      · rw [if_neg hs]
        show (beforeMember E c rrset k).ans_count_ = _
        omega

theorem membersWhileAnswer_eq (E : Env) (c : CacheDataCreater) (rrset : RRset)
    (hok : (CacheDataCreater.addRRset E c rrset).2 = none) :
    membersWhileAnswer E c rrset = (if 0 < c.ans_count_ then rrset.rdatas.length else 0) ∧
    (CacheDataCreater.addRRset E c rrset).1.ans_count_ + membersWhileAnswer E c rrset =
      c.ans_count_ := by
  have hcnt := beforeMember_ans_count E c rrset hok
  obtain ⟨hpos, hzero⟩ := addRRset_counts E c rrset hok
  unfold membersWhileAnswer
  by_cases ha : 0 < c.ans_count_
  · obtain ⟨hle, hans, _⟩ := hpos ha
    rw [if_pos ha]
    have hall : (List.range rrset.rdatas.length).filter
        (fun k => decide (0 < (beforeMember E c rrset k).ans_count_)) =
        List.range rrset.rdatas.length := by
      apply List.filter_eq_self.2
      intro k hk
      have hk1 : k < rrset.rdatas.length := List.mem_range.1 hk
      rw [hcnt k (by omega)]
      simp
      omega
    rw [hall, List.length_range]
    exact ⟨rfl, by omega⟩
  · obtain ⟨_, _, hans, _⟩ := hzero (by omega)
    rw [if_neg ha]
    have hnone : (List.range rrset.rdatas.length).filter
        (fun k => decide (0 < (beforeMember E c rrset k).ans_count_)) = [] := by
      apply List.filter_eq_nil_iff.2
      intro k hk
      have hk1 : k < rrset.rdatas.length := List.mem_range.1 hk
      rw [hcnt k (by omega)]
      simp
      omega
    rw [hnone]
    exact ⟨rfl, by simp; omega⟩

theorem addRRsets_answerMembers (E : Env) :
    ∀ (rrsets : List RRset) (c : CacheDataCreater), (addRRsets E c rrsets).2 = none →
      (addRRsets E c rrsets).1.ans_count_ + answerMembers E c rrsets = c.ans_count_ := by
  intro rrsets
  induction rrsets with
  | nil => intro c _; simp [addRRsets, answerMembers]
  | cons rrset rest ih =>
    intro c hok
    obtain ⟨h1, heq⟩ := addRRsets_cons_ok E c rrset rest hok
    rw [heq] at hok ⊢
    have := ih _ hok
    have h2 := (membersWhileAnswer_eq E c rrset h1).2
    simp only [answerMembers]
    omega

theorem addRRsets_progress (E : Env) (T : Nat) :
    ∀ (rrsets : List RRset) (c : CacheDataCreater), (addRRsets E c rrsets).2 = none →
      Progress c T → Progress (addRRsets E c rrsets).1 T := by
  intro rrsets
  induction rrsets with
  | nil => intro c _ hP; simpa [addRRsets] using hP
  | cons rrset rest ih =>
    intro c hok hP
    obtain ⟨h1, heq⟩ := addRRsets_cons_ok E c rrset rest hok
    rw [heq] at hok ⊢
    exact ih _ hok (addRRset_progress E c rrset T h1 hP)

/-- C27: in a build where `start(name, type, class, a, s)` is followed by `addRRset` calls
that all succeed and by a successful `end()`, the offset list has exactly 2 * (a + s)
words, the member records of the RRsets added number a + s, exactly a of them are rendered
while the answer counter is positive and the s others afterwards; the entry a completed
pass of the loader builds has therefore an offset table of twice the number of records the
loader read for the line. -/
theorem C27_offset_list_length (E : Env) (c0 : CacheDataCreater) (qname : Name)
    (qtype qclass a s : Nat) (rrsets : List RRset)
    (hok : (addRRsets E (c0.start E qname qtype qclass a s) rrsets).2 = none)
    (hend : (addRRsets E (c0.start E qname qtype qclass a s) rrsets).1.end = none) :
    (addRRsets E (c0.start E qname qtype qclass a s) rrsets).1.offsets_.length =
      2 * (a + s) ∧
    memberCount rrsets = a + s ∧
    answerMembers E (c0.start E qname qtype qclass a s) rrsets = a ∧
    memberCount rrsets - answerMembers E (c0.start E qname qtype qclass a s) rrsets = s ∧
    ∀ (st : LoaderState) (line : SrcLine) (rest : List SrcLine) (q : Query),
      parseQuery E (readParams E st line.words) = Except.ok q →
      (pass E st line rest).error = none →
      (builtEntry E st line rest q).offsetBuf.length =
        2 * ((readParams E st line.words).ans_count +
          (readParams E st line.words).soa_count) := by
  obtain ⟨hz1, hz2⟩ := end_none_counts _ hend
  obtain ⟨hP1, _⟩ := addRRsets_progress E (a + s) rrsets _ hok
    (start_progress E c0 qname qtype qclass a s)
  have hsum := addRRsets_counts_sum E rrsets _ hok
  have hans := addRRsets_answerMembers E rrsets _ hok
  obtain ⟨_, _, _, ha, hs⟩ := start_facts E c0 qname qtype qclass a s
  rw [hz1, hz2, ha, hs] at hsum
  rw [hz1, ha] at hans
  rw [hz1, hz2] at hP1
  refine ⟨by omega, by omega, by omega, by omega, ?_⟩
  intro st line rest q _ hp
  exact (pass_ok_progress E st line rest hp).1

/-- Witness for C27: the build for `example.test IN A` with two answers declared and its
RRset of two address records ends with four offset words. -/
theorem C27_offset_list_length_witness :
    (addRRsets exampleEnv (CacheDataCreater.start exampleEnv ⟨⟨[], []⟩, [], 0, false, 0, 0⟩
      exampleTestName 1 1 2 0) [rrsetTwoAddresses]).2 = none ∧
    (addRRsets exampleEnv (CacheDataCreater.start exampleEnv ⟨⟨[], []⟩, [], 0, false, 0, 0⟩
      exampleTestName 1 1 2 0) [rrsetTwoAddresses]).1.offsets_.length = 2 * (2 + 0) ∧
    answerMembers exampleEnv (CacheDataCreater.start exampleEnv ⟨⟨[], []⟩, [], 0, false, 0, 0⟩
      exampleTestName 1 1 2 0) [rrsetTwoAddresses] = 2 :=
  ⟨by decide,
   (C27_offset_list_length exampleEnv ⟨⟨[], []⟩, [], 0, false, 0, 0⟩ exampleTestName 1 1 2 0
      [rrsetTwoAddresses] (by decide) (by decide)).1,
   by decide⟩

/-! ## The encoded offsets increase -/

theorem firstWord_masked (E : Env) (hE : FlagsWF E)
    (hmask : ∀ x, x ≤ E.MASK_OFFSET → x &&& E.MASK_OFFSET = x) (p : Nat) (rotatable first : Bool)
    (hp : p ≤ E.MASK_OFFSET) :
    (p ||| (if rotatable then E.FLAG_ROTATABLE else 0) |||
      (if first then E.FLAG_START_RRSET else 0)) &&& E.MASK_OFFSET = p := by
  have hr : E.FLAG_ROTATABLE &&& E.MASK_OFFSET = 0 := by
    rw [Nat.land_comm]; exact hE.rot_mask _ (le_refl _)
  have hs : E.FLAG_START_RRSET &&& E.MASK_OFFSET = 0 := by
    rw [Nat.land_comm]; exact hE.start_mask _ (le_refl _)
  rw [and_or_right, and_or_right, hmask p hp]
  cases rotatable <;> cases first <;> simp [hr, hs]

theorem renderedMember_ordered (E : Env) (hE : FlagsWF E)
    (hmask : ∀ x, x ≤ E.MASK_OFFSET → x &&& E.MASK_OFFSET = x) (rrset : RRset)
    (rotatable first : Bool) (rd : Rdata) (c : CacheDataCreater)
    (hname : 0 < (E.nameWire c.renderer_ rrset.name).length) (hO : Ordered E c)
    (hfit : (renderedMember E rrset rotatable first rd c).renderer_.getLength - c.offset0_ ≤
      E.MASK_OFFSET) :
    Ordered E (renderedMember E rrset rotatable first rd c) := by
  obtain ⟨h0, hemp, hpw, hbelow, hhead⟩ := hO
  obtain ⟨hp, hfw, _, _, hsw, hsw10, hsm, _, _⟩ :=
    member_words E hE rrset rotatable first rd c h0 hfit
  obtain ⟨_, hnl, _, _⟩ := renderedMember_nameEnd E rrset rotatable first rd c
  have hlen := renderedMember_getLength E rrset rotatable first rd c
  have hmo : maskedOffsets E (renderedMember E rrset rotatable first rd c) =
      maskedOffsets E c ++
        [c.renderer_.getLength - c.offset0_, secondWord E rrset c] := by
    unfold maskedOffsets
    rw [renderedMember_offsets, List.map_append]
    simp only [List.map_cons, List.map_nil]
    rw [hfw, firstWord_masked E hE hmask _ _ _ hp, hmask _ hsm]
  have hpl : payloadLength (renderedMember E rrset rotatable first rd c) =
      (renderedMember E rrset rotatable first rd c).renderer_.getLength - c.offset0_ := rfl
  have hlt : c.renderer_.getLength - c.offset0_ < secondWord E rrset c := by
    rw [hsw, hnl]; omega
  refine ⟨?_, ?_, ?_, ?_, ?_⟩
  · show c.offset0_ ≤ _
    omega
  · intro hnil
    rw [renderedMember_offsets] at hnil
    simp at hnil
  · rw [hmo, List.pairwise_append]
    refine ⟨hpw, ?_, ?_⟩
    · simp [hlt]
    · intro a ha b hb
      have hab := hbelow a ha
      unfold payloadLength at hab
      simp only [List.mem_cons, List.mem_singleton, List.not_mem_nil, or_false] at hb
      rcases hb with rfl | rfl
      · exact hab
      · omega
  · intro x hx
    rw [hmo] at hx
    rw [hpl]
    rcases List.mem_append.1 hx with hold | hnew
    · have hab := hbelow x hold
      unfold payloadLength at hab
      omega
    · simp only [List.mem_cons, List.mem_singleton, List.not_mem_nil, or_false] at hnew
      rcases hnew with rfl | rfl
      · omega
      · omega
  · intro x hx
    rw [hmo] at hx
    cases hc : maskedOffsets E c with
    | nil =>
      rw [hc] at hx
      have hnil : c.offsets_ = [] := by
        unfold maskedOffsets at hc
        exact List.map_eq_nil_iff.1 hc
      have := hemp hnil
      simp at hx
      omega
    | cons y ys =>
      rw [hc] at hx hhead
      simp at hx
      exact hhead x (by simp [hx])

theorem renderedMembers_ordered (E : Env) (hE : FlagsWF E)
    (hmask : ∀ x, x ≤ E.MASK_OFFSET → x &&& E.MASK_OFFSET = x) (rrset : RRset)
    (hname : ∀ r, 0 < (E.nameWire r rrset.name).length) (rotatable : Bool) :
    ∀ (rds : List Rdata) (first : Bool) (c : CacheDataCreater),
      Ordered E c →
      (renderedMembers E rrset rotatable first rds c).renderer_.getLength - c.offset0_ ≤
        E.MASK_OFFSET →
      Ordered E (renderedMembers E rrset rotatable first rds c) := by
  intro rds
  induction rds with
  | nil =>
    intro first c hO _
    simpa [renderedMembers] using hO
  | cons rd rds ih =>
    intro first c hO hfit
    simp only [renderedMembers] at hfit ⊢
    obtain ⟨hmono, ho0, _⟩ := renderedMembers_facts E rrset rotatable rds false
      (renderedMember E rrset rotatable first rd c)
    have ho1 : (renderedMember E rrset rotatable first rd c).offset0_ = c.offset0_ := rfl
    have hfit1 : (renderedMember E rrset rotatable first rd c).renderer_.getLength -
        c.offset0_ ≤ E.MASK_OFFSET := by omega
    have hO1 := renderedMember_ordered E hE hmask rrset rotatable first rd c (hname _) hO hfit1
    exact ih false _ hO1 (by rw [ho1]; exact hfit)

theorem addRRset_ordered (E : Env) (hE : FlagsWF E)
    (hmask : ∀ x, x ≤ E.MASK_OFFSET → x &&& E.MASK_OFFSET = x) (c : CacheDataCreater)
    (rrset : RRset) (hname : ∀ r, 0 < (E.nameWire r rrset.name).length) (hO : Ordered E c)
    (hok : (CacheDataCreater.addRRset E c rrset).2 = none)
    (hfit : (CacheDataCreater.addRRset E c rrset).1.renderer_.getLength - c.offset0_ ≤
      E.MASK_OFFSET) :
    Ordered E (CacheDataCreater.addRRset E c rrset).1 := by
  rw [addRRset_ok_eq_rendered E c rrset hok] at hfit ⊢
  obtain ⟨l1, l2, l3⟩ := loopEntry_fields c rrset
  have hO0 : Ordered E (loopEntry c rrset) := by
    unfold Ordered maskedOffsets payloadLength
    rw [l1, l2, l3]
    exact hO
  exact renderedMembers_ordered E hE hmask rrset hname _ rrset.rdatas true _ hO0
    (by rw [l3]; exact hfit)

theorem addRRsets_ordered (E : Env) (hE : FlagsWF E)
    (hmask : ∀ x, x ≤ E.MASK_OFFSET → x &&& E.MASK_OFFSET = x) :
    ∀ (rrsets : List RRset) (c : CacheDataCreater),
      (∀ rrset ∈ rrsets, ∀ r, 0 < (E.nameWire r rrset.name).length) →
      Ordered E c → (addRRsets E c rrsets).2 = none →
      (addRRsets E c rrsets).1.renderer_.getLength - c.offset0_ ≤ E.MASK_OFFSET →
      Ordered E (addRRsets E c rrsets).1 := by
  intro rrsets
  induction rrsets with
  | nil =>
    intro c _ hO _ _
    simpa [addRRsets] using hO
  | cons rrset rest ih =>
    intro c hname hO hok hfit
    obtain ⟨h1, heq⟩ := addRRsets_cons_ok E c rrset rest hok
    rw [heq] at hok hfit ⊢
    obtain ⟨m1, m2, _⟩ := addRRset_mono E c rrset h1
    obtain ⟨i1, i2⟩ := addRRsets_mono E rest _ hok
    have hO1 := addRRset_ordered E hE hmask c rrset (hname rrset (List.mem_cons_self _ _)) hO h1
      (by omega)
    exact ih _ (fun x hx => hname x (List.mem_cons_of_mem _ hx)) hO1 hok
      (by rw [m2]; exact hfit)

theorem start_ordered (E : Env) (c : CacheDataCreater) (qname : Name)
    (qtype qclass a s : Nat) : Ordered E (c.start E qname qtype qclass a s) := by
  obtain ⟨h1, h2, _⟩ := start_facts E c qname qtype qclass a s
  unfold Ordered maskedOffsets payloadLength
  rw [h1, h2]
  simp

theorem exampleEnv_mask (x : Nat) (hx : x ≤ exampleEnv.MASK_OFFSET) :
    x &&& exampleEnv.MASK_OFFSET = x := by
  have h : exampleEnv.MASK_OFFSET = 2 ^ 14 - 1 := by decide
  rw [h] at hx ⊢
  rw [Nat.and_pow_two_sub_one_eq_mod]
  exact Nat.mod_eq_of_lt (by omega)

theorem exampleEnv_name_written (r : MessageRenderer) :
    0 < (exampleEnv.nameWire r exampleTestName).length := by
  show 0 < (match r.log.find? _ with
    | some (RenderOp.name pos _) => [192 + pos / 256, pos % 256]
    | _ => exampleTestName).length
  split
  · simp
  · simp [exampleTestName]

/-- C28: in a build begun by `start` whose `addRRset` calls all succeed and leave a payload
of at most `MASK_OFFSET` bytes, the offsets the offset list encodes (each word masked with
`MASK_OFFSET`) increase strictly along the list, the first one is 0, and every one is below
the payload length.  `MASK_OFFSET` is taken to be a mask (masking a value within it gives
that value), and `writeName` to write at least one byte for the owner names concerned. -/
theorem C28_offsets_increasing (E : Env) (hE : FlagsWF E)
    (hmask : ∀ x, x ≤ E.MASK_OFFSET → x &&& E.MASK_OFFSET = x) (c0 : CacheDataCreater)
    (qname : Name) (qtype qclass a s : Nat) (rrsets : List RRset)
    (hname : ∀ rrset ∈ rrsets, ∀ r, 0 < (E.nameWire r rrset.name).length)
    (hok : (addRRsets E (c0.start E qname qtype qclass a s) rrsets).2 = none)
    (hfit : payloadLength (addRRsets E (c0.start E qname qtype qclass a s) rrsets).1 ≤
      E.MASK_OFFSET) :
    (maskedOffsets E (addRRsets E (c0.start E qname qtype qclass a s) rrsets).1).Pairwise
      (fun x y => x < y) ∧
    (∀ x, (maskedOffsets E (addRRsets E (c0.start E qname qtype qclass a s) rrsets).1).head? =
      some x → x = 0) ∧
    ∀ x ∈ maskedOffsets E (addRRsets E (c0.start E qname qtype qclass a s) rrsets).1,
      x < payloadLength (addRRsets E (c0.start E qname qtype qclass a s) rrsets).1 := by
  obtain ⟨_, hoff⟩ := addRRsets_mono E rrsets _ hok
  unfold payloadLength at hfit
  rw [hoff] at hfit
  obtain ⟨_, _, h3, h4, h5⟩ := addRRsets_ordered E hE hmask rrsets _ hname
    (start_ordered E c0 qname qtype qclass a s) hok hfit
  exact ⟨h3, h5, h4⟩

/-- Witness for C28: the build for `example.test IN A` with its two address records encodes
the offsets 0, 2, 16 and 18, below the payload length 32. -/
theorem C28_offsets_increasing_witness :
    (addRRsets exampleEnv (CacheDataCreater.start exampleEnv ⟨⟨[], []⟩, [], 0, false, 0, 0⟩
      exampleTestName 1 1 2 0) [rrsetTwoAddresses]).2 = none ∧
    maskedOffsets exampleEnv (addRRsets exampleEnv (CacheDataCreater.start exampleEnv
      ⟨⟨[], []⟩, [], 0, false, 0, 0⟩ exampleTestName 1 1 2 0) [rrsetTwoAddresses]).1 =
        [0, 2, 16, 18] ∧
    payloadLength (addRRsets exampleEnv (CacheDataCreater.start exampleEnv
      ⟨⟨[], []⟩, [], 0, false, 0, 0⟩ exampleTestName 1 1 2 0) [rrsetTwoAddresses]).1 = 32 ∧
    (maskedOffsets exampleEnv (addRRsets exampleEnv (CacheDataCreater.start exampleEnv
      ⟨⟨[], []⟩, [], 0, false, 0, 0⟩ exampleTestName 1 1 2 0) [rrsetTwoAddresses]).1).Pairwise
        (fun x y => x < y) :=
  ⟨by decide, by decide, by decide,
   (C28_offsets_increasing exampleEnv exampleEnv_flagsWF exampleEnv_mask
      ⟨⟨[], []⟩, [], 0, false, 0, 0⟩ exampleTestName 1 1 2 0 [rrsetTwoAddresses]
      (by
        intro rrset hr r
        have : rrset = rrsetTwoAddresses := by simpa using hr
        rw [this]
        exact exampleEnv_name_written r)
      (by decide) (by decide)).1⟩

/-! ## The RRsets a pass hands to `addRRset` -/

theorem addRRsets_append_one (E : Env) :
    ∀ (rrsets : List RRset) (c0 c : CacheDataCreater) (rrset : RRset),
      addRRsets E c0 rrsets = (c, none) →
      addRRsets E c0 (rrsets ++ [rrset]) = CacheDataCreater.addRRset E c rrset := by
  intro rrsets
  induction rrsets with
  | nil =>
    intro c0 c rrset h
    have hc : c0 = c := by simpa [addRRsets] using h
    subst hc
    cases hadd : CacheDataCreater.addRRset E c0 rrset with
    | mk c1 err =>
      cases err with
      | some e => simp [addRRsets, hadd]
      | none => simp [addRRsets, hadd]
  | cons x rest ih =>
    intro c0 c rrset h
    have hok : (addRRsets E c0 (x :: rest)).2 = none := by rw [h]
    obtain ⟨h1, heq⟩ := addRRsets_cons_ok E c0 x rest hok
    rw [heq] at h
    have := ih _ c rrset h
    cases hadd : CacheDataCreater.addRRset E c0 x with
    | mk c1 err =>
      rw [hadd] at h1 this
      simp only at h1
      subst h1
      simp only [List.cons_append, addRRsets, hadd]
      exact this

theorem collatorAddRR_invariant (E : Env) (I : CacheDataCreater → Prop)
    (hI : ∀ c rrset, (CacheDataCreater.addRRset E c rrset).2 = none → I c →
      I (CacheDataCreater.addRRset E c rrset).1)
    (f : Feed) (rr : RR) (hok : (collatorAddRR E f rr).2 = none) (hP : I f.creator) :
    I (collatorAddRR E f rr).1.creator := by
  unfold collatorAddRR at hok ⊢
  cases hcur : f.current_rrset_ with
  | none => simpa [hcur] using hP
  | some cur =>
    simp only [hcur] at hok ⊢
    split
    · rename_i hdiff
      simp only [hdiff, if_true] at hok
      cases hadd : CacheDataCreater.addRRset E f.creator cur with
      | mk c1 err =>
        cases err with
        | some e => simp [hadd] at hok
        | none =>
          have := hI f.creator cur (by rw [hadd]) hP
          rw [hadd] at this
          simpa using this
    · simpa using hP

theorem collatorFlush_invariant (E : Env) (I : CacheDataCreater → Prop)
    (hI : ∀ c rrset, (CacheDataCreater.addRRset E c rrset).2 = none → I c →
      I (CacheDataCreater.addRRset E c rrset).1)
    (f : Feed) (hok : (collatorFlush E f).2 = none) (hP : I f.creator) :
    I (collatorFlush E f).1.creator := by
  unfold collatorFlush at hok ⊢
  cases hcur : f.current_rrset_ with
  | none => simpa [hcur] using hP
  | some cur =>
    simp only [hcur] at hok ⊢
    cases hadd : CacheDataCreater.addRRset E f.creator cur with
    | mk c1 err =>
      cases err with
      | some e => simp [hadd] at hok
      | none =>
        have := hI f.creator cur (by rw [hadd]) hP
        rw [hadd] at this
        simpa using this

theorem loadIncremental_invariant (E : Env) (I : CacheDataCreater → Prop)
    (hI : ∀ c rrset, (CacheDataCreater.addRRset E c rrset).2 = none → I c →
      I (CacheDataCreater.addRRset E c rrset).1) :
    ∀ (ls : List SrcLine) (n : Nat) (f : Feed),
      (loadIncremental E n ls f).error = none → I f.creator →
      I (loadIncremental E n ls f).feed.creator := by
  intro ls
  induction ls with
  | nil =>
    intro n f _ hP
    cases n <;> simpa [loadIncremental] using hP
  | cons l ls ih =>
    intro n f hok hP
    cases n with
    | zero => simpa [loadIncremental] using hP
    | succ n =>
      unfold loadIncremental at hok ⊢
      cases hend : l.ending with
      | failure => simp [hend] at hok
      | eof =>
        cases hrr : l.rr with
        | bad => simp [hend, hrr] at hok
        | skip => simpa [hend, hrr] using hP
        | rr r =>
          simp only [hend, hrr] at hok ⊢
          cases hadd : collatorAddRR E f r with
          | mk f1 err =>
            cases err with
            | some e => simp [hadd] at hok
            | none =>
              have hP1 := collatorAddRR_invariant E I hI f r (by rw [hadd]) hP
              rw [hadd] at hP1
              simpa using hP1
      | newline =>
        cases hrr : l.rr with
        | bad => simp [hend, hrr] at hok
        | skip =>
          simp only [hend, hrr] at hok ⊢
          exact ih (n + 1) f hok hP
        | rr r =>
          simp only [hend, hrr] at hok ⊢
          cases hadd : collatorAddRR E f r with
          | mk f1 err =>
            cases err with
            | some e => simp [hadd] at hok
            | none =>
              simp only [hadd] at hok ⊢
              have hP1 := collatorAddRR_invariant E I hI f r (by rw [hadd]) hP
              rw [hadd] at hP1
              exact ih n f1 hok hP1

theorem renderRecord_invariant (E : Env) (I : CacheDataCreater → Prop)
    (hI : ∀ c rrset, (CacheDataCreater.addRRset E c rrset).2 = none → I c →
      I (CacheDataCreater.addRRset E c rrset).1)
    (c : CacheDataCreater) (qname : Name) (qtype qclass a s : Nat) (rest : List SrcLine)
    (hok : (renderRecord E c qname qtype qclass a s rest).error = none)
    (h0 : I (c.start E qname qtype qclass a s)) :
    I (renderRecord E c qname qtype qclass a s rest).feed.creator := by
  unfold renderRecord at hok ⊢
  simp only at hok ⊢
  generalize hl1 : (if a > 0 then loadIncremental E a rest
    ⟨c.start E qname qtype qclass a s, none⟩
    else (⟨⟨c.start E qname qtype qclass a s, none⟩, rest, false, none⟩ : Loaded)) = l1
    at hok ⊢
  have h1 : l1.error = none → I l1.feed.creator := by
    intro he
    rw [← hl1] at he ⊢
    split
    · rename_i ha
      simp only [ha, if_true] at he
      exact loadIncremental_invariant E I hI rest a _ he h0
    · exact h0
  cases he1 : l1.error with
  | some e => simp [he1] at hok
  | none =>
    simp only [he1] at hok ⊢
    have hP1 := h1 he1
    generalize hl2 : (if s > 0 then
        if l1.complete = true then
          (⟨l1.feed, l1.rest, true, some LoadError.invalidOperation⟩ : Loaded)
        else loadIncremental E s l1.rest l1.feed
      else l1) = l2 at hok ⊢
    have h2 : l2.error = none → I l2.feed.creator := by
      intro he
      rw [← hl2] at he ⊢
      split
      · rename_i hs
        simp only [hs, if_true] at he
        split
        · rename_i hc
          simp [hc] at he
        · rename_i hc
          simp only [hc, if_false] at he
          exact loadIncremental_invariant E I hI l1.rest s _ he hP1
      · exact hP1
    cases he2 : l2.error with
    | some e => simp [he2] at hok
    | none =>
      simp only [he2] at hok ⊢
      have hP2 := h2 he2
      cases hfl : collatorFlush E l2.feed with
      | mk f3 e =>
        simp only [hfl] at hok ⊢
        have := collatorFlush_invariant E I hI l2.feed (by rw [hfl]; exact hok) hP2
        rw [hfl] at this
        exact this

theorem renderRecord_reach (E : Env) (c : CacheDataCreater) (qname : Name)
    (qtype qclass a s : Nat) (rest : List SrcLine)
    (hok : (renderRecord E c qname qtype qclass a s rest).error = none) :
    ∃ rrsets, addRRsets E (c.start E qname qtype qclass a s) rrsets =
      ((renderRecord E c qname qtype qclass a s rest).feed.creator, none) := by
  apply renderRecord_invariant E
    (fun x => ∃ rrsets, addRRsets E (c.start E qname qtype qclass a s) rrsets = (x, none))
    _ c qname qtype qclass a s rest hok ⟨[], rfl⟩
  rintro x rrset hx ⟨rrsets, hr⟩
  refine ⟨rrsets ++ [rrset], ?_⟩
  rw [addRRsets_append_one E rrsets _ x rrset hr]
  cases hadd : CacheDataCreater.addRRset E x rrset with
  | mk c1 err =>
    rw [hadd] at hx
    simp only at hx
    rw [hx]

theorem pass_reach (E : Env) (st : LoaderState) (line : SrcLine) (rest : List SrcLine)
    (q : Query) (hq : parseQuery E (readParams E st line.words) = Except.ok q)
    (h : (pass E st line rest).error = none) :
    ∃ rrsets, addRRsets E (st.creator.start E q.qname q.qtype q.qclass
        (readParams E st line.words).ans_count (readParams E st line.words).soa_count) rrsets =
      ((pass E st line rest).state.creator, none) := by
  obtain ⟨_, hc, _⟩ := pass_ok_buckets E st line rest q hq h
  obtain ⟨q1, hq1, _, hpass⟩ := pass_ok E st line rest h
  have hqq : q1 = q := by
    rw [hq] at hq1
    exact (Except.ok.inj hq1).symm
  subst hqq
  rw [hpass] at h
  have hrender := (loadQuery_ok E _ q1 rest h).1
  rw [readParams_creator] at hrender
  rw [hc]
  exact renderRecord_reach E st.creator _ _ _ _ _ rest hrender

/-! ## The rotatable flag of an entry -/

theorem dataLen_rot_iff (E : Env) (hE : FlagsWF E) (c : CacheDataCreater)
    (hm : c.renderer_.getLength - c.offset0_ ≤ E.MASK_OFFSET) :
    dataLen E c &&& E.FLAG_ROTATABLE = E.FLAG_ROTATABLE ↔ c.rotatable_ = true := by
  constructor
  · intro h
    by_contra hr
    have hf : c.rotatable_ = false := by simpa using hr
    have hlt := hE.mask_lt
    unfold dataLen at h
    rw [hf] at h
    simp only [Bool.false_eq_true, if_false, Nat.or_zero] at h
    rw [Nat.mod_eq_of_lt (by omega), hE.rot_mask _ hm] at h
    exact hE.rot_ne h.symm
  · exact dataLen_and_rot E hE c hm

/-- C29: for the entry a completed pass builds, the RRsets the pass handed to `addRRset`
after `start` lead to the creator the entry is built from; the rotatable flag packed into
the entry's `data_len` is set if and only if one of these RRsets was rotatable when it was
added (answer counter positive, more than one member, type A or AAAA), which holds if and
only if some word of the entry's offset table carries both `FLAG_START_RRSET` and
`FLAG_ROTATABLE`. -/
theorem C29_entry_rotatable_flag (E : Env) (hE : FlagsWF E) (st : LoaderState)
    (line : SrcLine) (rest : List SrcLine) (q : Query)
    (hq : parseQuery E (readParams E st line.words) = Except.ok q)
    (h : (pass E st line rest).error = none) :
    ∃ rrsets, addRRsets E (st.creator.start E q.qname q.qtype q.qclass
          (readParams E st line.words).ans_count (readParams E st line.words).soa_count)
          rrsets = ((pass E st line rest).state.creator, none) ∧
      ((builtEntry E st line rest q).data_len_ &&& E.FLAG_ROTATABLE = E.FLAG_ROTATABLE ↔
        anyRotatable E (st.creator.start E q.qname q.qtype q.qclass
          (readParams E st line.words).ans_count (readParams E st line.words).soa_count)
          rrsets = true) ∧
      (anyRotatable E (st.creator.start E q.qname q.qtype q.qclass
          (readParams E st line.words).ans_count (readParams E st line.words).soa_count)
          rrsets = true ↔
        ∃ w ∈ (builtEntry E st line rest q).offsetBuf,
          hasStart E w = true ∧ hasRotatable E w = true) := by
  obtain ⟨rrsets, hr⟩ := pass_reach E st line rest q hq h
  obtain ⟨_, _, _, hm, _, _⟩ := pass_ok_buckets E st line rest q hq h
  refine ⟨rrsets, hr, ?_⟩
  have hok : (addRRsets E (st.creator.start E q.qname q.qtype q.qclass
      (readParams E st line.words).ans_count (readParams E st line.words).soa_count)
      rrsets).2 = none := by rw [hr]
  obtain ⟨_, hoff⟩ := addRRsets_mono E rrsets _ hok
  have hfit : (addRRsets E (st.creator.start E q.qname q.qtype q.qclass
      (readParams E st line.words).ans_count (readParams E st line.words).soa_count)
      rrsets).1.renderer_.getLength - (st.creator.start E q.qname q.qtype q.qclass
      (readParams E st line.words).ans_count (readParams E st line.words).soa_count).offset0_ ≤
      E.MASK_OFFSET := by
    rw [← hoff, hr]
    exact hm
  obtain ⟨⟨_, _, hex⟩, hrot⟩ := addRRsets_flagged E hE rrsets _ 0 false
    (start_flagged E st.creator q.qname q.qtype q.qclass _ _) rfl hok hfit
  rw [hr] at hex hrot
  simp only [Bool.false_or] at hex hrot
  constructor
  · show dataLen E (pass E st line rest).state.creator &&& E.FLAG_ROTATABLE =
      E.FLAG_ROTATABLE ↔ _
    rw [dataLen_rot_iff E hE _ hm, hrot]
  · exact hex.symm

/-- Witness for C29: the pass over `example.test IN A 0 2 0` and its two address records
builds an entry whose first offset word carries both flags. -/
theorem C29_entry_rotatable_flag_witness :
    (pass exampleEnv (initialState exampleEnv) lineExampleA2
      [lineRecordA1, lineRecordA2]).error = none ∧
    ∃ q, parseQuery exampleEnv (readParams exampleEnv (initialState exampleEnv)
        lineExampleA2.words) = Except.ok q ∧
      ∃ rrsets, ((builtEntry exampleEnv (initialState exampleEnv) lineExampleA2
          [lineRecordA1, lineRecordA2] q).data_len_ &&& exampleEnv.FLAG_ROTATABLE =
            exampleEnv.FLAG_ROTATABLE ↔
        anyRotatable exampleEnv ((initialState exampleEnv).creator.start exampleEnv q.qname
          q.qtype q.qclass (readParams exampleEnv (initialState exampleEnv)
            lineExampleA2.words).ans_count (readParams exampleEnv (initialState exampleEnv)
            lineExampleA2.words).soa_count) rrsets = true) :=
  ⟨by decide, ⟨exampleTestName, 1, 1, ⟨0⟩⟩, rfl,
   (C29_entry_rotatable_flag exampleEnv exampleEnv_flagsWF (initialState exampleEnv)
      lineExampleA2 [lineRecordA1, lineRecordA2] ⟨exampleTestName, 1, 1, ⟨0⟩⟩ rfl
      (by decide)).imp fun _ g => g.2.1⟩

end Kea
